import Mathlib

/-!
# SprigRig Sensor Hub: Modbus RTU slave engine

A shallow embedding of `Core/Src/modbus.c` (with the constants of
`Core/Inc/modbus.h`), of the address, conversion and write-hook functions of
`Core/Src/sensor_hub.c`, and proofs about them.

Conventions of the embedding:
* C unsigned machine integers (`uint8_t`, `uint16_t`, `uint32_t`) are natural
  numbers; the bitwise operators of the C text are the bitwise operators on
  `Nat`, and a narrowing store that the C text leaves implicit is written as an
  explicit `% 256` or `% 65536`.
* C arrays are lists, read with `List.getD _ _ 0` and written with `List.set`.
* The memory-mapped peripherals (the DE/RE GPIO line, the UART transmitter) and
  the registered write callback are observed through a chronological trace of
  `Event`s carried by the handle.
-/

/-! ## Constants of `modbus.h` -/

def MODBUS_FC_READ_HOLDING_REGS : Nat := 0x03
def MODBUS_FC_WRITE_SINGLE_REG : Nat := 0x06

def MODBUS_EX_ILLEGAL_FUNCTION : Nat := 0x01
def MODBUS_EX_ILLEGAL_ADDRESS : Nat := 0x02
def MODBUS_EX_ILLEGAL_VALUE : Nat := 0x03

def MODBUS_RX_BUFFER_SIZE : Nat := 256
def MODBUS_TX_BUFFER_SIZE : Nat := 256

def MODBUS_FRAME_TIMEOUT_MS : Nat := 5

/-! ## CRC engine -/

/-- CRC16 lookup table (Modbus polynomial 0xA001), `crc_table[256]` of `modbus.c`. -/
def crc_table : List Nat :=
  [0x0000, 0xC0C1, 0xC181, 0x0140, 0xC301, 0x03C0, 0x0280, 0xC241,
   0xC601, 0x06C0, 0x0780, 0xC741, 0x0500, 0xC5C1, 0xC481, 0x0440,
   0xCC01, 0x0CC0, 0x0D80, 0xCD41, 0x0F00, 0xCFC1, 0xCE81, 0x0E40,
   0x0A00, 0xCAC1, 0xCB81, 0x0B40, 0xC901, 0x09C0, 0x0880, 0xC841,
   0xD801, 0x18C0, 0x1980, 0xD941, 0x1B00, 0xDBC1, 0xDA81, 0x1A40,
   0x1E00, 0xDEC1, 0xDF81, 0x1F40, 0xDD01, 0x1DC0, 0x1C80, 0xDC41,
   0x1400, 0xD4C1, 0xD581, 0x1540, 0xD701, 0x17C0, 0x1680, 0xD641,
   0xD201, 0x12C0, 0x1380, 0xD341, 0x1100, 0xD1C1, 0xD081, 0x1040,
   0xF001, 0x30C0, 0x3180, 0xF141, 0x3300, 0xF3C1, 0xF281, 0x3240,
   0x3600, 0xF6C1, 0xF781, 0x3740, 0xF501, 0x35C0, 0x3480, 0xF441,
   0x3C00, 0xFCC1, 0xFD81, 0x3D40, 0xFF01, 0x3FC0, 0x3E80, 0xFE41,
   0xFA01, 0x3AC0, 0x3B80, 0xFB41, 0x3900, 0xF9C1, 0xF881, 0x3840,
   0x2800, 0xE8C1, 0xE981, 0x2940, 0xEB01, 0x2BC0, 0x2A80, 0xEA41,
   0xEE01, 0x2EC0, 0x2F80, 0xEF41, 0x2D00, 0xEDC1, 0xEC81, 0x2C40,
   0xE401, 0x24C0, 0x2580, 0xE541, 0x2700, 0xE7C1, 0xE681, 0x2640,
   0x2200, 0xE2C1, 0xE381, 0x2340, 0xE101, 0x21C0, 0x2080, 0xE041,
   0xA001, 0x60C0, 0x6180, 0xA141, 0x6300, 0xA3C1, 0xA281, 0x6240,
   0x6600, 0xA6C1, 0xA781, 0x6740, 0xA501, 0x65C0, 0x6480, 0xA441,
   0x6C00, 0xACC1, 0xAD81, 0x6D40, 0xAF01, 0x6FC0, 0x6E80, 0xAE41,
   0xAA01, 0x6AC0, 0x6B80, 0xAB41, 0x6900, 0xA9C1, 0xA881, 0x6840,
   0x7800, 0xB8C1, 0xB981, 0x7940, 0xBB01, 0x7BC0, 0x7A80, 0xBA41,
   0xBE01, 0x7EC0, 0x7F80, 0xBF41, 0x7D00, 0xBDC1, 0xBC81, 0x7C40,
   0xB401, 0x74C0, 0x7580, 0xB541, 0x7700, 0xB7C1, 0xB681, 0x7640,
   0x7200, 0xB2C1, 0xB381, 0x7340, 0xB101, 0x71C0, 0x7080, 0xB041,
   0x5000, 0x90C1, 0x9181, 0x5140, 0x9301, 0x53C0, 0x5280, 0x9241,
   0x9601, 0x56C0, 0x5780, 0x9741, 0x5500, 0x95C1, 0x9481, 0x5440,
   0x9C01, 0x5CC0, 0x5D80, 0x9D41, 0x5F00, 0x9FC1, 0x9E81, 0x5E40,
   0x5A00, 0x9AC1, 0x9B81, 0x5B40, 0x9901, 0x59C0, 0x5880, 0x9841,
   0x8801, 0x48C0, 0x4980, 0x8941, 0x4B00, 0x8BC1, 0x8A81, 0x4A40,
   0x4E00, 0x8EC1, 0x8F81, 0x4F40, 0x8D01, 0x4DC0, 0x4C80, 0x8C41,
   0x4400, 0x84C1, 0x8581, 0x4540, 0x8701, 0x47C0, 0x4680, 0x8641,
   0x8201, 0x42C0, 0x4380, 0x8341, 0x4100, 0x81C1, 0x8081, 0x4040]

/-- Calculate CRC16 for Modbus: `Modbus_CRC16(data, length)`.
The loop index `i` runs over `0 .. length - 1`; the body is the body of the C loop. -/
def Modbus_CRC16 (data : List Nat) (length : Nat) : Nat :=
  (List.range length).foldl
    (fun crc i =>
      let index := (crc ^^^ data.getD i 0) &&& 0xFF
      (crc >>> 8) ^^^ crc_table.getD index 0)
    0xFFFF

/-! ### Bit-wise reference CRC-16 (from the specification text) -/

/-- One bit of the reference reduction: shift right by one, and XOR with 0xA001
whenever the bit shifted out was 1. -/
def crc16_bit_step (crc : Nat) : Nat :=
  if crc % 2 = 1 then (crc >>> 1) ^^^ 0xA001 else crc >>> 1

/-- One byte of the reference reduction: XOR the byte into the low byte, then
eight bit steps. -/
def crc16_byte_bitwise (crc b : Nat) : Nat :=
  crc16_bit_step (crc16_bit_step (crc16_bit_step (crc16_bit_step
    (crc16_bit_step (crc16_bit_step (crc16_bit_step (crc16_bit_step (crc ^^^ b))))))))

/-- Bit-wise reference CRC-16 of a byte sequence, starting from 0xFFFF. -/
def crc16_bitwise (data : List Nat) : Nat :=
  data.foldl crc16_byte_bitwise 0xFFFF

/-! ## Engine state -/

/-- Observable actions of the engine on its environment, in the order they happen.
* `SetDE transmit`: `Modbus_SetDE`, a write of the DE/RE pin
  (`true` = transmit, `false` = receive);
* `UART_Transmit data`: `HAL_UART_Transmit(huart, tx_buffer, length, 100)`, with
  `data` the first `length` bytes of `tx_buffer` at the time of the call;
* `write_callback reg_addr value regs`: a call `mb->write_callback(reg_addr, value)`,
  with `regs` the contents of the holding-register array at the time of the call. -/
inductive Modbus_Event where
  | SetDE (transmit : Bool)
  | UART_Transmit (data : List Nat)
  | write_callback (reg_addr value : Nat) (regs : List Nat)
  deriving DecidableEq, Repr

/-- Modbus context structure `Modbus_HandleTypeDef` of `modbus.h`.
The peripheral handles `huart`, `de_port`, `de_pin` are represented by what is
done through them: `de_pin_set` is the level of the DE/RE pin and `trace` the
chronological list of observable actions. `holding_registers` is the content of
the external array the C pointer refers to; `write_callback` tells whether the
function pointer is non-NULL. -/
structure Modbus_HandleTypeDef where
  slave_address : Nat
  holding_registers : List Nat
  holding_reg_count : Nat
  rx_buffer : List Nat
  tx_buffer : List Nat
  rx_index : Nat
  last_rx_time : Nat
  frame_ready : Bool
  write_callback : Bool
  de_pin_set : Bool
  trace : List Modbus_Event
  deriving DecidableEq, Repr

/-! ## Operations of `modbus.c` -/

/-- Set DE/RE pin state (true = transmit, false = receive). -/
def Modbus_SetDE (mb : Modbus_HandleTypeDef) (transmit : Bool) : Modbus_HandleTypeDef :=
  { mb with de_pin_set := transmit, trace := mb.trace ++ [Modbus_Event.SetDE transmit] }

/-- Initialize Modbus slave. The buffers keep whatever the memory of the handle held. -/
def Modbus_Init (mb : Modbus_HandleTypeDef) (slave_address : Nat)
    (holding_regs : List Nat) (reg_count : Nat) : Modbus_HandleTypeDef :=
  let mb := { mb with
    slave_address := slave_address
    holding_registers := holding_regs
    holding_reg_count := reg_count
    rx_index := 0
    last_rx_time := 0
    frame_ready := false
    write_callback := false }
  Modbus_SetDE mb false

/-- UART RX callback, called from the UART IRQ handler with the received byte;
`tick` is the value `HAL_GetTick()` returns at that moment. -/
def Modbus_RxCallback (mb : Modbus_HandleTypeDef) (data : Nat) (tick : Nat) :
    Modbus_HandleTypeDef :=
  if mb.rx_index < MODBUS_RX_BUFFER_SIZE then
    { mb with
      rx_buffer := mb.rx_buffer.set mb.rx_index data
      rx_index := mb.rx_index + 1
      last_rx_time := tick }
  else mb

/-- Timer callback, called every 1 ms; `tick` is the value `HAL_GetTick()` returns.
The subtraction is the `uint32_t` subtraction of the C text. -/
def Modbus_TimerCallback (mb : Modbus_HandleTypeDef) (tick : Nat) : Modbus_HandleTypeDef :=
  if mb.rx_index > 0 ∧ ¬ mb.frame_ready then
    let elapsed := (tick + 2 ^ 32 - mb.last_rx_time) % 2 ^ 32
    if elapsed ≥ MODBUS_FRAME_TIMEOUT_MS then { mb with frame_ready := true } else mb
  else mb

/-- Send response over RS485: switch to transmit, hand the first `length` bytes of
`tx_buffer` to the UART, wait for transmission complete, switch back to receive.
The two settle delays and the wait on the transmission-complete flag have no
effect on the state and are not represented. -/
def Modbus_SendResponse (mb : Modbus_HandleTypeDef) (length : Nat) : Modbus_HandleTypeDef :=
  let mb := Modbus_SetDE mb true
  let mb := { mb with trace := mb.trace ++ [Modbus_Event.UART_Transmit (mb.tx_buffer.take length)] }
  Modbus_SetDE mb false

/-- Send exception response. -/
def Modbus_SendException (mb : Modbus_HandleTypeDef) (function exception : Nat) :
    Modbus_HandleTypeDef :=
  let mb := { mb with tx_buffer := mb.tx_buffer.set 0 mb.slave_address }
  let mb := { mb with tx_buffer := mb.tx_buffer.set 1 ((function ||| 0x80) % 256) }
  let mb := { mb with tx_buffer := mb.tx_buffer.set 2 exception }
  let crc := Modbus_CRC16 mb.tx_buffer 3
  let mb := { mb with tx_buffer := mb.tx_buffer.set 3 (crc &&& 0xFF) }
  let mb := { mb with tx_buffer := mb.tx_buffer.set 4 ((crc >>> 8) &&& 0xFF) }
  Modbus_SendResponse mb 5

/-- Handle Read Holding Registers (Function 0x03). -/
def Modbus_HandleReadHoldingRegisters (mb : Modbus_HandleTypeDef) : Modbus_HandleTypeDef :=
  if mb.rx_index < 8 then
    Modbus_SendException mb MODBUS_FC_READ_HOLDING_REGS MODBUS_EX_ILLEGAL_VALUE
  else
    let start_addr := ((mb.rx_buffer.getD 2 0 <<< 8) ||| mb.rx_buffer.getD 3 0) % 65536
    let quantity := ((mb.rx_buffer.getD 4 0 <<< 8) ||| mb.rx_buffer.getD 5 0) % 65536
    if quantity = 0 ∨ quantity > 125 then
      Modbus_SendException mb MODBUS_FC_READ_HOLDING_REGS MODBUS_EX_ILLEGAL_VALUE
    else if start_addr + quantity > mb.holding_reg_count then
      Modbus_SendException mb MODBUS_FC_READ_HOLDING_REGS MODBUS_EX_ILLEGAL_ADDRESS
    else
      let tx := mb.tx_buffer.set 0 mb.slave_address
      let tx := tx.set 1 MODBUS_FC_READ_HOLDING_REGS
      let tx := tx.set 2 ((quantity * 2) % 256)
      let st := (List.range quantity).foldl
        (fun (st : List Nat × Nat) i =>
          let value := mb.holding_registers.getD (start_addr + i) 0
          let tx := st.1.set st.2 ((value >>> 8) &&& 0xFF)
          let tx := tx.set (st.2 + 1) (value &&& 0xFF)
          (tx, st.2 + 2))
        (tx, 3)
      let tx := st.1
      let tx_index := st.2
      let crc := Modbus_CRC16 tx tx_index
      let tx := tx.set tx_index (crc &&& 0xFF)
      let tx := tx.set (tx_index + 1) ((crc >>> 8) &&& 0xFF)
      Modbus_SendResponse { mb with tx_buffer := tx } (tx_index + 2)

/-- Handle Write Single Register (Function 0x06). -/
def Modbus_HandleWriteSingleRegister (mb : Modbus_HandleTypeDef) : Modbus_HandleTypeDef :=
  if mb.rx_index < 8 then
    Modbus_SendException mb MODBUS_FC_WRITE_SINGLE_REG MODBUS_EX_ILLEGAL_VALUE
  else
    let reg_addr := ((mb.rx_buffer.getD 2 0 <<< 8) ||| mb.rx_buffer.getD 3 0) % 65536
    let value := ((mb.rx_buffer.getD 4 0 <<< 8) ||| mb.rx_buffer.getD 5 0) % 65536
    if reg_addr ≥ mb.holding_reg_count then
      Modbus_SendException mb MODBUS_FC_WRITE_SINGLE_REG MODBUS_EX_ILLEGAL_ADDRESS
    else
      let mb := { mb with holding_registers := mb.holding_registers.set reg_addr value }
      let mb :=
        if mb.write_callback then
          { mb with trace :=
              mb.trace ++ [Modbus_Event.write_callback reg_addr value mb.holding_registers] }
        else mb
      let tx := mb.tx_buffer.set 0 mb.slave_address
      let tx := tx.set 1 MODBUS_FC_WRITE_SINGLE_REG
      let tx := tx.set 2 ((reg_addr >>> 8) &&& 0xFF)
      let tx := tx.set 3 (reg_addr &&& 0xFF)
      let tx := tx.set 4 ((value >>> 8) &&& 0xFF)
      let tx := tx.set 5 (value &&& 0xFF)
      let crc := Modbus_CRC16 tx 6
      let tx := tx.set 6 (crc &&& 0xFF)
      let tx := tx.set 7 ((crc >>> 8) &&& 0xFF)
      Modbus_SendResponse { mb with tx_buffer := tx } 8

/-- The local `received_crc` of `Modbus_ProcessFrame`: the trailing two bytes of the
frame, low byte first. -/
def received_crc (mb : Modbus_HandleTypeDef) : Nat :=
  (mb.rx_buffer.getD (mb.rx_index - 2) 0 ||| (mb.rx_buffer.getD (mb.rx_index - 1) 0 <<< 8))
    % 65536

/-- The local `calculated_crc` of `Modbus_ProcessFrame`. -/
def calculated_crc (mb : Modbus_HandleTypeDef) : Nat :=
  Modbus_CRC16 mb.rx_buffer (mb.rx_index - 2)

/-- Process received Modbus frame. Each early `return` of the C text is an `else`-less
branch that gives the handle back unchanged. -/
def Modbus_ProcessFrame (mb : Modbus_HandleTypeDef) : Modbus_HandleTypeDef :=
  if mb.rx_index < 4 then mb
  else
    let address := mb.rx_buffer.getD 0 0
    if address ≠ mb.slave_address ∧ address ≠ 0 then mb
    else if received_crc mb ≠ calculated_crc mb then mb
    else
      let function := mb.rx_buffer.getD 1 0
      if function = MODBUS_FC_READ_HOLDING_REGS then Modbus_HandleReadHoldingRegisters mb
      else if function = MODBUS_FC_WRITE_SINGLE_REG then Modbus_HandleWriteSingleRegister mb
      else if address ≠ 0 then Modbus_SendException mb function MODBUS_EX_ILLEGAL_FUNCTION
      else mb

/-- Main polling function, called from the main loop. -/
def Modbus_Poll (mb : Modbus_HandleTypeDef) : Modbus_HandleTypeDef :=
  if mb.frame_ready then
    let mb := Modbus_ProcessFrame mb
    { mb with rx_index := 0, frame_ready := false }
  else mb

/-- Set write callback function; `callback` tells whether the pointer is non-NULL. -/
def Modbus_SetWriteCallback (mb : Modbus_HandleTypeDef) (callback : Bool) :
    Modbus_HandleTypeDef :=
  { mb with write_callback := callback }

/-! ## Auxiliary definitions used in the statements -/

/-- Body of the loop of `Modbus_CRC16` as a function of the running value and the byte read. -/
def crc_table_step (crc b : Nat) : Nat :=
  (crc >>> 8) ^^^ crc_table.getD ((crc ^^^ b) &&& 0xFF) 0

/-- Flip bit `k % 8` of byte `k / 8` of a frame (bit positions counted over the whole
frame, eight per byte). -/
def flip_bit (frame : List Nat) (k : Nat) : List Nat :=
  frame.set (k / 8) (frame.getD (k / 8) 0 ^^^ (1 <<< (k % 8)))

/-- A handle in which the bytes of `frame` have been received and marked ready, for a
slave at `slave` serving the registers `regs`; buffers are 256 bytes, zero-filled. -/
def request_handle (slave : Nat) (regs : List Nat) (frame : List Nat) (cb : Bool) :
    Modbus_HandleTypeDef :=
  { slave_address := slave
    holding_registers := regs
    holding_reg_count := regs.length
    rx_buffer := frame ++ List.replicate (256 - frame.length) 0
    tx_buffer := List.replicate 256 0
    rx_index := frame.length
    last_rx_time := 0
    frame_ready := true
    write_callback := cb
    de_pin_set := false
    trace := [] }

/-- The 16-bit big-endian request field at byte offset `i`, as both handlers parse it:
`(rx_buffer[i] << 8) | rx_buffer[i + 1]` stored to a `uint16_t`. -/
def request_word (mb : Modbus_HandleTypeDef) (i : Nat) : Nat :=
  ((mb.rx_buffer.getD i 0 <<< 8) ||| mb.rx_buffer.getD (i + 1) 0) % 65536

/-- A payload followed by its integrity trailer: `Modbus_CRC16` of the payload, low byte
first, high byte second. -/
def with_crc (p : List Nat) : List Nat :=
  p ++ [Modbus_CRC16 p p.length &&& 0xFF, Modbus_CRC16 p p.length >>> 8]

/-- Data bytes of a read response: for each of the `q` registers from address `s` on, the
high byte then the low byte of the value held in `regs`. -/
def read_payload (regs : List Nat) (s : Nat) : Nat → List Nat
  | 0 => []
  | q + 1 => read_payload regs s q ++
      [(regs.getD (s + q) 0 >>> 8) &&& 0xFF, regs.getD (s + q) 0 &&& 0xFF]

/-- Body of the register loop of `Modbus_HandleReadHoldingRegisters`, acting on the pair
(`tx_buffer`, `tx_index`). -/
def read_loop_body (regs : List Nat) (start_addr : Nat) (st : List Nat × Nat) (i : Nat) :
    List Nat × Nat :=
  ((st.1.set st.2 ((regs.getD (start_addr + i) 0 >>> 8) &&& 0xFF)).set (st.2 + 1)
      (regs.getD (start_addr + i) 0 &&& 0xFF), st.2 + 2)

/-- The pair (`tx_buffer`, `tx_index`) of `Modbus_HandleReadHoldingRegisters` after the
header bytes and the register loop, for start address `s` and quantity `q`. -/
def read_tx_state (mb : Modbus_HandleTypeDef) (s q : Nat) : List Nat × Nat :=
  (List.range q).foldl (read_loop_body mb.holding_registers s)
    (((mb.tx_buffer.set 0 mb.slave_address).set 1 MODBUS_FC_READ_HOLDING_REGS).set 2
      ((q * 2) % 256), 3)

/-- The buffered frame is ready and passes the three gates of `Modbus_ProcessFrame`:
length at least 4, address equal to the slave address or to broadcast 0, CRC trailer
equal to the computed CRC. -/
def frame_accepted (mb : Modbus_HandleTypeDef) : Prop :=
  mb.frame_ready = true ∧ 4 ≤ mb.rx_index ∧
  (mb.rx_buffer.getD 0 0 = mb.slave_address ∨ mb.rx_buffer.getD 0 0 = 0) ∧
  received_crc mb = calculated_crc mb

instance frame_accepted_decidable (mb : Modbus_HandleTypeDef) : Decidable (frame_accepted mb) :=
  inferInstanceAs (Decidable (_ ∧ _ ∧ _ ∧ _))

/-- The buffered frame is an accepted read-holding-registers request that passes the
checks of its handler (length, quantity, address range): the request is served. -/
def read_served (mb : Modbus_HandleTypeDef) : Prop :=
  frame_accepted mb ∧ mb.rx_buffer.getD 1 0 = MODBUS_FC_READ_HOLDING_REGS ∧ 8 ≤ mb.rx_index ∧
  request_word mb 4 ≠ 0 ∧ request_word mb 4 ≤ 125 ∧
  request_word mb 2 + request_word mb 4 ≤ mb.holding_reg_count

instance read_served_decidable (mb : Modbus_HandleTypeDef) : Decidable (read_served mb) :=
  inferInstanceAs (Decidable (_ ∧ _ ∧ _ ∧ _ ∧ _ ∧ _))

/-- The buffered frame is an accepted write-single-register request that passes the checks
of its handler (length, register address): the write is carried out. -/
def write_served (mb : Modbus_HandleTypeDef) : Prop :=
  frame_accepted mb ∧ mb.rx_buffer.getD 1 0 = MODBUS_FC_WRITE_SINGLE_REG ∧ 8 ≤ mb.rx_index ∧
  request_word mb 2 < mb.holding_reg_count

instance write_served_decidable (mb : Modbus_HandleTypeDef) : Decidable (write_served mb) :=
  inferInstanceAs (Decidable (_ ∧ _ ∧ _ ∧ _))

/-- The handle after the bytes of `frame` have arrived one by one at tick `tick` and the
timer check has run `MODBUS_FRAME_TIMEOUT_MS` ticks later. -/
def receive_frame (mb : Modbus_HandleTypeDef) (frame : List Nat) (tick : Nat) :
    Modbus_HandleTypeDef :=
  Modbus_TimerCallback (frame.foldl (fun m b => Modbus_RxCallback m b tick) mb)
    (tick + MODBUS_FRAME_TIMEOUT_MS)

/-- Example: slave 3 with 125 registers all holding 0x1234 has received the read request
`03 03 00 00 00 7D 84 09` (start address 0, quantity 125). -/
def example_read_request : Modbus_HandleTypeDef :=
  request_handle 3 (List.replicate 125 0x1234) [3, 3, 0, 0, 0, 125, 132, 9] true

/-- Example of the end-to-end scenario: slave 3 with 32 registers at 0 and a registered
write hook has received the write request `03 06 00 0B 0F FF BC 5A`. -/
def example_write_request : Modbus_HandleTypeDef :=
  request_handle 3 (List.replicate 32 0) [3, 6, 0, 11, 15, 255, 188, 90] true

/-- The three entry points through which the firmware drives the engine after
`Modbus_Init`: the UART interrupt (`Modbus_RxCallback` with the received byte, at tick
`tick`), the 1 ms tick interrupt (`Modbus_TimerCallback`), and the main loop
(`Modbus_Poll`). -/
inductive Modbus_Op where
  | RxCallback (data tick : Nat)
  | TimerCallback (tick : Nat)
  | Poll
  deriving DecidableEq, Repr

/-- One call of an entry point. -/
def Modbus_step (mb : Modbus_HandleTypeDef) : Modbus_Op → Modbus_HandleTypeDef
  | Modbus_Op.RxCallback data tick => Modbus_RxCallback mb data tick
  | Modbus_Op.TimerCallback tick => Modbus_TimerCallback mb tick
  | Modbus_Op.Poll => Modbus_Poll mb

/-- A sequence of calls of the entry points, each running to completion before the next. -/
def Modbus_run (mb : Modbus_HandleTypeDef) (ops : List Modbus_Op) : Modbus_HandleTypeDef :=
  ops.foldl Modbus_step mb

/-- The calls of `Modbus_RxCallback` that deliver the given (byte, tick) arrivals in order. -/
def rx_arrivals (arrivals : List (Nat × Nat)) : List Modbus_Op :=
  arrivals.map (fun a => Modbus_Op.RxCallback a.1 a.2)

/-- A handle whose memory is all zero (256-byte buffers), as before `Modbus_Init`. -/
def blank_handle : Modbus_HandleTypeDef :=
  { slave_address := 0
    holding_registers := []
    holding_reg_count := 0
    rx_buffer := List.replicate 256 0
    tx_buffer := List.replicate 256 0
    rx_index := 0
    last_rx_time := 0
    frame_ready := false
    write_callback := false
    de_pin_set := false
    trace := [] }

/-- Example of the timing scenario: after `Modbus_Init`, three bytes arrive at
t = 0, 1, 2 ms. -/
def example_three_bytes : Modbus_HandleTypeDef :=
  Modbus_run (Modbus_Init blank_handle 3 (List.replicate 32 0) 32)
    (rx_arrivals [(0x03, 0), (0x06, 1), (0x00, 2)])

/-- Example of a frame marked ready: after `Modbus_Init` of slave 3 with 32 registers, the
eight bytes of the write request `03 06 00 0B 0F FF BC 5A` arrive at t = 0 ms and the timer
check runs at t = 5 ms. -/
def example_ready_frame : Modbus_HandleTypeDef :=
  Modbus_run (Modbus_Init blank_handle 3 (List.replicate 32 0) 32)
    (rx_arrivals [(3, 0), (6, 0), (0, 0), (11, 0), (15, 0), (255, 0), (188, 0), (90, 0)] ++
      [Modbus_Op.TimerCallback 5])

/-- The events of a trace that concern the serial line: direction switches and
transmissions (calls of the write hook are left out). -/
def line_events (evs : List Modbus_Event) : List Modbus_Event :=
  evs.filter (fun e =>
    match e with
    | Modbus_Event.write_callback _ _ _ => false
    | _ => true)

/-- The frames handed to the UART in a trace, in order. -/
def transmitted (evs : List Modbus_Event) : List (List Nat) :=
  evs.filterMap (fun e =>
    match e with
    | Modbus_Event.UART_Transmit data => some data
    | _ => none)

/-- The exception code with which a ready frame that is not served is answered, if it is
answered at all: the outcome of the checks of `Modbus_ProcessFrame` and of the two handlers
that end in `Modbus_SendException`. -/
def unserved_exception (mb : Modbus_HandleTypeDef) : Option Nat :=
  if frame_accepted mb then
    if mb.rx_buffer.getD 1 0 = MODBUS_FC_READ_HOLDING_REGS then
      if mb.rx_index < 8 then some MODBUS_EX_ILLEGAL_VALUE
      else if request_word mb 4 = 0 ∨ request_word mb 4 > 125 then some MODBUS_EX_ILLEGAL_VALUE
      else some MODBUS_EX_ILLEGAL_ADDRESS
    else if mb.rx_buffer.getD 1 0 = MODBUS_FC_WRITE_SINGLE_REG then
      if mb.rx_index < 8 then some MODBUS_EX_ILLEGAL_VALUE else some MODBUS_EX_ILLEGAL_ADDRESS
    else if mb.rx_buffer.getD 0 0 ≠ 0 then some MODBUS_EX_ILLEGAL_FUNCTION
    else none
  else none

/-- The line events of an exception answer with code `e`, or none when there is no answer. -/
def exception_events (mb : Modbus_HandleTypeDef) : Option Nat → List Modbus_Event
  | none => []
  | some e =>
    [Modbus_Event.SetDE true,
     Modbus_Event.UART_Transmit
       (with_crc [mb.slave_address, (mb.rx_buffer.getD 1 0 ||| 0x80) % 256, e]),
     Modbus_Event.SetDE false]

/-- Two handles hold the same request for the same slave and register store: they agree on
the slave address, the register store and its size, the ready flag, `rx_index` and the
first `rx_index` bytes of `rx_buffer`. Everything else may differ, in particular the
contents of `tx_buffer` and the bytes of `rx_buffer` from `rx_index` on. -/
def same_request (m1 m2 : Modbus_HandleTypeDef) : Prop :=
  m1.slave_address = m2.slave_address ∧ m1.holding_registers = m2.holding_registers ∧
  m1.holding_reg_count = m2.holding_reg_count ∧ m1.frame_ready = m2.frame_ready ∧
  m1.rx_index = m2.rx_index ∧ m1.rx_buffer.take m1.rx_index = m2.rx_buffer.take m2.rx_index

instance same_request_decidable (m1 m2 : Modbus_HandleTypeDef) :
    Decidable (same_request m1 m2) :=
  inferInstanceAs (Decidable (_ ∧ _ ∧ _ ∧ _ ∧ _ ∧ _))

/-- Example: the request of `example_write_request` in a handle whose transmit buffer and
whose receive buffer beyond the frame hold other, stale bytes, with no hook registered and
a non-empty trace. -/
def example_write_request_stale : Modbus_HandleTypeDef :=
  { example_write_request with
    rx_buffer := [3, 6, 0, 11, 15, 255, 188, 90] ++ List.replicate 248 0x77
    tx_buffer := List.replicate 256 0xAA
    write_callback := false
    trace := [Modbus_Event.SetDE false] }

/-! ## Collaborator functions of `sensor_hub.c` -/

/-- Level of a GPIO input pin as `HAL_GPIO_ReadPin` returns it. -/
inductive GPIO_PinState where
  | GPIO_PIN_RESET
  | GPIO_PIN_SET
  deriving DecidableEq, Repr

/-- Read Modbus address from DIP switches: `SensorHub_ReadAddress`, as a function of the
levels read on the four switch pins. Switches are active-low: a closed switch reads
`GPIO_PIN_RESET`. The result is a `uint8_t`. -/
def SensorHub_ReadAddress (sw1 sw2 sw3 sw4 : GPIO_PinState) : Nat :=
  let address := 0
  let address := if sw1 = GPIO_PinState.GPIO_PIN_RESET then address ||| 0x01 else address
  let address := if sw2 = GPIO_PinState.GPIO_PIN_RESET then address ||| 0x02 else address
  let address := if sw3 = GPIO_PinState.GPIO_PIN_RESET then address ||| 0x04 else address
  let address := if sw4 = GPIO_PinState.GPIO_PIN_RESET then address ||| 0x08 else address
  (address + 1) % 256

def ADC_4MA_VALUE : Nat := 745
def ADC_20MA_VALUE : Nat := 3723
def ADC_CURRENT_SPAN : Nat := ADC_20MA_VALUE - ADC_4MA_VALUE

/-- Convert ADC value to current (mA * 100): `SensorHub_ConvertCurrent_mA_x100`.
The product is formed in `uint32_t` and the result is returned as `uint16_t`; the
subtraction is made after the clamp, so it cannot go below zero. -/
def SensorHub_ConvertCurrent_mA_x100 (adc_value : Nat) : Nat :=
  let adc_value := if adc_value < ADC_4MA_VALUE then ADC_4MA_VALUE else adc_value
  let adc_value := if adc_value > ADC_20MA_VALUE then ADC_20MA_VALUE else adc_value
  let current_x100 :=
    (400 + ((adc_value - ADC_4MA_VALUE) % 2 ^ 32 * 1600) % 2 ^ 32 / ADC_CURRENT_SPAN) % 2 ^ 32
  current_x100 % 65536

def REG_AOUT_1 : Nat := 11
def REG_AOUT_2 : Nat := 12

/-- The two output channels of the DAC (`DAC_CHANNEL_1`, `DAC_CHANNEL_2` of the HAL). -/
inductive DAC_Channel where
  | DAC_CHANNEL_1
  | DAC_CHANNEL_2
  deriving DecidableEq, Repr

/-- A call `HAL_DAC_SetValue(hdac, channel, DAC_ALIGN_12B_R, value)`. -/
structure DAC_SetValue where
  channel : DAC_Channel
  value : Nat
  deriving DecidableEq, Repr

/-- Set analog output value: `SensorHub_SetAnalogOutput`, giving the DAC writes it makes.
`hdac` tells whether `hub_config->hdac` is non-NULL. -/
def SensorHub_SetAnalogOutput (hdac : Bool) (channel value : Nat) : List DAC_SetValue :=
  if ¬ hdac then []
  else
    let value := if value > 4095 then 4095 else value
    match channel with
    | 0 => [{ channel := DAC_Channel.DAC_CHANNEL_1, value := value }]
    | 1 => [{ channel := DAC_Channel.DAC_CHANNEL_2, value := value }]
    | _ => []

/-- Callback for Modbus register writes: `SensorHub_OnRegisterWrite`, giving the DAC
writes it makes. -/
def SensorHub_OnRegisterWrite (hdac : Bool) (reg_addr value : Nat) : List DAC_SetValue :=
  if reg_addr = REG_AOUT_1 then SensorHub_SetAnalogOutput hdac 0 value
  else if reg_addr = REG_AOUT_2 then SensorHub_SetAnalogOutput hdac 1 value
  else []

/-! ## Further fixtures, pre-emption of `Modbus_Poll`, and its buffer accesses -/

/-- Example of a request too short for its fields: slave 3 with 32 zero registers has
received the four bytes `03 03 41 41`, a read request cut down to address, function and a
valid CRC trailer. -/
def example_short_read_request : Modbus_HandleTypeDef :=
  request_handle 3 (List.replicate 32 0) [3, 3, 65, 65] false

/-- Example of a full receive buffer: 256 bytes stored, the last of them at t = 100 ms. -/
def example_full_buffer : Modbus_HandleTypeDef :=
  { Modbus_Init blank_handle 3 (List.replicate 32 0) 32 with
    rx_index := 256
    last_rx_time := 100 }

/-- Example of a buffer whose last byte arrived two ticks before the 32-bit tick counter
wraps around. -/
def example_before_wrap : Modbus_HandleTypeDef :=
  { Modbus_Init blank_handle 3 (List.replicate 32 0) 32 with
    rx_index := 3
    last_rx_time := 0xFFFFFFFE }

/-- Example of a read request at the top of the 16-bit address range: slave 3 with 32 zero
registers has received `03 03 FF FF 00 01 85 CC`, a read of 1 register from address
0xFFFF. -/
def example_read_top_address : Modbus_HandleTypeDef :=
  request_handle 3 (List.replicate 32 0) [3, 3, 0xFF, 0xFF, 0, 1, 133, 204] false

/-- `Modbus_Poll` pre-empted by the UART interrupt while it handles a ready frame: the
body of `Modbus_Poll`, with the bytes of `arrivals` delivered by `Modbus_RxCallback` after
`Modbus_ProcessFrame(mb)` has run and before the statement `mb->rx_index = 0`. With no
arrival it is `Modbus_Poll`. -/
def Modbus_Poll_interrupted (mb : Modbus_HandleTypeDef) (arrivals : List (Nat × Nat)) :
    Modbus_HandleTypeDef :=
  if mb.frame_ready then
    let mb := Modbus_ProcessFrame mb
    let mb := Modbus_run mb (rx_arrivals arrivals)
    { mb with rx_index := 0, frame_ready := false }
  else mb

/-- One access to a buffer of the handle: a read of `rx_buffer[i]`, a read or a write of
`tx_buffer[i]`, a read or a write of `holding_registers[i]`. -/
inductive Modbus_Access where
  | rx_read (i : Nat)
  | tx_read (i : Nat)
  | tx_write (i : Nat)
  | reg_read (i : Nat)
  | reg_write (i : Nat)
  deriving DecidableEq, Repr

/-- The accesses of `Modbus_CRC16(data, length)`: `data[i]` for `i` from 0 to `length - 1`;
`read` tells which buffer `data` is. -/
def Modbus_CRC16_accesses (read : Nat → Modbus_Access) (length : Nat) : List Modbus_Access :=
  (List.range length).map read

/-- The accesses of `Modbus_SendResponse(mb, length)`: `HAL_UART_Transmit` reads the first
`length` bytes of `tx_buffer`. -/
def Modbus_SendResponse_accesses (length : Nat) : List Modbus_Access :=
  (List.range length).map Modbus_Access.tx_read

/-- The accesses of `Modbus_SendException`, in program order. -/
def Modbus_SendException_accesses : List Modbus_Access :=
  [Modbus_Access.tx_write 0, Modbus_Access.tx_write 1, Modbus_Access.tx_write 2] ++
  Modbus_CRC16_accesses Modbus_Access.tx_read 3 ++
  [Modbus_Access.tx_write 3, Modbus_Access.tx_write 4] ++
  Modbus_SendResponse_accesses 5

/-- Body of the register loop of `Modbus_HandleReadHoldingRegisters`, acting on the pair
(accesses so far, `tx_index`): one register read and two `tx_buffer[tx_index++]` writes. -/
def read_loop_accesses (start_addr : Nat) (st : List Modbus_Access × Nat) (i : Nat) :
    List Modbus_Access × Nat :=
  (st.1 ++ [Modbus_Access.reg_read (start_addr + i), Modbus_Access.tx_write st.2,
      Modbus_Access.tx_write (st.2 + 1)], st.2 + 2)

/-- The accesses of `Modbus_HandleReadHoldingRegisters`, in program order, following the
branches of the handler. -/
def Modbus_HandleReadHoldingRegisters_accesses (mb : Modbus_HandleTypeDef) :
    List Modbus_Access :=
  if mb.rx_index < 8 then Modbus_SendException_accesses
  else
    let start_addr := ((mb.rx_buffer.getD 2 0 <<< 8) ||| mb.rx_buffer.getD 3 0) % 65536
    let quantity := ((mb.rx_buffer.getD 4 0 <<< 8) ||| mb.rx_buffer.getD 5 0) % 65536
    [Modbus_Access.rx_read 2, Modbus_Access.rx_read 3, Modbus_Access.rx_read 4,
      Modbus_Access.rx_read 5] ++
    if quantity = 0 ∨ quantity > 125 then Modbus_SendException_accesses
    else if start_addr + quantity > mb.holding_reg_count then Modbus_SendException_accesses
    else
      let st := (List.range quantity).foldl (read_loop_accesses start_addr)
        ([Modbus_Access.tx_write 0, Modbus_Access.tx_write 1, Modbus_Access.tx_write 2], 3)
      let tx_index := st.2
      st.1 ++ Modbus_CRC16_accesses Modbus_Access.tx_read tx_index ++
      [Modbus_Access.tx_write tx_index, Modbus_Access.tx_write (tx_index + 1)] ++
      Modbus_SendResponse_accesses (tx_index + 2)

/-- The accesses of `Modbus_HandleWriteSingleRegister`, in program order, following the
branches of the handler. -/
def Modbus_HandleWriteSingleRegister_accesses (mb : Modbus_HandleTypeDef) :
    List Modbus_Access :=
  if mb.rx_index < 8 then Modbus_SendException_accesses
  else
    let reg_addr := ((mb.rx_buffer.getD 2 0 <<< 8) ||| mb.rx_buffer.getD 3 0) % 65536
    [Modbus_Access.rx_read 2, Modbus_Access.rx_read 3, Modbus_Access.rx_read 4,
      Modbus_Access.rx_read 5] ++
    if reg_addr ≥ mb.holding_reg_count then Modbus_SendException_accesses
    else
      [Modbus_Access.reg_write reg_addr,
       Modbus_Access.tx_write 0, Modbus_Access.tx_write 1, Modbus_Access.tx_write 2,
       Modbus_Access.tx_write 3, Modbus_Access.tx_write 4, Modbus_Access.tx_write 5] ++
      Modbus_CRC16_accesses Modbus_Access.tx_read 6 ++
      [Modbus_Access.tx_write 6, Modbus_Access.tx_write 7] ++
      Modbus_SendResponse_accesses 8

/-- The accesses of `Modbus_ProcessFrame`, in program order, following its early returns
and its dispatch. -/
def Modbus_ProcessFrame_accesses (mb : Modbus_HandleTypeDef) : List Modbus_Access :=
  if mb.rx_index < 4 then []
  else
    let address := mb.rx_buffer.getD 0 0
    [Modbus_Access.rx_read 0] ++
    if address ≠ mb.slave_address ∧ address ≠ 0 then []
    else
      [Modbus_Access.rx_read (mb.rx_index - 2), Modbus_Access.rx_read (mb.rx_index - 1)] ++
      Modbus_CRC16_accesses Modbus_Access.rx_read (mb.rx_index - 2) ++
      if received_crc mb ≠ calculated_crc mb then []
      else
        let function := mb.rx_buffer.getD 1 0
        [Modbus_Access.rx_read 1] ++
        if function = MODBUS_FC_READ_HOLDING_REGS then
          Modbus_HandleReadHoldingRegisters_accesses mb
        else if function = MODBUS_FC_WRITE_SINGLE_REG then
          Modbus_HandleWriteSingleRegister_accesses mb
        else if address ≠ 0 then Modbus_SendException_accesses
        else []

/-- The buffer accesses of `Modbus_Poll`, in program order. -/
def Modbus_Poll_accesses (mb : Modbus_HandleTypeDef) : List Modbus_Access :=
  if mb.frame_ready then Modbus_ProcessFrame_accesses mb else []

/-- An access is in bounds: a receive-buffer read is below the number of received bytes
and the buffer size, a transmit-buffer access is below the buffer size, a register access
is below the register count. -/
def access_in_bounds (mb : Modbus_HandleTypeDef) : Modbus_Access → Prop
  | Modbus_Access.rx_read i => i < mb.rx_index ∧ i < MODBUS_RX_BUFFER_SIZE
  | Modbus_Access.tx_read i => i < MODBUS_TX_BUFFER_SIZE
  | Modbus_Access.tx_write i => i < MODBUS_TX_BUFFER_SIZE
  | Modbus_Access.reg_read i => i < mb.holding_reg_count
  | Modbus_Access.reg_write i => i < mb.holding_reg_count

instance access_in_bounds_decidable (mb : Modbus_HandleTypeDef) (a : Modbus_Access) :
    Decidable (access_in_bounds mb a) := by
  cases a <;> unfold access_in_bounds <;> exact inferInstance

/-! ## Theorems -/

theorem shiftRight_xor (a b k : Nat) : (a ^^^ b) >>> k = a >>> k ^^^ b >>> k := by
  apply Nat.eq_of_testBit_eq
  intro i
  simp only [Nat.testBit_shiftRight, Nat.testBit_xor]

theorem crc16_bit_step_xor (x y : Nat) :
    crc16_bit_step (x ^^^ y) = crc16_bit_step x ^^^ crc16_bit_step y := by
  unfold crc16_bit_step
  have hx : x % 2 = 0 ∨ x % 2 = 1 := by omega
  have hy : y % 2 = 0 ∨ y % 2 = 1 := by omega
  have hxy : (x ^^^ y) % 2 = (x + y) % 2 := Nat.xor_mod_two_eq
  rw [shiftRight_xor]
  rcases hx with hx | hx <;> rcases hy with hy | hy
  · have h0 : ¬ (x ^^^ y) % 2 = 1 := by omega
    have h1 : ¬ x % 2 = 1 := by omega
    have h2 : ¬ y % 2 = 1 := by omega
    rw [if_neg h0, if_neg h1, if_neg h2]
  · have h0 : (x ^^^ y) % 2 = 1 := by omega
    have h1 : ¬ x % 2 = 1 := by omega
    rw [if_pos h0, if_neg h1, if_pos hy, Nat.xor_assoc]
  · have h0 : (x ^^^ y) % 2 = 1 := by omega
    have h2 : ¬ y % 2 = 1 := by omega
    rw [if_pos h0, if_pos hx, if_neg h2]
    rw [Nat.xor_assoc, Nat.xor_assoc, Nat.xor_comm (y >>> 1)]
  · have h0 : ¬ (x ^^^ y) % 2 = 1 := by omega
    rw [if_neg h0, if_pos hx, if_pos hy]
    rw [Nat.xor_assoc, ← Nat.xor_assoc 40961, Nat.xor_comm 40961 (y >>> 1), Nat.xor_assoc (y >>> 1),
      Nat.xor_self, Nat.xor_zero]

theorem crc16_bit_step_shiftLeft (h k : Nat) :
    crc16_bit_step (h <<< (k + 1)) = h <<< k := by
  unfold crc16_bit_step
  have h1 : h <<< (k + 1) = 2 * (h <<< k) := by
    rw [Nat.shiftLeft_succ]
  have h2 : (h <<< (k + 1)) % 2 ≠ 1 := by omega
  rw [if_neg h2, h1, Nat.shiftRight_eq_div_pow]
  omega

theorem split_low_byte (x : Nat) : x = ((x >>> 8) <<< 8) ^^^ (x &&& 0xFF) := by
  apply Nat.eq_of_testBit_eq
  intro i
  have : (255 : Nat) = 2 ^ 8 - 1 := by norm_num
  rw [this]
  simp only [Nat.testBit_xor, Nat.testBit_shiftLeft, Nat.testBit_shiftRight, Nat.testBit_and,
    Nat.testBit_two_pow_sub_one]
  by_cases hi : i < 8
  · have h8 : ¬ i ≥ 8 := by omega
    simp [hi, h8]
  · have : 8 + (i - 8) = i := by omega
    have h8 : i ≥ 8 := by omega
    simp [hi, this, h8]

theorem xor_byte_shiftRight (crc b : Nat) (hb : b < 256) : (crc ^^^ b) >>> 8 = crc >>> 8 := by
  rw [shiftRight_xor]
  have : b >>> 8 = 0 := by
    rw [Nat.shiftRight_eq_div_pow]; omega
  rw [this, Nat.xor_zero]

set_option maxRecDepth 100000 in
theorem crc_table_eq_bits8 : ∀ i, i < 256 → crc_table.getD i 0 = crc16_byte_bitwise i 0 := by
  decide

theorem crc16_byte_bitwise_xor_zero (x b : Nat) :
    crc16_byte_bitwise x b = crc16_byte_bitwise (x ^^^ b) 0 := by
  simp only [crc16_byte_bitwise, Nat.xor_zero]

theorem crc16_bits8_xor (x y : Nat) :
    crc16_byte_bitwise (x ^^^ y) 0 = crc16_byte_bitwise x 0 ^^^ crc16_byte_bitwise y 0 := by
  simp only [crc16_byte_bitwise, Nat.xor_zero, crc16_bit_step_xor]

theorem crc16_bits8_shiftLeft (h : Nat) : crc16_byte_bitwise (h <<< 8) 0 = h := by
  simp only [crc16_byte_bitwise, Nat.xor_zero, crc16_bit_step_shiftLeft]
  simp

theorem crc_table_step_eq (crc b : Nat) (hb : b < 256) :
    crc_table_step crc b = crc16_byte_bitwise crc b := by
  have hlt : (crc ^^^ b) &&& 0xFF < 256 := Nat.and_lt_two_pow _ (by norm_num : 0xFF < 2 ^ 8)
  rw [crc16_byte_bitwise_xor_zero]
  conv => rhs; rw [split_low_byte (crc ^^^ b)]
  rw [crc16_bits8_xor, crc16_bits8_shiftLeft, xor_byte_shiftRight _ _ hb,
    ← crc_table_eq_bits8 _ hlt]
  rfl

theorem Modbus_CRC16_eq_foldl (data : List Nat) (length : Nat) (h : length ≤ data.length) :
    Modbus_CRC16 data length = (data.take length).foldl crc_table_step 0xFFFF := by
  induction length with
  | zero => simp [Modbus_CRC16]
  | succ n ih =>
    have hn : n < data.length := by omega
    have ih1 := ih (by omega)
    unfold Modbus_CRC16 at ih1 ⊢
    rw [List.range_succ, List.foldl_append, ih1, List.take_succ, List.foldl_append]
    simp [List.getElem?_eq_getElem hn, List.getD_eq_getElem?_getD, crc_table_step]

theorem crc_foldl_eq (data : List Nat) (hb : ∀ b ∈ data, b < 256) (c : Nat) :
    data.foldl crc_table_step c = data.foldl crc16_byte_bitwise c := by
  induction data generalizing c with
  | nil => rfl
  | cons b t ih =>
    simp only [List.foldl_cons]
    rw [crc_table_step_eq c b (hb b (List.mem_cons_self _ _))]
    exact ih (fun x hx => hb x (List.mem_cons_of_mem _ hx)) _

/-- C1. For every byte sequence, the table-driven `Modbus_CRC16` equals the bit-wise
CRC-16 reference (start from 0xFFFF; per byte, XOR into the low byte, then eight times
shift right and XOR with 0xA001 when the bit shifted out was 1); on the empty sequence
both are 0xFFFF. -/
theorem Modbus_CRC16_eq_bitwise (data : List Nat) (hb : ∀ b ∈ data, b < 256) :
    Modbus_CRC16 data data.length = crc16_bitwise data ∧ Modbus_CRC16 [] 0 = 0xFFFF := by
  refine ⟨?_, rfl⟩
  rw [Modbus_CRC16_eq_foldl data data.length (Nat.le_refl _), List.take_length]
  exact crc_foldl_eq data hb _

theorem Modbus_CRC16_eq_bitwise_witness :
    (∀ b ∈ [1, 3, 0, 0, 0, 10], b < 256) ∧
    (Modbus_CRC16 [1, 3, 0, 0, 0, 10] [1, 3, 0, 0, 0, 10].length
        = crc16_bitwise [1, 3, 0, 0, 0, 10] ∧ Modbus_CRC16 [] 0 = 0xFFFF) :=
  ⟨by decide, Modbus_CRC16_eq_bitwise [1, 3, 0, 0, 0, 10] (by decide)⟩

theorem Modbus_CRC16_zero (data : List Nat) : Modbus_CRC16 data 0 = 0xFFFF := rfl

theorem Modbus_CRC16_succ (data : List Nat) (m : Nat) :
    Modbus_CRC16 data (m + 1) = crc_table_step (Modbus_CRC16 data m) (data.getD m 0) := by
  unfold Modbus_CRC16
  rw [List.range_succ, List.foldl_append]
  rfl

theorem Modbus_CRC16_congr (d1 d2 : List Nat) (m : Nat)
    (h : ∀ i, i < m → d1.getD i 0 = d2.getD i 0) : Modbus_CRC16 d1 m = Modbus_CRC16 d2 m := by
  induction m with
  | zero => rfl
  | succ n ih =>
    rw [Modbus_CRC16_succ, Modbus_CRC16_succ, ih (fun i hi => h i (by omega)), h n (by omega)]

set_option maxRecDepth 100000 in
theorem crc_table_lt : ∀ i, i < 256 → crc_table.getD i 0 < 65536 := by
  decide

theorem crc_table_step_lt (crc b : Nat) (hc : crc < 65536) : crc_table_step crc b < 65536 := by
  unfold crc_table_step
  have h1 : crc >>> 8 < 2 ^ 16 := by
    rw [Nat.shiftRight_eq_div_pow]; omega
  have hlt : (crc ^^^ b) &&& 0xFF < 256 := Nat.and_lt_two_pow _ (by norm_num : 0xFF < 2 ^ 8)
  have h2 : crc_table.getD ((crc ^^^ b) &&& 0xFF) 0 < 2 ^ 16 := crc_table_lt _ hlt
  exact Nat.xor_lt_two_pow h1 h2

theorem Modbus_CRC16_lt (data : List Nat) (m : Nat) : Modbus_CRC16 data m < 65536 := by
  induction m with
  | zero => rw [Modbus_CRC16_zero]; norm_num
  | succ n ih => rw [Modbus_CRC16_succ]; exact crc_table_step_lt _ _ ih

theorem getD_take (l : List Nat) (k i : Nat) (h : i < k) :
    (l.take k).getD i 0 = l.getD i 0 := by
  simp [List.getD_eq_getElem?_getD, List.getElem?_take, h]

theorem getD_set_ne (l : List Nat) (i j a : Nat) (h : i ≠ j) :
    (l.set i a).getD j 0 = l.getD j 0 := by
  simp [List.getD_eq_getElem?_getD, List.getElem?_set_ne h]

theorem getD_set_eq (l : List Nat) (i a : Nat) (h : i < l.length) :
    (l.set i a).getD i 0 = a := by
  simp [List.getD_eq_getElem?_getD, h]

theorem getD_lt_of_forall (l : List Nat) (i B : Nat) (hB : 0 < B) (h : ∀ b ∈ l, b < B) :
    l.getD i 0 < B := by
  by_cases hi : i < l.length
  · rw [List.getD_eq_getElem _ _ hi]
    exact h _ (List.getElem_mem _)
  · rw [List.getD_eq_default _ _ (by omega)]
    exact hB

theorem bytes_or_shift (lo hi : Nat) (hlo : lo < 256) (hhi : hi < 256) :
    (lo ||| (hi <<< 8)) % 65536 = 256 * hi + lo := by
  have h := Nat.mul_add_lt_is_or (by simpa using hlo : lo < 2 ^ 8) hi
  rw [Nat.lor_comm, Nat.shiftLeft_eq, Nat.mul_comm, ← h]
  omega

theorem crc_split_bytes (crc : Nat) (h : crc < 65536) :
    ((crc &&& 0xFF) ||| ((crc >>> 8) <<< 8)) % 65536 = crc := by
  have h1 : crc &&& 0xFF = crc % 256 := by
    have := Nat.and_pow_two_sub_one_eq_mod crc 8
    simpa using this
  have h2 : crc >>> 8 = crc / 256 := by rw [Nat.shiftRight_eq_div_pow]
  rw [bytes_or_shift _ _ (by rw [h1]; omega) (by rw [h2]; omega), h1, h2]
  omega

theorem crc16_bit_step_lt (x : Nat) (hx : x < 65536) : crc16_bit_step x < 65536 := by
  unfold crc16_bit_step
  have h1 : x >>> 1 < 2 ^ 16 := by
    rw [Nat.shiftRight_eq_div_pow]; omega
  split
  · exact Nat.xor_lt_two_pow h1 (by norm_num)
  · exact h1

theorem crc16_bit_step_testBit (x : Nat) (hx : x < 65536) :
    (crc16_bit_step x).testBit 15 = decide (x % 2 = 1) := by
  unfold crc16_bit_step
  have h15 : (x >>> 1).testBit 15 = false := by
    apply Nat.testBit_lt_two_pow
    rw [Nat.shiftRight_eq_div_pow]; omega
  split
  · next h =>
    rw [Nat.testBit_xor, h15]
    simp [h]
    decide
  · next h =>
    rw [h15]; simp [h]

theorem crc16_bit_step_inj (x y : Nat) (hx : x < 65536) (hy : y < 65536)
    (h : crc16_bit_step x = crc16_bit_step y) : x = y := by
  have hp : decide (x % 2 = 1) = decide (y % 2 = 1) := by
    rw [← crc16_bit_step_testBit x hx, ← crc16_bit_step_testBit y hy, h]
  have hp2 : (x % 2 = 1) ↔ (y % 2 = 1) := by simpa using hp
  unfold crc16_bit_step at h
  by_cases hx1 : x % 2 = 1
  · have hy1 := hp2.mp hx1
    rw [if_pos hx1, if_pos hy1] at h
    have := Nat.xor_left_injective h
    simp only [Nat.shiftRight_eq_div_pow] at this
    omega
  · have hy1 : ¬ y % 2 = 1 := fun c => hx1 (hp2.mpr c)
    rw [if_neg hx1, if_neg hy1] at h
    simp only [Nat.shiftRight_eq_div_pow] at h
    omega

theorem crc16_bits8_inj (x y : Nat) (hx : x < 65536) (hy : y < 65536)
    (h : crc16_byte_bitwise x 0 = crc16_byte_bitwise y 0) : x = y := by
  simp only [crc16_byte_bitwise, Nat.xor_zero] at h
  have l := crc16_bit_step_lt
  have i := crc16_bit_step_inj
  apply i _ _ hx hy
  apply i _ _ (l _ hx) (l _ hy)
  apply i _ _ (l _ (l _ hx)) (l _ (l _ hy))
  apply i _ _ (l _ (l _ (l _ hx))) (l _ (l _ (l _ hy)))
  apply i _ _ (l _ (l _ (l _ (l _ hx)))) (l _ (l _ (l _ (l _ hy))))
  apply i _ _ (l _ (l _ (l _ (l _ (l _ hx))))) (l _ (l _ (l _ (l _ (l _ hy)))))
  apply i _ _ (l _ (l _ (l _ (l _ (l _ (l _ hx)))))) (l _ (l _ (l _ (l _ (l _ (l _ hy))))))
  exact i _ _ (l _ (l _ (l _ (l _ (l _ (l _ (l _ hx))))))) (l _ (l _ (l _ (l _ (l _ (l _ (l _ hy))))))) h

theorem byte_lt_word (b : Nat) (h : b < 256) : b < 2 ^ 16 := by omega

theorem crc_table_step_inj_crc (c1 c2 b : Nat) (h1 : c1 < 65536) (h2 : c2 < 65536)
    (hb : b < 256) (h : crc_table_step c1 b = crc_table_step c2 b) : c1 = c2 := by
  rw [crc_table_step_eq _ _ hb, crc_table_step_eq _ _ hb, crc16_byte_bitwise_xor_zero c1,
    crc16_byte_bitwise_xor_zero c2] at h
  have e := crc16_bits8_inj _ _
    (Nat.xor_lt_two_pow (by simpa using h1 : c1 < 2 ^ 16) (byte_lt_word b hb))
    (Nat.xor_lt_two_pow (by simpa using h2 : c2 < 2 ^ 16) (byte_lt_word b hb)) h
  exact Nat.xor_left_injective e

theorem crc_table_step_inj_byte (c b1 b2 : Nat) (hc : c < 65536)
    (h1 : b1 < 256) (h2 : b2 < 256) (h : crc_table_step c b1 = crc_table_step c b2) :
    b1 = b2 := by
  rw [crc_table_step_eq _ _ h1, crc_table_step_eq _ _ h2, crc16_byte_bitwise_xor_zero c b1,
    crc16_byte_bitwise_xor_zero c b2] at h
  have e := crc16_bits8_inj _ _
    (Nat.xor_lt_two_pow (by simpa using hc : c < 2 ^ 16) (byte_lt_word b1 h1))
    (Nat.xor_lt_two_pow (by simpa using hc : c < 2 ^ 16) (byte_lt_word b2 h2)) h
  exact Nat.xor_right_injective e

theorem one_shiftLeft_lt (j : Nat) (hj : j < 8) : 1 <<< j < 256 ∧ 1 <<< j ≠ 0 := by
  interval_cases j <;> decide

theorem xor_bit_ne (x j : Nat) : x ^^^ (1 <<< j) ≠ x := by
  intro h
  have h0 : x ^^^ (1 <<< j) = x ^^^ 0 := by rw [Nat.xor_zero]; exact h
  have := Nat.xor_right_injective h0
  rw [Nat.shiftLeft_eq, Nat.one_mul] at this
  exact absurd this (Nat.pos_iff_ne_zero.mp (Nat.two_pow_pos j))

theorem xor_bit_lt (x j : Nat) (hx : x < 256) (hj : j < 8) : x ^^^ (1 <<< j) < 256 :=
  Nat.xor_lt_two_pow (by simpa using hx : x < 2 ^ 8) (by simpa using (one_shiftLeft_lt j hj).1)

/-- A byte changed at index `i` changes the CRC of every longer prefix. -/
theorem Modbus_CRC16_set_ne (data : List Nat) (hb : ∀ b ∈ data, b < 256) (i v : Nat)
    (hi : i < data.length) (hv : v < 256) (hne : v ≠ data.getD i 0) (m : Nat) (hm : i < m) :
    Modbus_CRC16 (data.set i v) m ≠ Modbus_CRC16 data m := by
  induction m with
  | zero => omega
  | succ n ih =>
    rw [Modbus_CRC16_succ, Modbus_CRC16_succ]
    by_cases hin : i = n
    · subst hin
      have hc : Modbus_CRC16 (data.set i v) i = Modbus_CRC16 data i :=
        Modbus_CRC16_congr _ _ _ (fun j hj => getD_set_ne _ _ _ _ (by omega))
      rw [hc, getD_set_eq _ _ _ hi]
      intro h
      exact hne (crc_table_step_inj_byte _ _ _ (Modbus_CRC16_lt _ _) hv
        (getD_lt_of_forall _ _ _ (by norm_num) hb) h)
    · have hlt : i < n := by omega
      rw [getD_set_ne _ _ _ _ hin]
      intro h
      exact ih hlt (crc_table_step_inj_crc _ _ _ (Modbus_CRC16_lt _ _) (Modbus_CRC16_lt _ _)
        (getD_lt_of_forall _ _ _ (by norm_num) hb) h)

/-- C2. For every payload `p` of at least 2 and at most 254 bytes, a receive buffer
holding the frame `p ++ [crc16(p) & 0xFF, crc16(p) >> 8]` (low byte first) passes the CRC
gate of the frame processor: the value rebuilt from the trailing two bytes equals
`Modbus_CRC16` of the preceding bytes. -/
theorem crc_trailer_passes_gate (p : List Nat) (hlo : 2 ≤ p.length) (hhi : p.length ≤ 254)
    (mb : Modbus_HandleTypeDef) (hidx : mb.rx_index = p.length + 2)
    (hbuf : mb.rx_buffer.take mb.rx_index =
      p ++ [Modbus_CRC16 p p.length &&& 0xFF, Modbus_CRC16 p p.length >>> 8]) :
    received_crc mb = calculated_crc mb := by
  have hget : ∀ i, i < p.length + 2 → mb.rx_buffer.getD i 0 =
      (p ++ [Modbus_CRC16 p p.length &&& 0xFF, Modbus_CRC16 p p.length >>> 8]).getD i 0 := by
    intro i hi
    rw [← hbuf, hidx, getD_take _ _ _ hi]
  have hcalc : calculated_crc mb = Modbus_CRC16 p p.length := by
    unfold calculated_crc
    rw [hidx, Nat.add_sub_cancel]
    apply Modbus_CRC16_congr
    intro i hi
    rw [hget i (by omega)]
    simp [List.getD_eq_getElem?_getD, List.getElem?_append_left hi]
  rw [hcalc]
  unfold received_crc
  rw [hidx, hget _ (by omega), hget _ (by omega)]
  have e1 : p.length + 2 - 2 = p.length := by omega
  have e2 : p.length + 2 - 1 = p.length + 1 := by omega
  rw [e1, e2]
  have e3 : p.length + 1 - p.length = 1 := by omega
  simp only [List.getD_eq_getElem?_getD, List.getElem?_append_right (Nat.le_refl _),
    List.getElem?_append_right (show p.length ≤ p.length + 1 by omega)]
  simp only [Nat.sub_self, e3, List.getElem?_cons_zero,
    List.getElem?_cons_succ, Option.getD_some]
  exact crc_split_bytes _ (Modbus_CRC16_lt _ _)

theorem crc_trailer_passes_gate_witness :
    received_crc
      { slave_address := 1, holding_registers := [], holding_reg_count := 0,
        rx_buffer := [1, 3, 0, 0, 0, 10, 0xC5, 0xCD, 9, 9], tx_buffer := [],
        rx_index := 8, last_rx_time := 0, frame_ready := true, write_callback := false,
        de_pin_set := false, trace := [] } =
    calculated_crc
      { slave_address := 1, holding_registers := [], holding_reg_count := 0,
        rx_buffer := [1, 3, 0, 0, 0, 10, 0xC5, 0xCD, 9, 9], tx_buffer := [],
        rx_index := 8, last_rx_time := 0, frame_ready := true, write_callback := false,
        de_pin_set := false, trace := [] } :=
  crc_trailer_passes_gate [1, 3, 0, 0, 0, 10] (by decide) (by decide) _ (by decide) (by decide)

/-- C3. For every frame of at most 256 bytes in the receive buffer whose trailing two
bytes are the correct CRC of the preceding bytes, and for every single bit position `k`
in the payload or in the trailer, the frame with that one bit flipped fails the CRC gate:
its trailer differs from `Modbus_CRC16` of its preceding bytes. -/
theorem single_bit_flip_fails_gate (mb : Modbus_HandleTypeDef)
    (hlen : mb.rx_buffer.length = 256) (hbytes : ∀ b ∈ mb.rx_buffer, b < 256)
    (hlo : 2 ≤ mb.rx_index) (hhi : mb.rx_index ≤ 256)
    (hok : received_crc mb = calculated_crc mb)
    (k : Nat) (hk : k < 8 * mb.rx_index) :
    received_crc { mb with rx_buffer := flip_bit mb.rx_buffer k } ≠
      calculated_crc { mb with rx_buffer := flip_bit mb.rx_buffer k } := by
  have hj : k % 8 < 8 := Nat.mod_lt _ (by norm_num)
  have hi : k / 8 < mb.rx_index := by omega
  have hil : k / 8 < mb.rx_buffer.length := by omega
  have hx : mb.rx_buffer.getD (k / 8) 0 < 256 := getD_lt_of_forall _ _ _ (by norm_num) hbytes
  have hv := xor_bit_lt _ _ hx hj
  have hne := xor_bit_ne (mb.rx_buffer.getD (k / 8) 0) (k % 8)
  unfold received_crc calculated_crc at *
  simp only [flip_bit]
  by_cases hpay : k / 8 < mb.rx_index - 2
  · rw [getD_set_ne _ _ _ _ (by omega), getD_set_ne _ _ _ _ (by omega), hok]
    exact fun h => Modbus_CRC16_set_ne _ hbytes _ _ hil hv hne _ hpay h.symm
  · have hc : Modbus_CRC16 (mb.rx_buffer.set (k / 8)
        (mb.rx_buffer.getD (k / 8) 0 ^^^ 1 <<< (k % 8))) (mb.rx_index - 2) =
        Modbus_CRC16 mb.rx_buffer (mb.rx_index - 2) :=
      Modbus_CRC16_congr _ _ _ (fun j hj => getD_set_ne _ _ _ _ (by omega))
    rw [hc, ← hok]
    have h0 : mb.rx_buffer.getD (mb.rx_index - 2) 0 < 256 :=
      getD_lt_of_forall _ _ _ (by norm_num) hbytes
    have h1 : mb.rx_buffer.getD (mb.rx_index - 1) 0 < 256 :=
      getD_lt_of_forall _ _ _ (by norm_num) hbytes
    rw [bytes_or_shift _ _ h0 h1]
    by_cases hcase : k / 8 = mb.rx_index - 2
    · rw [← hcase] at h0 ⊢
      rw [getD_set_eq _ _ _ hil, getD_set_ne _ _ _ _ (by omega), bytes_or_shift _ _ hv h1]
      omega
    · have hcase2 : k / 8 = mb.rx_index - 1 := by omega
      rw [← hcase2] at h1 ⊢
      rw [getD_set_eq _ _ _ hil, getD_set_ne _ _ _ _ (by omega), bytes_or_shift _ _ h0 hv]
      omega

theorem exists_cons5 (l : List Nat) (h : 5 ≤ l.length) :
    ∃ a b c d e r, l = a :: b :: c :: d :: e :: r := by
  match l, h with
  | a :: b :: c :: d :: e :: r, _ => exact ⟨a, b, c, d, e, r, rfl⟩

theorem hi_byte_mask (crc : Nat) (h : crc < 65536) : (crc >>> 8) &&& 0xFF = crc >>> 8 := by
  have h1 : crc >>> 8 < 256 := by rw [Nat.shiftRight_eq_div_pow]; omega
  have := Nat.and_pow_two_sub_one_eq_mod (crc >>> 8) 8
  have e : (crc >>> 8) &&& 0xFF = (crc >>> 8) % 256 := by simpa using this
  rw [e]; omega

theorem Modbus_SendException_trace (mb : Modbus_HandleTypeDef) (function exception : Nat)
    (hlen : 5 ≤ mb.tx_buffer.length) :
    (Modbus_SendException mb function exception).trace = mb.trace ++
      [Modbus_Event.SetDE true,
       Modbus_Event.UART_Transmit
         [mb.slave_address, (function ||| 0x80) % 256, exception,
          Modbus_CRC16 [mb.slave_address, (function ||| 0x80) % 256, exception] 3 &&& 0xFF,
          Modbus_CRC16 [mb.slave_address, (function ||| 0x80) % 256, exception] 3 >>> 8],
       Modbus_Event.SetDE false] := by
  obtain ⟨a, b, c, d, e, r, hl⟩ := exists_cons5 _ hlen
  have hc : Modbus_CRC16 (mb.slave_address :: ((function ||| 0x80) % 256) :: exception :: d :: e :: r) 3
      = Modbus_CRC16 [mb.slave_address, (function ||| 0x80) % 256, exception] 3 := by
    apply Modbus_CRC16_congr
    intro i hi
    interval_cases i <;> rfl
  simp only [Modbus_SendException, Modbus_SendResponse, Modbus_SetDE, hl, List.set_cons_zero,
    List.set_cons_succ, hc, List.take_succ_cons, List.take_zero, List.append_assoc,
    List.singleton_append, List.cons_append, List.nil_append,
    hi_byte_mask _ (Modbus_CRC16_lt _ _)]

theorem Modbus_SendException_regs (mb : Modbus_HandleTypeDef) (function exception : Nat) :
    (Modbus_SendException mb function exception).holding_registers = mb.holding_registers := rfl

theorem Modbus_Poll_ready (mb : Modbus_HandleTypeDef) (hready : mb.frame_ready = true) :
    Modbus_Poll mb = { Modbus_ProcessFrame mb with rx_index := 0, frame_ready := false } := by
  simp only [Modbus_Poll, hready, if_true]

theorem Modbus_ProcessFrame_short (mb : Modbus_HandleTypeDef) (hlen : mb.rx_index < 4) :
    Modbus_ProcessFrame mb = mb := by
  simp only [Modbus_ProcessFrame, hlen, if_true]

theorem Modbus_ProcessFrame_foreign (mb : Modbus_HandleTypeDef)
    (hslave : mb.rx_buffer.getD 0 0 ≠ mb.slave_address) (hbroad : mb.rx_buffer.getD 0 0 ≠ 0) :
    Modbus_ProcessFrame mb = mb := by
  simp only [Modbus_ProcessFrame, hslave, hbroad, ne_eq, not_false_eq_true, and_self, if_true,
    ite_self]

theorem Modbus_ProcessFrame_bad_crc (mb : Modbus_HandleTypeDef)
    (hcrc : received_crc mb ≠ calculated_crc mb) :
    Modbus_ProcessFrame mb = mb := by
  simp only [Modbus_ProcessFrame, hcrc, ne_eq, not_false_eq_true, if_true, ite_self]

theorem Modbus_ProcessFrame_dispatch (mb : Modbus_HandleTypeDef) (hlen : 4 ≤ mb.rx_index)
    (haddr : mb.rx_buffer.getD 0 0 = mb.slave_address ∨ mb.rx_buffer.getD 0 0 = 0)
    (hcrc : received_crc mb = calculated_crc mb) :
    Modbus_ProcessFrame mb =
      if mb.rx_buffer.getD 1 0 = MODBUS_FC_READ_HOLDING_REGS then
        Modbus_HandleReadHoldingRegisters mb
      else if mb.rx_buffer.getD 1 0 = MODBUS_FC_WRITE_SINGLE_REG then
        Modbus_HandleWriteSingleRegister mb
      else if mb.rx_buffer.getD 0 0 ≠ 0 then
        Modbus_SendException mb (mb.rx_buffer.getD 1 0) MODBUS_EX_ILLEGAL_FUNCTION
      else mb := by
  have h4 : ¬ mb.rx_index < 4 := by omega
  have ha : ¬ (mb.rx_buffer.getD 0 0 ≠ mb.slave_address ∧ mb.rx_buffer.getD 0 0 ≠ 0) := by
    intro h; rcases haddr with h1 | h1
    · exact h.1 h1
    · exact h.2 h1
  have hc : ¬ received_crc mb ≠ calculated_crc mb := fun h => h hcrc
  simp only [Modbus_ProcessFrame, if_neg h4, if_neg ha, if_neg hc]

/-- C4. For every ready frame of fewer than 4 bytes, whatever its contents, `Modbus_Poll`
produces no observable action at all (no byte handed to the UART, no switch of the
direction line, no call of the write hook), leaves the direction pin as it was and
leaves the register store unchanged. -/
theorem Modbus_Poll_short_frame_silent (mb : Modbus_HandleTypeDef)
    (hready : mb.frame_ready = true) (hlen : mb.rx_index < 4) :
    (Modbus_Poll mb).trace = mb.trace ∧
    (Modbus_Poll mb).de_pin_set = mb.de_pin_set ∧
    (Modbus_Poll mb).holding_registers = mb.holding_registers := by
  rw [Modbus_Poll_ready mb hready, Modbus_ProcessFrame_short mb hlen]
  exact ⟨rfl, rfl, rfl⟩

theorem Modbus_Poll_short_frame_silent_witness :
    (Modbus_Poll (request_handle 3 (List.replicate 32 0) [3, 6, 0] true)).trace =
      (request_handle 3 (List.replicate 32 0) [3, 6, 0] true).trace ∧
    (Modbus_Poll (request_handle 3 (List.replicate 32 0) [3, 6, 0] true)).de_pin_set =
      (request_handle 3 (List.replicate 32 0) [3, 6, 0] true).de_pin_set ∧
    (Modbus_Poll (request_handle 3 (List.replicate 32 0) [3, 6, 0] true)).holding_registers =
      (request_handle 3 (List.replicate 32 0) [3, 6, 0] true).holding_registers :=
  Modbus_Poll_short_frame_silent _ (by decide) (by decide)

/-- C5. For every ready frame whose first byte is neither the configured slave address
nor 0, `Modbus_Poll` produces no observable action (nothing transmitted, the direction
line never switched), and leaves the register store unchanged; the rest of the frame
plays no role, so this covers a well-formed frame with a valid CRC addressed to
slave + 1. -/
theorem Modbus_Poll_foreign_address_silent (mb : Modbus_HandleTypeDef)
    (hready : mb.frame_ready = true)
    (hslave : mb.rx_buffer.getD 0 0 ≠ mb.slave_address) (hbroad : mb.rx_buffer.getD 0 0 ≠ 0) :
    (Modbus_Poll mb).trace = mb.trace ∧
    (Modbus_Poll mb).de_pin_set = mb.de_pin_set ∧
    (Modbus_Poll mb).holding_registers = mb.holding_registers := by
  rw [Modbus_Poll_ready mb hready, Modbus_ProcessFrame_foreign mb hslave hbroad]
  exact ⟨rfl, rfl, rfl⟩

set_option maxRecDepth 100000 in
theorem Modbus_Poll_foreign_address_silent_witness :
    (received_crc (request_handle 3 (List.replicate 32 0) [4, 6, 0, 11, 15, 255, 189, 237] true)
      = calculated_crc
        (request_handle 3 (List.replicate 32 0) [4, 6, 0, 11, 15, 255, 189, 237] true)) ∧
    (Modbus_Poll
        (request_handle 3 (List.replicate 32 0) [4, 6, 0, 11, 15, 255, 189, 237] true)).trace =
      (request_handle 3 (List.replicate 32 0) [4, 6, 0, 11, 15, 255, 189, 237] true).trace ∧
    (Modbus_Poll
        (request_handle 3 (List.replicate 32 0) [4, 6, 0, 11, 15, 255, 189, 237] true)).de_pin_set =
      (request_handle 3 (List.replicate 32 0) [4, 6, 0, 11, 15, 255, 189, 237] true).de_pin_set ∧
    (Modbus_Poll
        (request_handle 3 (List.replicate 32 0)
          [4, 6, 0, 11, 15, 255, 189, 237] true)).holding_registers =
      (request_handle 3 (List.replicate 32 0)
        [4, 6, 0, 11, 15, 255, 189, 237] true).holding_registers :=
  ⟨by decide, Modbus_Poll_foreign_address_silent _ (by decide) (by decide) (by decide)⟩

/-- C6. For every ready frame of length at least 4 whose trailing two bytes (low byte
first) differ from `Modbus_CRC16` of the preceding bytes, `Modbus_Poll` produces no
observable action (nothing transmitted, no exception frame, no call of the write hook)
and leaves the register store unchanged. -/
theorem Modbus_Poll_bad_crc_silent (mb : Modbus_HandleTypeDef)
    (hready : mb.frame_ready = true) (_hlen : 4 ≤ mb.rx_index)
    (hcrc : received_crc mb ≠ calculated_crc mb) :
    (Modbus_Poll mb).trace = mb.trace ∧
    (Modbus_Poll mb).de_pin_set = mb.de_pin_set ∧
    (Modbus_Poll mb).holding_registers = mb.holding_registers := by
  rw [Modbus_Poll_ready mb hready, Modbus_ProcessFrame_bad_crc mb hcrc]
  exact ⟨rfl, rfl, rfl⟩

set_option maxRecDepth 100000 in
theorem Modbus_Poll_bad_crc_silent_witness :
    (Modbus_Poll
        (request_handle 3 (List.replicate 32 0) [3, 6, 0, 11, 15, 255, 0, 0] true)).trace =
      (request_handle 3 (List.replicate 32 0) [3, 6, 0, 11, 15, 255, 0, 0] true).trace ∧
    (Modbus_Poll
        (request_handle 3 (List.replicate 32 0) [3, 6, 0, 11, 15, 255, 0, 0] true)).de_pin_set =
      (request_handle 3 (List.replicate 32 0) [3, 6, 0, 11, 15, 255, 0, 0] true).de_pin_set ∧
    (Modbus_Poll
        (request_handle 3 (List.replicate 32 0)
          [3, 6, 0, 11, 15, 255, 0, 0] true)).holding_registers =
      (request_handle 3 (List.replicate 32 0)
        [3, 6, 0, 11, 15, 255, 0, 0] true).holding_registers :=
  Modbus_Poll_bad_crc_silent _ (by decide) (by decide) (by decide)

set_option maxRecDepth 100000 in
theorem single_bit_flip_fails_gate_witness :
    received_crc
        { request_handle 3 (List.replicate 32 0) [3, 6, 0, 11, 15, 255, 188, 90] true with
          rx_buffer := flip_bit
            (request_handle 3 (List.replicate 32 0)
              [3, 6, 0, 11, 15, 255, 188, 90] true).rx_buffer 17 } ≠
      calculated_crc
        { request_handle 3 (List.replicate 32 0) [3, 6, 0, 11, 15, 255, 188, 90] true with
          rx_buffer := flip_bit
            (request_handle 3 (List.replicate 32 0)
              [3, 6, 0, 11, 15, 255, 188, 90] true).rx_buffer 17 } :=
  single_bit_flip_fails_gate
    (request_handle 3 (List.replicate 32 0) [3, 6, 0, 11, 15, 255, 188, 90] true)
    (by decide) (by decide) (by decide) (by decide) (by decide) 17 (by decide)

theorem be16_decode (x : Nat) (hx : x < 65536) :
    (((x / 256) <<< 8) ||| (x % 256)) % 65536 = x := by
  rw [Nat.lor_comm, bytes_or_shift _ _ (by omega) (by omega)]
  omega

theorem getD_of_take_eq (l pre : List Nat) (k i : Nat) (h : l.take k = pre) (hi : i < k) :
    l.getD i 0 = pre.getD i 0 := by
  rw [← h, getD_take _ _ _ hi]

/-- C7 (evaluation at the failing input). Slave 3 with 32 registers receives the CRC-valid
broadcast read request `00 03 00 00 00 01 85 DB`: the CRC gate passes and `Modbus_Poll`
switches the direction line to transmit and hands the 7-byte read response to the UART. -/
theorem Modbus_Poll_broadcast_read_is_answered :
    received_crc (request_handle 3 (List.replicate 32 0) [0, 3, 0, 0, 0, 1, 0x85, 0xDB] true) =
      calculated_crc
        (request_handle 3 (List.replicate 32 0) [0, 3, 0, 0, 0, 1, 0x85, 0xDB] true) ∧
    (Modbus_Poll
        (request_handle 3 (List.replicate 32 0) [0, 3, 0, 0, 0, 1, 0x85, 0xDB] true)).trace =
      [Modbus_Event.SetDE true,
       Modbus_Event.UART_Transmit [3, 3, 2, 0, 0, 0xC1, 0x84],
       Modbus_Event.SetDE false] := by
  decide

/-- C9. For every CRC-valid ready frame of length at least 4 addressed to the configured,
non-zero slave address whose function code `f` is neither 0x03 nor 0x06, `Modbus_Poll`
switches to transmit, sends exactly the 5-byte frame
`[slave_address, f | 0x80, 0x01, crc_lo, crc_hi]` (the CRC being `Modbus_CRC16` of the
first three bytes), switches back to receive, and leaves the register store unchanged. -/
theorem Modbus_Poll_illegal_function (mb : Modbus_HandleTypeDef)
    (hready : mb.frame_ready = true) (hlen : 4 ≤ mb.rx_index)
    (htx : mb.tx_buffer.length = 256)
    (haddr : mb.rx_buffer.getD 0 0 = mb.slave_address) (hnz : mb.slave_address ≠ 0)
    (hcrc : received_crc mb = calculated_crc mb)
    (f : Nat) (hf : mb.rx_buffer.getD 1 0 = f) (hbyte : f < 256)
    (hf3 : f ≠ 0x03) (hf6 : f ≠ 0x06) :
    (Modbus_Poll mb).trace = mb.trace ++
      [Modbus_Event.SetDE true,
       Modbus_Event.UART_Transmit
         [mb.slave_address, f ||| 0x80, 0x01,
          Modbus_CRC16 [mb.slave_address, f ||| 0x80, 0x01] 3 &&& 0xFF,
          Modbus_CRC16 [mb.slave_address, f ||| 0x80, 0x01] 3 >>> 8],
       Modbus_Event.SetDE false] ∧
    (Modbus_Poll mb).holding_registers = mb.holding_registers := by
  have hor : (f ||| 0x80) % 256 = f ||| 0x80 :=
    Nat.mod_eq_of_lt (Nat.or_lt_two_pow (by simpa using hbyte : f < 2 ^ 8) (by norm_num))
  have h0 : mb.rx_buffer.getD 0 0 ≠ 0 := by rw [haddr]; exact hnz
  rw [Modbus_Poll_ready mb hready, Modbus_ProcessFrame_dispatch mb hlen (Or.inl haddr) hcrc, hf,
    if_neg (by simpa [ MODBUS_FC_READ_HOLDING_REGS] using hf3),
    if_neg (by simpa [ MODBUS_FC_WRITE_SINGLE_REG] using hf6), if_pos h0]
  refine ⟨?_, rfl⟩
  show (Modbus_SendException mb f MODBUS_EX_ILLEGAL_FUNCTION).trace = _
  rw [Modbus_SendException_trace mb f _ (by omega), hor]
  rfl

set_option maxRecDepth 100000 in
theorem Modbus_Poll_illegal_function_witness :
    (Modbus_Poll (request_handle 3 (List.replicate 32 0) [3, 7, 0x40, 0x82] true)).trace =
      (request_handle 3 (List.replicate 32 0) [3, 7, 0x40, 0x82] true).trace ++
      [Modbus_Event.SetDE true,
       Modbus_Event.UART_Transmit
         [(request_handle 3 (List.replicate 32 0) [3, 7, 0x40, 0x82] true).slave_address,
          7 ||| 0x80, 0x01,
          Modbus_CRC16
            [(request_handle 3 (List.replicate 32 0) [3, 7, 0x40, 0x82] true).slave_address,
             7 ||| 0x80, 0x01] 3 &&& 0xFF,
          Modbus_CRC16
            [(request_handle 3 (List.replicate 32 0) [3, 7, 0x40, 0x82] true).slave_address,
             7 ||| 0x80, 0x01] 3 >>> 8],
       Modbus_Event.SetDE false] ∧
    (Modbus_Poll
        (request_handle 3 (List.replicate 32 0) [3, 7, 0x40, 0x82] true)).holding_registers =
      (request_handle 3 (List.replicate 32 0) [3, 7, 0x40, 0x82] true).holding_registers :=
  Modbus_Poll_illegal_function
    (request_handle 3 (List.replicate 32 0) [3, 7, 0x40, 0x82] true)
    (by decide) (by decide) (by decide) (by decide) (by decide) (by decide) 7 (by decide)
    (by decide) (by decide) (by decide)

/-- C10. For every CRC-valid ready read-holding-registers request (function 0x03, at least
the 8 bytes of the request) addressed to the slave whose quantity `q` is 0 or greater than
125, `Modbus_Poll` answers with the exception frame
`[slave_address, 0x83, 0x03, crc_lo, crc_hi]` (ILLEGAL_VALUE); this holds for every
start address `s`, in range or not, and the register store is unchanged. -/
theorem Modbus_Poll_read_illegal_quantity (mb : Modbus_HandleTypeDef)
    (hready : mb.frame_ready = true) (hlen : 8 ≤ mb.rx_index)
    (htx : mb.tx_buffer.length = 256)
    (s q : Nat) (_hs : s < 65536) (hq : q < 65536)
    (hframe : mb.rx_buffer.take 6 =
      [mb.slave_address, 0x03, s / 256, s % 256, q / 256, q % 256])
    (hcrc : received_crc mb = calculated_crc mb)
    (hbad : q = 0 ∨ 125 < q) :
    (Modbus_Poll mb).trace = mb.trace ++
      [Modbus_Event.SetDE true,
       Modbus_Event.UART_Transmit
         [mb.slave_address, 0x83, 0x03,
          Modbus_CRC16 [mb.slave_address, 0x83, 0x03] 3 &&& 0xFF,
          Modbus_CRC16 [mb.slave_address, 0x83, 0x03] 3 >>> 8],
       Modbus_Event.SetDE false] ∧
    (Modbus_Poll mb).holding_registers = mb.holding_registers := by
  have g0 : mb.rx_buffer.getD 0 0 = mb.slave_address := getD_of_take_eq _ _ 6 0 hframe (by omega)
  have g1 : mb.rx_buffer.getD 1 0 = 0x03 := getD_of_take_eq _ _ 6 1 hframe (by omega)
  have g4 : mb.rx_buffer.getD 4 0 = q / 256 := getD_of_take_eq _ _ 6 4 hframe (by omega)
  have g5 : mb.rx_buffer.getD 5 0 = q % 256 := getD_of_take_eq _ _ 6 5 hframe (by omega)
  have h8 : ¬ mb.rx_index < 8 := by omega
  have hquant : ((mb.rx_buffer.getD 4 0 <<< 8) ||| mb.rx_buffer.getD 5 0) % 65536 = q := by
    rw [g4, g5]; exact be16_decode q hq
  have hread : Modbus_HandleReadHoldingRegisters mb =
      Modbus_SendException mb MODBUS_FC_READ_HOLDING_REGS MODBUS_EX_ILLEGAL_VALUE := by
    simp only [Modbus_HandleReadHoldingRegisters, if_neg h8, hquant]
    rw [if_pos (by omega)]
  rw [Modbus_Poll_ready mb hready, Modbus_ProcessFrame_dispatch mb (by omega) (Or.inl g0) hcrc,
    if_pos (by rw [g1]; rfl), hread]
  refine ⟨?_, rfl⟩
  show (Modbus_SendException mb MODBUS_FC_READ_HOLDING_REGS MODBUS_EX_ILLEGAL_VALUE).trace = _
  rw [Modbus_SendException_trace mb _ _ (by omega)]
  rfl

set_option maxRecDepth 100000 in
theorem Modbus_Poll_read_illegal_quantity_witness :
    (Modbus_Poll
        (request_handle 3 (List.replicate 32 0)
          [3, 3, 0xFF, 0xFF, 0, 126, 0xC4, 0x2C] true)).trace =
      (request_handle 3 (List.replicate 32 0)
          [3, 3, 0xFF, 0xFF, 0, 126, 0xC4, 0x2C] true).trace ++
      [Modbus_Event.SetDE true,
       Modbus_Event.UART_Transmit
         [(request_handle 3 (List.replicate 32 0)
            [3, 3, 0xFF, 0xFF, 0, 126, 0xC4, 0x2C] true).slave_address, 0x83, 0x03,
          Modbus_CRC16
            [(request_handle 3 (List.replicate 32 0)
              [3, 3, 0xFF, 0xFF, 0, 126, 0xC4, 0x2C] true).slave_address, 0x83, 0x03] 3 &&& 0xFF,
          Modbus_CRC16
            [(request_handle 3 (List.replicate 32 0)
              [3, 3, 0xFF, 0xFF, 0, 126, 0xC4, 0x2C] true).slave_address, 0x83, 0x03] 3 >>> 8],
       Modbus_Event.SetDE false] ∧
    (Modbus_Poll
        (request_handle 3 (List.replicate 32 0)
          [3, 3, 0xFF, 0xFF, 0, 126, 0xC4, 0x2C] true)).holding_registers =
      (request_handle 3 (List.replicate 32 0)
        [3, 3, 0xFF, 0xFF, 0, 126, 0xC4, 0x2C] true).holding_registers :=
  Modbus_Poll_read_illegal_quantity
    (request_handle 3 (List.replicate 32 0) [3, 3, 0xFF, 0xFF, 0, 126, 0xC4, 0x2C] true)
    (by decide) (by decide) (by decide) 65535 126 (by decide) (by decide) (by decide)
    (by decide) (by decide)

theorem Modbus_SendResponse_regs (mb : Modbus_HandleTypeDef) (length : Nat) :
    (Modbus_SendResponse mb length).holding_registers = mb.holding_registers := rfl

theorem Modbus_SendResponse_trace (mb : Modbus_HandleTypeDef) (length : Nat) :
    (Modbus_SendResponse mb length).trace = mb.trace ++
      [Modbus_Event.SetDE true, Modbus_Event.UART_Transmit (mb.tx_buffer.take length),
       Modbus_Event.SetDE false] := by
  simp only [Modbus_SendResponse, Modbus_SetDE, List.append_assoc, List.cons_append,
    List.nil_append]

/-- A write-single-register frame that passes the length and address checks of the
handler: the store is updated and, when a callback is registered, the callback event
(carrying the updated store) is the first action recorded. -/
theorem Modbus_HandleWriteSingleRegister_valid (mb : Modbus_HandleTypeDef)
    (hlen : 8 ≤ mb.rx_index) (a v : Nat) (ha : a < 65536) (hv : v < 65536)
    (h2 : mb.rx_buffer.getD 2 0 = a / 256) (h3 : mb.rx_buffer.getD 3 0 = a % 256)
    (h4 : mb.rx_buffer.getD 4 0 = v / 256) (h5 : mb.rx_buffer.getD 5 0 = v % 256)
    (hin : a < mb.holding_reg_count) :
    (Modbus_HandleWriteSingleRegister mb).holding_registers = mb.holding_registers.set a v ∧
    (mb.write_callback = true → ∃ rest, (Modbus_HandleWriteSingleRegister mb).trace =
      mb.trace ++ Modbus_Event.write_callback a v (mb.holding_registers.set a v) :: rest) ∧
    (mb.write_callback = false → ∃ rest, (Modbus_HandleWriteSingleRegister mb).trace =
      mb.trace ++ Modbus_Event.SetDE true :: rest) := by
  have h8 : ¬ mb.rx_index < 8 := by omega
  have haddr : ((mb.rx_buffer.getD 2 0 <<< 8) ||| mb.rx_buffer.getD 3 0) % 65536 = a := by
    rw [h2, h3]; exact be16_decode a ha
  have hval : ((mb.rx_buffer.getD 4 0 <<< 8) ||| mb.rx_buffer.getD 5 0) % 65536 = v := by
    rw [h4, h5]; exact be16_decode v hv
  have hge : ¬ a ≥ mb.holding_reg_count := by omega
  have hdef : Modbus_HandleWriteSingleRegister mb =
      Modbus_SendResponse
        { (if mb.write_callback then
            { mb with
              holding_registers := mb.holding_registers.set a v
              trace := mb.trace ++
                [Modbus_Event.write_callback a v (mb.holding_registers.set a v)] }
          else { mb with holding_registers := mb.holding_registers.set a v }) with
          tx_buffer := (Modbus_HandleWriteSingleRegister mb).tx_buffer } 8 := by
    simp only [Modbus_HandleWriteSingleRegister, if_neg h8, haddr, hval, if_neg hge]
    rfl
  rw [hdef, Modbus_SendResponse_trace]
  refine ⟨?_, ?_, ?_⟩
  · cases mb.write_callback <;> rfl
  · intro hcb
    simp only [hcb, if_true, List.append_assoc, List.singleton_append]
    exact ⟨_, rfl⟩
  · intro hcb
    simp only [hcb, Bool.false_eq_true, if_false]
    exact ⟨_, rfl⟩

/-- C8. A CRC-valid ready write-single-register request sent to the broadcast address 0
with register address `a` below the register count is processed: after `Modbus_Poll`
register `a` holds the requested value `v`, and if a write hook is registered its call
with `(a, v)` is recorded (the hook seeing the updated store). -/
theorem Modbus_Poll_broadcast_write_processed (mb : Modbus_HandleTypeDef)
    (hready : mb.frame_ready = true) (hlen : 8 ≤ mb.rx_index)
    (hregs : mb.holding_registers.length = mb.holding_reg_count)
    (a v : Nat) (ha : a < 65536) (hv : v < 65536)
    (hframe : mb.rx_buffer.take 6 = [0, 0x06, a / 256, a % 256, v / 256, v % 256])
    (hcrc : received_crc mb = calculated_crc mb)
    (hin : a < mb.holding_reg_count) :
    (Modbus_Poll mb).holding_registers.getD a 0 = v ∧
    (Modbus_Poll mb).holding_registers = mb.holding_registers.set a v ∧
    (mb.write_callback = true → ∃ rest, (Modbus_Poll mb).trace =
      mb.trace ++ Modbus_Event.write_callback a v (mb.holding_registers.set a v) :: rest) := by
  have g0 : mb.rx_buffer.getD 0 0 = 0 := getD_of_take_eq _ _ 6 0 hframe (by omega)
  have g1 : mb.rx_buffer.getD 1 0 = 0x06 := getD_of_take_eq _ _ 6 1 hframe (by omega)
  have g2 : mb.rx_buffer.getD 2 0 = a / 256 := getD_of_take_eq _ _ 6 2 hframe (by omega)
  have g3 : mb.rx_buffer.getD 3 0 = a % 256 := getD_of_take_eq _ _ 6 3 hframe (by omega)
  have g4 : mb.rx_buffer.getD 4 0 = v / 256 := getD_of_take_eq _ _ 6 4 hframe (by omega)
  have g5 : mb.rx_buffer.getD 5 0 = v % 256 := getD_of_take_eq _ _ 6 5 hframe (by omega)
  obtain ⟨w1, w2, _⟩ := Modbus_HandleWriteSingleRegister_valid mb hlen a v ha hv g2 g3 g4 g5 hin
  have hproc : Modbus_ProcessFrame mb = Modbus_HandleWriteSingleRegister mb := by
    rw [Modbus_ProcessFrame_dispatch mb (by omega) (Or.inr g0) hcrc, g1,
      if_neg (by decide), if_pos (show 6 = MODBUS_FC_WRITE_SINGLE_REG from rfl)]
  rw [Modbus_Poll_ready mb hready, hproc]
  refine ⟨?_, w1, w2⟩
  show (Modbus_HandleWriteSingleRegister mb).holding_registers.getD a 0 = v
  rw [w1]
  exact getD_set_eq _ _ _ (by omega)

set_option maxRecDepth 100000 in
theorem Modbus_Poll_broadcast_write_processed_witness :
    (Modbus_Poll
        (request_handle 3 (List.replicate 32 0)
          [0, 6, 0, 11, 15, 255, 188, 105] true)).holding_registers.getD 11 0 = 0x0FFF ∧
    (Modbus_Poll
        (request_handle 3 (List.replicate 32 0)
          [0, 6, 0, 11, 15, 255, 188, 105] true)).holding_registers =
      (request_handle 3 (List.replicate 32 0)
          [0, 6, 0, 11, 15, 255, 188, 105] true).holding_registers.set 11 0x0FFF ∧
    ((request_handle 3 (List.replicate 32 0)
          [0, 6, 0, 11, 15, 255, 188, 105] true).write_callback = true →
      ∃ rest, (Modbus_Poll
        (request_handle 3 (List.replicate 32 0)
          [0, 6, 0, 11, 15, 255, 188, 105] true)).trace =
        (request_handle 3 (List.replicate 32 0)
          [0, 6, 0, 11, 15, 255, 188, 105] true).trace ++
        Modbus_Event.write_callback 11 0x0FFF
          ((request_handle 3 (List.replicate 32 0)
            [0, 6, 0, 11, 15, 255, 188, 105] true).holding_registers.set 11 0x0FFF) :: rest) :=
  Modbus_Poll_broadcast_write_processed
    (request_handle 3 (List.replicate 32 0) [0, 6, 0, 11, 15, 255, 188, 105] true)
    (by decide) (by decide) (by decide) 11 0x0FFF (by decide) (by decide) (by decide)
    (by decide) (by decide)

theorem read_payload_length (regs : List Nat) (s q : Nat) :
    (read_payload regs s q).length = 2 * q := by
  induction q with
  | zero => rfl
  | succ n ih => simp only [read_payload, List.length_append, ih, List.length_cons,
      List.length_nil]; omega

theorem take_succ_set (l : List Nat) (n x : Nat) (h : n < l.length) :
    (l.set n x).take (n + 1) = l.take n ++ [x] := by
  induction l generalizing n with
  | nil => simp at h
  | cons a t ih =>
    cases n with
    | zero => simp
    | succ m =>
      simp only [List.set_cons_succ, List.take_succ_cons, List.cons_append]
      rw [ih m (by simpa using h)]

theorem take_set_set (l : List Nat) (n x y : Nat) (h : n + 1 < l.length) :
    ((l.set n x).set (n + 1) y).take (n + 2) = l.take n ++ [x, y] := by
  rw [take_succ_set _ _ _ (by simpa using h), take_succ_set _ _ _ (by omega), List.append_assoc]
  rfl

theorem read_loop_spec (regs tx0 : List Nat) (s q : Nat) (h : 3 + 2 * q ≤ tx0.length) :
    ((List.range q).foldl (read_loop_body regs s) (tx0, 3)).2 = 3 + 2 * q ∧
    ((List.range q).foldl (read_loop_body regs s) (tx0, 3)).1.length = tx0.length ∧
    ((List.range q).foldl (read_loop_body regs s) (tx0, 3)).1.take (3 + 2 * q) =
      tx0.take 3 ++ read_payload regs s q := by
  induction q with
  | zero => simp [read_payload]
  | succ n ih =>
    obtain ⟨i1, i2, i3⟩ := ih (by omega)
    rw [List.range_succ, List.foldl_append]
    simp only [List.foldl_cons, List.foldl_nil, read_loop_body]
    rw [i1]
    refine ⟨by omega, by simp [i2], ?_⟩
    have e : 3 + 2 * (n + 1) = (3 + 2 * n) + 2 := by omega
    rw [e, take_set_set _ _ _ _ (by omega), i3, read_payload, List.append_assoc]

theorem exists_cons3 (l : List Nat) (h : 3 ≤ l.length) : ∃ a b c r, l = a :: b :: c :: r := by
  match l, h with
  | a :: b :: c :: r, _ => exact ⟨a, b, c, r, rfl⟩

theorem Modbus_CRC16_of_take (tx p : List Nat) (n : Nat) (hn : n = p.length)
    (h : tx.take n = p) : Modbus_CRC16 tx n = Modbus_CRC16 p p.length := by
  subst hn
  apply Modbus_CRC16_congr
  intro i hi
  rw [← h, getD_take _ _ _ hi]

/-- The read handler with its locals named through `request_word` and `read_tx_state`. -/
theorem Modbus_HandleReadHoldingRegisters_unfold (mb : Modbus_HandleTypeDef) :
    Modbus_HandleReadHoldingRegisters mb =
      if mb.rx_index < 8 then
        Modbus_SendException mb MODBUS_FC_READ_HOLDING_REGS MODBUS_EX_ILLEGAL_VALUE
      else if request_word mb 4 = 0 ∨ request_word mb 4 > 125 then
        Modbus_SendException mb MODBUS_FC_READ_HOLDING_REGS MODBUS_EX_ILLEGAL_VALUE
      else if request_word mb 2 + request_word mb 4 > mb.holding_reg_count then
        Modbus_SendException mb MODBUS_FC_READ_HOLDING_REGS MODBUS_EX_ILLEGAL_ADDRESS
      else
        let st := read_tx_state mb (request_word mb 2) (request_word mb 4)
        let crc := Modbus_CRC16 st.1 st.2
        Modbus_SendResponse
          { mb with tx_buffer := (st.1.set st.2 (crc &&& 0xFF)).set (st.2 + 1) ((crc >>> 8) &&& 0xFF) }
          (st.2 + 2) := rfl

/-- A read request that passes every check of the handler: the response handed to the
UART is address, function, byte count, the register bytes, and the CRC trailer. -/
theorem Modbus_HandleReadHoldingRegisters_ok (mb : Modbus_HandleTypeDef)
    (htx : mb.tx_buffer.length = 256) (hlen : 8 ≤ mb.rx_index) (s q : Nat)
    (hs : request_word mb 2 = s) (hq : request_word mb 4 = q)
    (hq0 : q ≠ 0) (hq125 : q ≤ 125) (hrange : s + q ≤ mb.holding_reg_count) :
    (Modbus_HandleReadHoldingRegisters mb).trace = mb.trace ++
      [Modbus_Event.SetDE true,
       Modbus_Event.UART_Transmit
         (with_crc ([mb.slave_address, 0x03, 2 * q] ++ read_payload mb.holding_registers s q)),
       Modbus_Event.SetDE false] ∧
    (Modbus_HandleReadHoldingRegisters mb).holding_registers = mb.holding_registers := by
  have h8 : ¬ mb.rx_index < 8 := by omega
  have hqbad : ¬ (q = 0 ∨ q > 125) := by omega
  have hrbad : ¬ (s + q > mb.holding_reg_count) := by omega
  have hbc : (q * 2) % 256 = 2 * q := by omega
  have hst : read_tx_state mb s q = (List.range q).foldl (read_loop_body mb.holding_registers s)
      (((mb.tx_buffer.set 0 mb.slave_address).set 1 MODBUS_FC_READ_HOLDING_REGS).set 2 (2 * q), 3)
      := by rw [read_tx_state, hbc]
  obtain ⟨l1, l2, l3⟩ := read_loop_spec mb.holding_registers
    (((mb.tx_buffer.set 0 mb.slave_address).set 1 MODBUS_FC_READ_HOLDING_REGS).set 2 (2 * q))
    s q (by simp only [List.length_set]; omega)
  have l3a : List.take 3
      (((mb.tx_buffer.set 0 mb.slave_address).set 1 MODBUS_FC_READ_HOLDING_REGS).set 2 (2 * q))
      = [mb.slave_address, 0x03, 2 * q] := by
    obtain ⟨a, b, c, r, hl⟩ := exists_cons3 mb.tx_buffer (by omega)
    rw [hl]; rfl
  rw [l3a] at l3
  rw [← hst] at l1 l2 l3
  simp only [List.length_set] at l2
  have hplen : ([mb.slave_address, 0x03, 2 * q] ++ read_payload mb.holding_registers s q).length
      = 3 + 2 * q := by
    simp only [List.length_append, read_payload_length, List.length_cons, List.length_nil]
  rw [Modbus_HandleReadHoldingRegisters_unfold, if_neg h8, hs, hq, if_neg hqbad, if_neg hrbad]
  simp only []
  refine ⟨?_, rfl⟩
  rw [Modbus_SendResponse_trace]
  simp only [l1]
  rw [Modbus_CRC16_of_take _ _ _ hplen.symm l3, take_set_set _ _ _ _ (by omega),
    l3, hi_byte_mask _ (Modbus_CRC16_lt _ _)]
  rfl

theorem exists_cons8 (l : List Nat) (h : 8 ≤ l.length) :
    ∃ a b c d e f g k r, l = a :: b :: c :: d :: e :: f :: g :: k :: r := by
  match l, h with
  | a :: b :: c :: d :: e :: f :: g :: k :: r, _ => exact ⟨a, b, c, d, e, f, g, k, r, rfl⟩

/-- The write handler on a request that passes its checks, with the callback step set apart. -/
theorem Modbus_HandleWriteSingleRegister_unfold (mb : Modbus_HandleTypeDef)
    (hlen : 8 ≤ mb.rx_index) (hin : request_word mb 2 < mb.holding_reg_count) :
    Modbus_HandleWriteSingleRegister mb =
      let reg_addr := request_word mb 2
      let value := request_word mb 4
      let tx := (((((mb.tx_buffer.set 0 mb.slave_address).set 1 MODBUS_FC_WRITE_SINGLE_REG).set 2
        ((reg_addr >>> 8) &&& 0xFF)).set 3 (reg_addr &&& 0xFF)).set 4
        ((value >>> 8) &&& 0xFF)).set 5 (value &&& 0xFF)
      Modbus_SendResponse
        { mb with
          holding_registers := mb.holding_registers.set reg_addr value
          trace := mb.trace ++
            (if mb.write_callback then
              [Modbus_Event.write_callback reg_addr value (mb.holding_registers.set reg_addr value)]
            else [])
          tx_buffer := (tx.set 6 (Modbus_CRC16 tx 6 &&& 0xFF)).set 7
            ((Modbus_CRC16 tx 6 >>> 8) &&& 0xFF) } 8 := by
  have h8 : ¬ mb.rx_index < 8 := by omega
  have hge : ¬ (((mb.rx_buffer.getD 2 0 <<< 8) ||| mb.rx_buffer.getD 3 0) % 65536
      ≥ mb.holding_reg_count) := fun h => absurd hin (Nat.not_lt.mpr h)
  simp only [Modbus_HandleWriteSingleRegister, if_neg h8, if_neg hge]
  cases mb.write_callback
  · simp only [Bool.false_eq_true, if_false, List.append_nil]
    rfl
  · simp only [if_true]
    rfl

theorem Modbus_HandleWriteSingleRegister_ok (mb : Modbus_HandleTypeDef)
    (htx : mb.tx_buffer.length = 256) (hlen : 8 ≤ mb.rx_index) (a v : Nat)
    (ha : request_word mb 2 = a) (hv : request_word mb 4 = v)
    (hin : a < mb.holding_reg_count) :
    (Modbus_HandleWriteSingleRegister mb).holding_registers = mb.holding_registers.set a v ∧
    (Modbus_HandleWriteSingleRegister mb).trace = mb.trace ++
      ((if mb.write_callback then
          [Modbus_Event.write_callback a v (mb.holding_registers.set a v)] else []) ++
       [Modbus_Event.SetDE true,
        Modbus_Event.UART_Transmit
          (with_crc [mb.slave_address, 0x06, (a >>> 8) &&& 0xFF, a &&& 0xFF,
            (v >>> 8) &&& 0xFF, v &&& 0xFF]),
        Modbus_Event.SetDE false]) := by
  rw [Modbus_HandleWriteSingleRegister_unfold mb hlen (by rw [ha]; exact hin), ha, hv]
  simp only []
  refine ⟨rfl, ?_⟩
  rw [Modbus_SendResponse_trace]
  obtain ⟨t0, t1, t2, t3, t4, t5, t6, t7, r, hl⟩ := exists_cons8 mb.tx_buffer (by omega)
  have hc : Modbus_CRC16 (mb.slave_address :: MODBUS_FC_WRITE_SINGLE_REG :: ((a >>> 8) &&& 0xFF) ::
      (a &&& 0xFF) :: ((v >>> 8) &&& 0xFF) :: (v &&& 0xFF) :: t6 :: t7 :: r) 6 =
      Modbus_CRC16 [mb.slave_address, 0x06, (a >>> 8) &&& 0xFF, a &&& 0xFF,
        (v >>> 8) &&& 0xFF, v &&& 0xFF] 6 := by
    apply Modbus_CRC16_congr
    intro i hi
    interval_cases i <;> rfl
  simp only [hl, List.set_cons_zero, List.set_cons_succ, hc, List.take_succ_cons, List.take_zero,
    List.append_assoc, hi_byte_mask _ (Modbus_CRC16_lt _ _)]
  rfl

/-- An exception response in terms of `with_crc`. -/
theorem Modbus_SendException_trace_with_crc (mb : Modbus_HandleTypeDef) (function exception : Nat)
    (hlen : 5 ≤ mb.tx_buffer.length) :
    (Modbus_SendException mb function exception).trace = mb.trace ++
      [Modbus_Event.SetDE true,
       Modbus_Event.UART_Transmit
         (with_crc [mb.slave_address, (function ||| 0x80) % 256, exception]),
       Modbus_Event.SetDE false] :=
  Modbus_SendException_trace mb function exception hlen

theorem Modbus_Poll_not_ready (mb : Modbus_HandleTypeDef) (h : mb.frame_ready = false) :
    Modbus_Poll mb = mb := by
  simp only [Modbus_Poll, h, Bool.false_eq_true, if_false]

theorem Modbus_HandleReadHoldingRegisters_short (mb : Modbus_HandleTypeDef)
    (h : mb.rx_index < 8) :
    Modbus_HandleReadHoldingRegisters mb =
      Modbus_SendException mb MODBUS_FC_READ_HOLDING_REGS MODBUS_EX_ILLEGAL_VALUE := by
  rw [Modbus_HandleReadHoldingRegisters_unfold, if_pos h]

theorem Modbus_HandleReadHoldingRegisters_bad_quantity (mb : Modbus_HandleTypeDef)
    (h : request_word mb 4 = 0 ∨ request_word mb 4 > 125) :
    Modbus_HandleReadHoldingRegisters mb =
      Modbus_SendException mb MODBUS_FC_READ_HOLDING_REGS MODBUS_EX_ILLEGAL_VALUE := by
  rw [Modbus_HandleReadHoldingRegisters_unfold, if_pos h, ite_self]

theorem Modbus_HandleReadHoldingRegisters_bad_address (mb : Modbus_HandleTypeDef)
    (h8 : 8 ≤ mb.rx_index) (hq0 : request_word mb 4 ≠ 0) (hq : request_word mb 4 ≤ 125)
    (h : request_word mb 2 + request_word mb 4 > mb.holding_reg_count) :
    Modbus_HandleReadHoldingRegisters mb =
      Modbus_SendException mb MODBUS_FC_READ_HOLDING_REGS MODBUS_EX_ILLEGAL_ADDRESS := by
  rw [Modbus_HandleReadHoldingRegisters_unfold, if_neg (by omega), if_neg (by omega), if_pos h]

theorem Modbus_HandleReadHoldingRegisters_regs (mb : Modbus_HandleTypeDef) :
    (Modbus_HandleReadHoldingRegisters mb).holding_registers = mb.holding_registers := by
  rw [Modbus_HandleReadHoldingRegisters_unfold]
  split
  · rfl
  · split
    · rfl
    · split <;> rfl

theorem Modbus_HandleWriteSingleRegister_short (mb : Modbus_HandleTypeDef)
    (h : mb.rx_index < 8) :
    Modbus_HandleWriteSingleRegister mb =
      Modbus_SendException mb MODBUS_FC_WRITE_SINGLE_REG MODBUS_EX_ILLEGAL_VALUE := by
  simp only [Modbus_HandleWriteSingleRegister, if_pos h]

theorem Modbus_HandleWriteSingleRegister_bad_address (mb : Modbus_HandleTypeDef)
    (h8 : 8 ≤ mb.rx_index) (h : request_word mb 2 ≥ mb.holding_reg_count) :
    Modbus_HandleWriteSingleRegister mb =
      Modbus_SendException mb MODBUS_FC_WRITE_SINGLE_REG MODBUS_EX_ILLEGAL_ADDRESS := by
  have h8n : ¬ mb.rx_index < 8 := by omega
  have hge : ((mb.rx_buffer.getD 2 0 <<< 8) ||| mb.rx_buffer.getD 3 0) % 65536
      ≥ mb.holding_reg_count := h
  simp only [Modbus_HandleWriteSingleRegister, if_neg h8n, if_pos hge]

theorem request_word_of_bytes (mb : Modbus_HandleTypeDef) (i x : Nat) (hx : x < 65536)
    (h1 : mb.rx_buffer.getD i 0 = x / 256) (h2 : mb.rx_buffer.getD (i + 1) 0 = x % 256) :
    request_word mb i = x := by
  rw [request_word, h1, h2]
  exact be16_decode x hx

theorem word_hi_byte (x : Nat) (hx : x < 65536) : (x >>> 8) &&& 0xFF = x / 256 := by
  rw [hi_byte_mask x hx, Nat.shiftRight_eq_div_pow]

theorem word_lo_byte (x : Nat) : x &&& 0xFF = x % 256 := by
  have := Nat.and_pow_two_sub_one_eq_mod x 8
  simpa using this

theorem Modbus_Poll_of_accepted (mb : Modbus_HandleTypeDef) (h : frame_accepted mb) :
    Modbus_Poll mb = { (if mb.rx_buffer.getD 1 0 = MODBUS_FC_READ_HOLDING_REGS then
        Modbus_HandleReadHoldingRegisters mb
      else if mb.rx_buffer.getD 1 0 = MODBUS_FC_WRITE_SINGLE_REG then
        Modbus_HandleWriteSingleRegister mb
      else if mb.rx_buffer.getD 0 0 ≠ 0 then
        Modbus_SendException mb (mb.rx_buffer.getD 1 0) MODBUS_EX_ILLEGAL_FUNCTION
      else mb) with rx_index := 0, frame_ready := false } := by
  obtain ⟨h1, h2, h3, h4⟩ := h
  rw [Modbus_Poll_ready mb h1, Modbus_ProcessFrame_dispatch mb h2 h3 h4]

theorem Modbus_Poll_of_not_accepted (mb : Modbus_HandleTypeDef) (h : ¬ frame_accepted mb) :
    (Modbus_Poll mb).trace = mb.trace ∧
    (Modbus_Poll mb).holding_registers = mb.holding_registers ∧
    (Modbus_Poll mb).de_pin_set = mb.de_pin_set := by
  cases hready : mb.frame_ready
  · rw [Modbus_Poll_not_ready mb hready]; exact ⟨rfl, rfl, rfl⟩
  · rw [Modbus_Poll_ready mb hready]
    by_cases h4 : mb.rx_index < 4
    · rw [Modbus_ProcessFrame_short mb h4]; exact ⟨rfl, rfl, rfl⟩
    · by_cases ha : mb.rx_buffer.getD 0 0 = mb.slave_address ∨ mb.rx_buffer.getD 0 0 = 0
      · have hc : received_crc mb ≠ calculated_crc mb :=
          fun hc => h ⟨hready, by omega, ha, hc⟩
        rw [Modbus_ProcessFrame_bad_crc mb hc]; exact ⟨rfl, rfl, rfl⟩
      · rw [Modbus_ProcessFrame_foreign mb (fun e => ha (Or.inl e)) (fun e => ha (Or.inr e))]
        exact ⟨rfl, rfl, rfl⟩

theorem Modbus_Poll_read_served_trace (mb : Modbus_HandleTypeDef) (h : read_served mb)
    (htx : mb.tx_buffer.length = 256) :
    (Modbus_Poll mb).trace = mb.trace ++
      [Modbus_Event.SetDE true,
       Modbus_Event.UART_Transmit
         (with_crc ([mb.slave_address, 0x03, 2 * request_word mb 4] ++
           read_payload mb.holding_registers (request_word mb 2) (request_word mb 4))),
       Modbus_Event.SetDE false] ∧
    (Modbus_Poll mb).holding_registers = mb.holding_registers := by
  obtain ⟨hacc, hf, h8, hq0, hq, hr⟩ := h
  rw [Modbus_Poll_of_accepted mb hacc, if_pos hf]
  exact Modbus_HandleReadHoldingRegisters_ok mb htx h8 _ _ rfl rfl hq0 hq hr

theorem Modbus_Poll_write_served_trace (mb : Modbus_HandleTypeDef) (h : write_served mb)
    (htx : mb.tx_buffer.length = 256) :
    (Modbus_Poll mb).holding_registers =
      mb.holding_registers.set (request_word mb 2) (request_word mb 4) ∧
    (Modbus_Poll mb).trace = mb.trace ++
      ((if mb.write_callback then
          [Modbus_Event.write_callback (request_word mb 2) (request_word mb 4)
            (mb.holding_registers.set (request_word mb 2) (request_word mb 4))] else []) ++
       [Modbus_Event.SetDE true,
        Modbus_Event.UART_Transmit
          (with_crc [mb.slave_address, 0x06, (request_word mb 2 >>> 8) &&& 0xFF,
            request_word mb 2 &&& 0xFF, (request_word mb 4 >>> 8) &&& 0xFF,
            request_word mb 4 &&& 0xFF]),
        Modbus_Event.SetDE false]) := by
  obtain ⟨hacc, hf, h8, hin⟩ := h
  have hf3 : ¬ mb.rx_buffer.getD 1 0 = MODBUS_FC_READ_HOLDING_REGS := by
    rw [hf]; decide
  rw [Modbus_Poll_of_accepted mb hacc, if_neg hf3, if_pos hf]
  exact Modbus_HandleWriteSingleRegister_ok mb htx h8 _ _ rfl rfl hin

theorem Modbus_Poll_write_served_regs (mb : Modbus_HandleTypeDef) (h : write_served mb) :
    (Modbus_Poll mb).holding_registers =
      mb.holding_registers.set (request_word mb 2) (request_word mb 4) := by
  obtain ⟨hacc, hf, h8, hin⟩ := h
  have hf3 : ¬ mb.rx_buffer.getD 1 0 = MODBUS_FC_READ_HOLDING_REGS := by
    rw [hf]; decide
  rw [Modbus_Poll_of_accepted mb hacc, if_neg hf3, if_pos hf,
    Modbus_HandleWriteSingleRegister_unfold mb h8 hin]
  rfl

theorem Modbus_Poll_regs_of_not_write_served (mb : Modbus_HandleTypeDef)
    (h : ¬ write_served mb) :
    (Modbus_Poll mb).holding_registers = mb.holding_registers := by
  by_cases hacc : frame_accepted mb
  · rw [Modbus_Poll_of_accepted mb hacc]
    by_cases hf3 : mb.rx_buffer.getD 1 0 = MODBUS_FC_READ_HOLDING_REGS
    · rw [if_pos hf3]; exact Modbus_HandleReadHoldingRegisters_regs mb
    · rw [if_neg hf3]
      by_cases hf6 : mb.rx_buffer.getD 1 0 = MODBUS_FC_WRITE_SINGLE_REG
      · rw [if_pos hf6]
        by_cases h8 : mb.rx_index < 8
        · rw [Modbus_HandleWriteSingleRegister_short mb h8]; rfl
        · have hge : request_word mb 2 ≥ mb.holding_reg_count :=
            Nat.le_of_not_lt (fun hin => h ⟨hacc, hf6, by omega, hin⟩)
          rw [Modbus_HandleWriteSingleRegister_bad_address mb (by omega) hge]; rfl
      · rw [if_neg hf6]
        split <;> rfl
  · exact (Modbus_Poll_of_not_accepted mb hacc).2.1

/-- A ready frame that is not served is either dropped silently or answered by one exception
frame carrying the received function code and exception code 1, 2 or 3. -/
theorem Modbus_Poll_unserved_trace (mb : Modbus_HandleTypeDef)
    (hr : ¬ read_served mb) (hw : ¬ write_served mb) (htx : mb.tx_buffer.length = 256) :
    (Modbus_Poll mb).trace = mb.trace ∨
    ∃ e, (e = MODBUS_EX_ILLEGAL_FUNCTION ∨ e = MODBUS_EX_ILLEGAL_ADDRESS ∨
        e = MODBUS_EX_ILLEGAL_VALUE) ∧
      (Modbus_Poll mb).trace = mb.trace ++
        [Modbus_Event.SetDE true,
         Modbus_Event.UART_Transmit
           (with_crc [mb.slave_address, (mb.rx_buffer.getD 1 0 ||| 0x80) % 256, e]),
         Modbus_Event.SetDE false] := by
  by_cases hacc : frame_accepted mb
  · rw [Modbus_Poll_of_accepted mb hacc]
    have hex : ∀ f e, ({ Modbus_SendException mb f e with
        rx_index := 0, frame_ready := false } : Modbus_HandleTypeDef).trace = mb.trace ++
        [Modbus_Event.SetDE true,
         Modbus_Event.UART_Transmit (with_crc [mb.slave_address, (f ||| 0x80) % 256, e]),
         Modbus_Event.SetDE false] :=
      fun f e => Modbus_SendException_trace_with_crc mb f e (by omega)
    by_cases hf3 : mb.rx_buffer.getD 1 0 = MODBUS_FC_READ_HOLDING_REGS
    · rw [if_pos hf3]
      right
      by_cases h8 : mb.rx_index < 8
      · rw [Modbus_HandleReadHoldingRegisters_short mb h8, hf3]
        exact ⟨_, Or.inr (Or.inr rfl), hex _ _⟩
      · by_cases hq : request_word mb 4 = 0 ∨ request_word mb 4 > 125
        · rw [Modbus_HandleReadHoldingRegisters_bad_quantity mb hq, hf3]
          exact ⟨_, Or.inr (Or.inr rfl), hex _ _⟩
        · have hrange : request_word mb 2 + request_word mb 4 > mb.holding_reg_count :=
            Nat.lt_of_not_le (fun hle => hr ⟨hacc, hf3, by omega, by omega, by omega, hle⟩)
          rw [Modbus_HandleReadHoldingRegisters_bad_address mb (by omega) (by omega) (by omega)
            hrange, hf3]
          exact ⟨_, Or.inr (Or.inl rfl), hex _ _⟩
    · rw [if_neg hf3]
      by_cases hf6 : mb.rx_buffer.getD 1 0 = MODBUS_FC_WRITE_SINGLE_REG
      · rw [if_pos hf6]
        right
        by_cases h8 : mb.rx_index < 8
        · rw [Modbus_HandleWriteSingleRegister_short mb h8, hf6]
          exact ⟨_, Or.inr (Or.inr rfl), hex _ _⟩
        · have hge : request_word mb 2 ≥ mb.holding_reg_count :=
            Nat.le_of_not_lt (fun hin => hw ⟨hacc, hf6, by omega, hin⟩)
          rw [Modbus_HandleWriteSingleRegister_bad_address mb (by omega) hge, hf6]
          exact ⟨_, Or.inr (Or.inl rfl), hex _ _⟩
      · rw [if_neg hf6]
        by_cases h0 : mb.rx_buffer.getD 0 0 ≠ 0
        · rw [if_pos h0]
          exact Or.inr ⟨_, Or.inl rfl, hex _ _⟩
        · rw [if_neg h0]
          exact Or.inl rfl
  · exact Or.inl (Modbus_Poll_of_not_accepted mb hacc).1

theorem read_payload_getD (regs : List Nat) (s q i : Nat) (hi : i < q) :
    (read_payload regs s q).getD (2 * i) 0 = (regs.getD (s + i) 0 >>> 8) &&& 0xFF ∧
    (read_payload regs s q).getD (2 * i + 1) 0 = regs.getD (s + i) 0 &&& 0xFF := by
  induction q with
  | zero => omega
  | succ n ih =>
    rw [read_payload]
    by_cases hin : i < n
    · obtain ⟨i1, i2⟩ := ih hin
      rw [List.getD_append _ _ _ _ (by rw [read_payload_length]; omega),
        List.getD_append _ _ _ _ (by rw [read_payload_length]; omega)]
      exact ⟨i1, i2⟩
    · have e : i = n := by omega
      subst e
      rw [List.getD_append_right _ _ _ _ (by rw [read_payload_length]),
        List.getD_append_right _ _ _ _ (by rw [read_payload_length]; omega), read_payload_length]
      have e1 : 2 * i - 2 * i = 0 := by omega
      have e2 : 2 * i + 1 - 2 * i = 1 := by omega
      rw [e1, e2]
      exact ⟨rfl, rfl⟩

theorem with_crc_length (p : List Nat) : (with_crc p).length = p.length + 2 := by
  simp only [with_crc, List.length_append, List.length_cons, List.length_nil]

theorem request_fields_of_take (mb : Modbus_HandleTypeDef) (addr fc x y : Nat)
    (hx : x < 65536) (hy : y < 65536)
    (hframe : mb.rx_buffer.take 6 = [addr, fc, x / 256, x % 256, y / 256, y % 256]) :
    mb.rx_buffer.getD 0 0 = addr ∧ mb.rx_buffer.getD 1 0 = fc ∧
    request_word mb 2 = x ∧ request_word mb 4 = y :=
  ⟨getD_of_take_eq _ _ 6 0 hframe (by omega), getD_of_take_eq _ _ 6 1 hframe (by omega),
   request_word_of_bytes mb 2 x hx (getD_of_take_eq _ _ 6 2 hframe (by omega))
     (getD_of_take_eq _ _ 6 3 hframe (by omega)),
   request_word_of_bytes mb 4 y hy (getD_of_take_eq _ _ 6 4 hframe (by omega))
     (getD_of_take_eq _ _ 6 5 hframe (by omega))⟩

/-- C11. For every CRC-valid ready read-holding-registers request addressed to the slave
with quantity `q` between 1 and 125 and `s + q` greater than the register count (so also
for `s + q` one more than the count), `Modbus_Poll` sends exactly the exception frame
`[slave_address, 0x83, 0x02, crc_lo, crc_hi]` (ILLEGAL_ADDRESS): no register value is
transmitted, and the register store is unchanged. -/
theorem Modbus_Poll_read_illegal_address (mb : Modbus_HandleTypeDef)
    (hready : mb.frame_ready = true) (hlen : 8 ≤ mb.rx_index)
    (htx : mb.tx_buffer.length = 256)
    (s q : Nat) (hs : s < 65536) (hq : q < 65536)
    (hframe : mb.rx_buffer.take 6 =
      [mb.slave_address, 0x03, s / 256, s % 256, q / 256, q % 256])
    (hcrc : received_crc mb = calculated_crc mb)
    (hq1 : 1 ≤ q) (hq125 : q ≤ 125) (hrange : s + q > mb.holding_reg_count) :
    (Modbus_Poll mb).trace = mb.trace ++
      [Modbus_Event.SetDE true,
       Modbus_Event.UART_Transmit
         [mb.slave_address, 0x83, 0x02,
          Modbus_CRC16 [mb.slave_address, 0x83, 0x02] 3 &&& 0xFF,
          Modbus_CRC16 [mb.slave_address, 0x83, 0x02] 3 >>> 8],
       Modbus_Event.SetDE false] ∧
    (Modbus_Poll mb).holding_registers = mb.holding_registers := by
  obtain ⟨g0, g1, gs, gq⟩ := request_fields_of_take mb _ _ s q hs hq hframe
  have g1a : mb.rx_buffer.getD 1 0 = MODBUS_FC_READ_HOLDING_REGS := g1
  rw [Modbus_Poll_of_accepted mb ⟨hready, by omega, Or.inl g0, hcrc⟩, if_pos g1a,
    Modbus_HandleReadHoldingRegisters_bad_address mb hlen (by omega) (by omega) (by omega)]
  refine ⟨?_, rfl⟩
  show (Modbus_SendException mb MODBUS_FC_READ_HOLDING_REGS MODBUS_EX_ILLEGAL_ADDRESS).trace = _
  rw [Modbus_SendException_trace mb _ _ (by omega)]
  rfl

set_option maxRecDepth 100000 in
theorem Modbus_Poll_read_illegal_address_witness :
    (Modbus_Poll
        (request_handle 3 (List.replicate 32 0) [3, 3, 0, 32, 0, 1, 132, 34] true)).trace =
      (request_handle 3 (List.replicate 32 0) [3, 3, 0, 32, 0, 1, 132, 34] true).trace ++
      [Modbus_Event.SetDE true,
       Modbus_Event.UART_Transmit
         [(request_handle 3 (List.replicate 32 0)
            [3, 3, 0, 32, 0, 1, 132, 34] true).slave_address, 0x83, 0x02,
          Modbus_CRC16
            [(request_handle 3 (List.replicate 32 0)
              [3, 3, 0, 32, 0, 1, 132, 34] true).slave_address, 0x83, 0x02] 3 &&& 0xFF,
          Modbus_CRC16
            [(request_handle 3 (List.replicate 32 0)
              [3, 3, 0, 32, 0, 1, 132, 34] true).slave_address, 0x83, 0x02] 3 >>> 8],
       Modbus_Event.SetDE false] ∧
    (Modbus_Poll
        (request_handle 3 (List.replicate 32 0)
          [3, 3, 0, 32, 0, 1, 132, 34] true)).holding_registers =
      (request_handle 3 (List.replicate 32 0)
        [3, 3, 0, 32, 0, 1, 132, 34] true).holding_registers :=
  Modbus_Poll_read_illegal_address
    (request_handle 3 (List.replicate 32 0) [3, 3, 0, 32, 0, 1, 132, 34] true)
    (by decide) (by decide) (by decide) 32 1 (by decide) (by decide) (by decide)
    (by decide) (by decide) (by decide) (by decide)

/-- C12. For every CRC-valid ready read-holding-registers request addressed to the slave
with quantity `q` between 1 and 125 and `s + q` at most the register count, `Modbus_Poll`
sends exactly `[slave_address, 0x03, 2*q]`, then for each `i < q` the high byte and the low
byte of the register held at `s + i` when the call is made, then `Modbus_CRC16` of all the
preceding bytes, low byte first; the response has `5 + 2*q` bytes. -/
theorem Modbus_Poll_read_response (mb : Modbus_HandleTypeDef)
    (hready : mb.frame_ready = true) (hlen : 8 ≤ mb.rx_index)
    (htx : mb.tx_buffer.length = 256)
    (s q : Nat) (hs : s < 65536) (hq : q < 65536)
    (hframe : mb.rx_buffer.take 6 =
      [mb.slave_address, 0x03, s / 256, s % 256, q / 256, q % 256])
    (hcrc : received_crc mb = calculated_crc mb)
    (hq1 : 1 ≤ q) (hq125 : q ≤ 125) (hrange : s + q ≤ mb.holding_reg_count) :
    (Modbus_Poll mb).trace = mb.trace ++
      [Modbus_Event.SetDE true,
       Modbus_Event.UART_Transmit
         (with_crc ([mb.slave_address, 0x03, 2 * q] ++ read_payload mb.holding_registers s q)),
       Modbus_Event.SetDE false] ∧
    (with_crc ([mb.slave_address, 0x03, 2 * q] ++
      read_payload mb.holding_registers s q)).length = 5 + 2 * q ∧
    (∀ i, i < q →
      (read_payload mb.holding_registers s q).getD (2 * i) 0 =
        (mb.holding_registers.getD (s + i) 0 >>> 8) &&& 0xFF ∧
      (read_payload mb.holding_registers s q).getD (2 * i + 1) 0 =
        mb.holding_registers.getD (s + i) 0 &&& 0xFF) := by
  obtain ⟨g0, g1, gs, gq⟩ := request_fields_of_take mb _ _ s q hs hq hframe
  have hserved : read_served mb :=
    ⟨⟨hready, by omega, Or.inl g0, hcrc⟩, g1, hlen, by omega, by omega, by omega⟩
  have h := (Modbus_Poll_read_served_trace mb hserved htx).1
  rw [gs, gq] at h
  refine ⟨h, ?_, fun i hi => read_payload_getD _ _ _ _ hi⟩
  rw [with_crc_length, List.length_append, read_payload_length]
  simp only [List.length_cons, List.length_nil]
  omega

set_option maxRecDepth 100000 in
theorem Modbus_Poll_read_response_witness :
    (Modbus_Poll example_read_request).trace = example_read_request.trace ++
      [Modbus_Event.SetDE true,
       Modbus_Event.UART_Transmit
         (with_crc ([example_read_request.slave_address, 0x03, 2 * 125] ++
           read_payload example_read_request.holding_registers 0 125)),
       Modbus_Event.SetDE false] ∧
    (with_crc ([example_read_request.slave_address, 0x03, 2 * 125] ++
      read_payload example_read_request.holding_registers 0 125)).length = 5 + 2 * 125 ∧
    (∀ i, i < 125 →
      (read_payload example_read_request.holding_registers 0 125).getD (2 * i) 0 =
        (example_read_request.holding_registers.getD (0 + i) 0 >>> 8) &&& 0xFF ∧
      (read_payload example_read_request.holding_registers 0 125).getD (2 * i + 1) 0 =
        example_read_request.holding_registers.getD (0 + i) 0 &&& 0xFF) :=
  Modbus_Poll_read_response example_read_request (by decide) (by decide) (by decide) 0 125
    (by decide) (by decide) (by decide) (by decide) (by decide) (by decide) (by decide)

/-- C13. For every CRC-valid ready write-single-register request addressed to the slave
whose register address `a` is at least the register count (so also for `a` equal to the
count), `Modbus_Poll` sends exactly the exception frame
`[slave_address, 0x86, 0x02, crc_lo, crc_hi]` (ILLEGAL_ADDRESS) and nothing else happens:
the register store is unchanged and no call of the write hook is recorded. -/
theorem Modbus_Poll_write_illegal_address (mb : Modbus_HandleTypeDef)
    (hready : mb.frame_ready = true) (hlen : 8 ≤ mb.rx_index)
    (htx : mb.tx_buffer.length = 256)
    (a v : Nat) (ha : a < 65536) (hv : v < 65536)
    (hframe : mb.rx_buffer.take 6 =
      [mb.slave_address, 0x06, a / 256, a % 256, v / 256, v % 256])
    (hcrc : received_crc mb = calculated_crc mb)
    (hout : a ≥ mb.holding_reg_count) :
    (Modbus_Poll mb).trace = mb.trace ++
      [Modbus_Event.SetDE true,
       Modbus_Event.UART_Transmit
         [mb.slave_address, 0x86, 0x02,
          Modbus_CRC16 [mb.slave_address, 0x86, 0x02] 3 &&& 0xFF,
          Modbus_CRC16 [mb.slave_address, 0x86, 0x02] 3 >>> 8],
       Modbus_Event.SetDE false] ∧
    (Modbus_Poll mb).holding_registers = mb.holding_registers := by
  obtain ⟨g0, g1, ga, gv⟩ := request_fields_of_take mb _ _ a v ha hv hframe
  have g1a : mb.rx_buffer.getD 1 0 = MODBUS_FC_WRITE_SINGLE_REG := g1
  have g1b : ¬ mb.rx_buffer.getD 1 0 = MODBUS_FC_READ_HOLDING_REGS := by rw [g1]; decide
  rw [Modbus_Poll_of_accepted mb ⟨hready, by omega, Or.inl g0, hcrc⟩, if_neg g1b, if_pos g1a,
    Modbus_HandleWriteSingleRegister_bad_address mb hlen (by omega)]
  refine ⟨?_, rfl⟩
  show (Modbus_SendException mb MODBUS_FC_WRITE_SINGLE_REG MODBUS_EX_ILLEGAL_ADDRESS).trace = _
  rw [Modbus_SendException_trace mb _ _ (by omega)]
  rfl

set_option maxRecDepth 100000 in
theorem Modbus_Poll_write_illegal_address_witness :
    (Modbus_Poll
        (request_handle 3 (List.replicate 32 0) [3, 6, 0, 32, 0, 5, 73, 225] true)).trace =
      (request_handle 3 (List.replicate 32 0) [3, 6, 0, 32, 0, 5, 73, 225] true).trace ++
      [Modbus_Event.SetDE true,
       Modbus_Event.UART_Transmit
         [(request_handle 3 (List.replicate 32 0)
            [3, 6, 0, 32, 0, 5, 73, 225] true).slave_address, 0x86, 0x02,
          Modbus_CRC16
            [(request_handle 3 (List.replicate 32 0)
              [3, 6, 0, 32, 0, 5, 73, 225] true).slave_address, 0x86, 0x02] 3 &&& 0xFF,
          Modbus_CRC16
            [(request_handle 3 (List.replicate 32 0)
              [3, 6, 0, 32, 0, 5, 73, 225] true).slave_address, 0x86, 0x02] 3 >>> 8],
       Modbus_Event.SetDE false] ∧
    (Modbus_Poll
        (request_handle 3 (List.replicate 32 0)
          [3, 6, 0, 32, 0, 5, 73, 225] true)).holding_registers =
      (request_handle 3 (List.replicate 32 0)
        [3, 6, 0, 32, 0, 5, 73, 225] true).holding_registers :=
  Modbus_Poll_write_illegal_address
    (request_handle 3 (List.replicate 32 0) [3, 6, 0, 32, 0, 5, 73, 225] true)
    (by decide) (by decide) (by decide) 32 5 (by decide) (by decide) (by decide)
    (by decide) (by decide)

/-- C14. For every CRC-valid ready write-single-register request addressed to the slave
with register address `a` below the register count and value `v`, with a write hook
registered: after `Modbus_Poll` register `a` holds `v`, every other register is unchanged,
and the actions recorded are exactly one call of the hook, with `(a, v)` and the updated
store, followed by the transmission of the response. -/
theorem Modbus_Poll_write_effect (mb : Modbus_HandleTypeDef)
    (hready : mb.frame_ready = true) (hlen : 8 ≤ mb.rx_index)
    (htx : mb.tx_buffer.length = 256)
    (hregs : mb.holding_registers.length = mb.holding_reg_count)
    (hcb : mb.write_callback = true)
    (a v : Nat) (ha : a < 65536) (hv : v < 65536)
    (hframe : mb.rx_buffer.take 6 =
      [mb.slave_address, 0x06, a / 256, a % 256, v / 256, v % 256])
    (hcrc : received_crc mb = calculated_crc mb)
    (hin : a < mb.holding_reg_count) :
    (Modbus_Poll mb).holding_registers.getD a 0 = v ∧
    (∀ j, j ≠ a →
      (Modbus_Poll mb).holding_registers.getD j 0 = mb.holding_registers.getD j 0) ∧
    (Modbus_Poll mb).holding_registers.length = mb.holding_registers.length ∧
    (Modbus_Poll mb).trace = mb.trace ++
      [Modbus_Event.write_callback a v (mb.holding_registers.set a v),
       Modbus_Event.SetDE true,
       Modbus_Event.UART_Transmit
         (with_crc [mb.slave_address, 0x06, a / 256, a % 256, v / 256, v % 256]),
       Modbus_Event.SetDE false] := by
  obtain ⟨g0, g1, ga, gv⟩ := request_fields_of_take mb _ _ a v ha hv hframe
  have hserved : write_served mb :=
    ⟨⟨hready, by omega, Or.inl g0, hcrc⟩, g1, hlen, by rw [ga]; exact hin⟩
  obtain ⟨w1, w2⟩ := Modbus_Poll_write_served_trace mb hserved htx
  rw [ga, gv] at w1 w2
  rw [w1, w2]
  refine ⟨getD_set_eq _ _ _ (by omega), fun j hj => getD_set_ne _ _ _ _ (Ne.symm hj),
    List.length_set _ _ _, ?_⟩
  rw [hcb, if_pos rfl, word_hi_byte a ha, word_lo_byte a, word_hi_byte v hv, word_lo_byte v]
  rfl

set_option maxRecDepth 100000 in
theorem Modbus_Poll_write_effect_witness :
    (Modbus_Poll example_write_request).holding_registers.getD 11 0 = 0x0FFF ∧
    (∀ j, j ≠ 11 →
      (Modbus_Poll example_write_request).holding_registers.getD j 0 =
        example_write_request.holding_registers.getD j 0) ∧
    (Modbus_Poll example_write_request).holding_registers.length =
      example_write_request.holding_registers.length ∧
    (Modbus_Poll example_write_request).trace = example_write_request.trace ++
      [Modbus_Event.write_callback 11 0x0FFF (example_write_request.holding_registers.set 11 0x0FFF),
       Modbus_Event.SetDE true,
       Modbus_Event.UART_Transmit
         (with_crc [example_write_request.slave_address, 0x06, 11 / 256, 11 % 256,
           0x0FFF / 256, 0x0FFF % 256]),
       Modbus_Event.SetDE false] :=
  Modbus_Poll_write_effect example_write_request (by decide) (by decide) (by decide) (by decide)
    (by decide) 11 0x0FFF (by decide) (by decide) (by decide) (by decide) (by decide)

theorem request_word_eq (mb : Modbus_HandleTypeDef) (i : Nat)
    (h1 : mb.rx_buffer.getD i 0 < 256) (h2 : mb.rx_buffer.getD (i + 1) 0 < 256) :
    request_word mb i = 256 * mb.rx_buffer.getD i 0 + mb.rx_buffer.getD (i + 1) 0 := by
  rw [request_word, Nat.lor_comm, bytes_or_shift _ _ h2 h1]

theorem word_bytes (hi lo : Nat) (hhi : hi < 256) (hlo : lo < 256) :
    ((256 * hi + lo) >>> 8) &&& 0xFF = hi ∧ (256 * hi + lo) &&& 0xFF = lo ∧
    (256 * hi + lo) >>> 8 = hi := by
  have hw : 256 * hi + lo < 65536 := by omega
  rw [word_hi_byte _ hw, word_lo_byte, Nat.shiftRight_eq_div_pow]
  omega

theorem take6_eq (l : List Nat) (h : 8 ≤ l.length) :
    l.take 6 = [l.getD 0 0, l.getD 1 0, l.getD 2 0, l.getD 3 0, l.getD 4 0, l.getD 5 0] := by
  obtain ⟨c0, c1, c2, c3, c4, c5, c6, c7, r, hl⟩ := exists_cons8 l h
  rw [hl]
  rfl

theorem take8_eq (l : List Nat) (h : 8 ≤ l.length) :
    l.take 8 = l.take 6 ++ [l.getD 6 0, l.getD 7 0] := by
  obtain ⟨c0, c1, c2, c3, c4, c5, c6, c7, r, hl⟩ := exists_cons8 l h
  rw [hl]
  rfl

/-- C15. For every CRC-valid ready 8-byte write-single-register request addressed to the
configured address of the slave with register address below the register count, the
response handed to the UART is byte for byte the request, its two CRC bytes included
(preceded by the call of the write hook when one is registered). -/
theorem Modbus_Poll_write_echo (mb : Modbus_HandleTypeDef)
    (hready : mb.frame_ready = true) (hidx : mb.rx_index = 8)
    (hrx : mb.rx_buffer.length = 256) (hbytes : ∀ b ∈ mb.rx_buffer, b < 256)
    (htx : mb.tx_buffer.length = 256)
    (haddr : mb.rx_buffer.getD 0 0 = mb.slave_address)
    (hfc : mb.rx_buffer.getD 1 0 = 0x06)
    (hcrc : received_crc mb = calculated_crc mb)
    (hin : request_word mb 2 < mb.holding_reg_count) :
    (Modbus_Poll mb).trace = mb.trace ++
      ((if mb.write_callback then
          [Modbus_Event.write_callback (request_word mb 2) (request_word mb 4)
            (mb.holding_registers.set (request_word mb 2) (request_word mb 4))] else []) ++
       [Modbus_Event.SetDE true,
        Modbus_Event.UART_Transmit (mb.rx_buffer.take 8),
        Modbus_Event.SetDE false]) := by
  have hserved : write_served mb := ⟨⟨hready, by omega, Or.inl haddr, hcrc⟩, hfc, by omega, hin⟩
  have hw := (Modbus_Poll_write_served_trace mb hserved htx).2
  have hb : ∀ i, mb.rx_buffer.getD i 0 < 256 :=
    fun i => getD_lt_of_forall _ _ _ (by norm_num) hbytes
  have hrecv : received_crc mb = 256 * mb.rx_buffer.getD 7 0 + mb.rx_buffer.getD 6 0 := by
    rw [received_crc, hidx]
    exact bytes_or_shift _ _ (hb 6) (hb 7)
  have hcalc : calculated_crc mb = Modbus_CRC16 (mb.rx_buffer.take 6) (mb.rx_buffer.take 6).length := by
    rw [calculated_crc, hidx]
    exact Modbus_CRC16_of_take _ _ 6 (by rw [List.length_take]; omega) rfl
  obtain ⟨a2, a3, _⟩ := word_bytes _ _ (hb 2) (hb 3)
  obtain ⟨v4, v5, _⟩ := word_bytes _ _ (hb 4) (hb 5)
  obtain ⟨_, c6, c7⟩ := word_bytes _ _ (hb 7) (hb 6)
  have hpay : [mb.slave_address, 0x06, (request_word mb 2 >>> 8) &&& 0xFF,
      request_word mb 2 &&& 0xFF, (request_word mb 4 >>> 8) &&& 0xFF,
      request_word mb 4 &&& 0xFF] = mb.rx_buffer.take 6 := by
    rw [request_word_eq mb 2 (hb 2) (hb 3), request_word_eq mb 4 (hb 4) (hb 5), a2, a3, v4, v5,
      take6_eq _ (by omega), haddr, hfc]
  have hresp : with_crc (mb.rx_buffer.take 6) = mb.rx_buffer.take 8 := by
    rw [with_crc, ← hcalc, ← hcrc, hrecv, c6, c7, take8_eq _ (by omega)]
  rw [hw, hpay, hresp]

set_option maxRecDepth 100000 in
theorem Modbus_Poll_write_echo_witness :
    (Modbus_Poll example_write_request).trace = example_write_request.trace ++
      ((if example_write_request.write_callback then
          [Modbus_Event.write_callback (request_word example_write_request 2)
            (request_word example_write_request 4)
            (example_write_request.holding_registers.set (request_word example_write_request 2)
              (request_word example_write_request 4))] else []) ++
       [Modbus_Event.SetDE true,
        Modbus_Event.UART_Transmit (example_write_request.rx_buffer.take 8),
        Modbus_Event.SetDE false]) ∧
    example_write_request.rx_buffer.take 8 = [0x03, 0x06, 0x00, 0x0B, 0x0F, 0xFF, 0xBC, 0x5A] ∧
    (Modbus_Poll example_write_request).holding_registers.getD 11 0 = 0x0FFF :=
  ⟨Modbus_Poll_write_echo example_write_request (by decide) (by decide) (by decide) (by decide)
    (by decide) (by decide) (by decide) (by decide) (by decide), by decide, by decide⟩

/-- A receive buffer holding `with_crc p` as its frame passes the CRC gate. -/
theorem crc_gate_of_with_crc (p : List Nat) (h : Modbus_HandleTypeDef)
    (hidx : h.rx_index = (with_crc p).length) (hbuf : h.rx_buffer.take h.rx_index = with_crc p) :
    received_crc h = calculated_crc h := by
  rw [with_crc_length] at hidx
  rw [with_crc] at hbuf
  have hget : ∀ i, i < p.length + 2 → h.rx_buffer.getD i 0 =
      (p ++ [Modbus_CRC16 p p.length &&& 0xFF, Modbus_CRC16 p p.length >>> 8]).getD i 0 := by
    intro i hi
    rw [← hbuf, hidx, getD_take _ _ _ hi]
  have hcalc : calculated_crc h = Modbus_CRC16 p p.length := by
    unfold calculated_crc
    rw [hidx, Nat.add_sub_cancel]
    apply Modbus_CRC16_congr
    intro i hi
    rw [hget i (by omega), List.getD_append _ _ _ _ hi]
  rw [hcalc]
  unfold received_crc
  rw [hidx, hget _ (by omega), hget _ (by omega),
    List.getD_append_right _ _ _ _ (by omega), List.getD_append_right _ _ _ _ (by omega)]
  have e1 : p.length + 2 - 2 - p.length = 0 := by omega
  have e2 : p.length + 2 - 1 - p.length = 1 := by omega
  rw [e1, e2]
  exact crc_split_bytes _ (Modbus_CRC16_lt _ _)

/-- C16. Write-then-read round trip: after a CRC-valid write-single-register request for
address `a` below the register count and value `v` (addressed to the slave or broadcast)
has been processed by `Modbus_Poll`, a following CRC-valid read-holding-registers request
for start address `a` and quantity 1, arriving while the store is as the write left it, is
answered with `[slave_address, 0x03, 0x02, hi(v), lo(v), crc_lo, crc_hi]`. -/
theorem write_then_read_round_trip (mb mb2 : Modbus_HandleTypeDef)
    (hready : mb.frame_ready = true) (hlen : 8 ≤ mb.rx_index)
    (hregs : mb.holding_registers.length = mb.holding_reg_count)
    (addr a v : Nat) (haddr : addr = mb.slave_address ∨ addr = 0)
    (ha : a < 65536) (hv : v < 65536)
    (hframe : mb.rx_buffer.take 6 = [addr, 0x06, a / 256, a % 256, v / 256, v % 256])
    (hcrc : received_crc mb = calculated_crc mb)
    (hin : a < mb.holding_reg_count)
    (hstore : mb2.holding_registers = (Modbus_Poll mb).holding_registers)
    (hcount : mb2.holding_reg_count = mb.holding_reg_count)
    (hready2 : mb2.frame_ready = true) (hlen2 : 8 ≤ mb2.rx_index)
    (htx2 : mb2.tx_buffer.length = 256)
    (hframe2 : mb2.rx_buffer.take 6 = [mb2.slave_address, 0x03, a / 256, a % 256, 0, 1])
    (hcrc2 : received_crc mb2 = calculated_crc mb2) :
    (Modbus_Poll mb2).trace = mb2.trace ++
      [Modbus_Event.SetDE true,
       Modbus_Event.UART_Transmit (with_crc [mb2.slave_address, 0x03, 0x02, v / 256, v % 256]),
       Modbus_Event.SetDE false] := by
  obtain ⟨g0, g1, ga, gv⟩ := request_fields_of_take mb _ _ a v ha hv hframe
  have hw : write_served mb :=
    ⟨⟨hready, by omega, by rw [g0]; exact haddr, hcrc⟩, g1, hlen, by rw [ga]; exact hin⟩
  have hstore2 : mb2.holding_registers = mb.holding_registers.set a v := by
    rw [hstore, Modbus_Poll_write_served_regs mb hw, ga, gv]
  obtain ⟨k0, k1, ka, kq⟩ := request_fields_of_take mb2 _ _ a 1 ha (by omega) hframe2
  have hr : read_served mb2 :=
    ⟨⟨hready2, by omega, Or.inl k0, hcrc2⟩, k1, hlen2, by omega, by omega, by omega⟩
  have h := (Modbus_Poll_read_served_trace mb2 hr htx2).1
  rw [ka, kq] at h
  rw [h, hstore2]
  have hval : (mb.holding_registers.set a v).getD (a + 0) 0 = v :=
    getD_set_eq _ _ _ (by omega)
  simp only [read_payload, List.nil_append, hval, word_hi_byte v hv, word_lo_byte v]
  rfl

set_option maxRecDepth 100000 in
theorem write_then_read_round_trip_witness :
    (Modbus_Poll
        (receive_frame (Modbus_Poll example_write_request)
          [3, 3, 0, 11, 0, 1, 244, 42] 100)).trace =
      (receive_frame (Modbus_Poll example_write_request)
          [3, 3, 0, 11, 0, 1, 244, 42] 100).trace ++
      [Modbus_Event.SetDE true,
       Modbus_Event.UART_Transmit
         (with_crc [(receive_frame (Modbus_Poll example_write_request)
           [3, 3, 0, 11, 0, 1, 244, 42] 100).slave_address, 0x03, 0x02,
           0x0FFF / 256, 0x0FFF % 256]),
       Modbus_Event.SetDE false] :=
  write_then_read_round_trip example_write_request
    (receive_frame (Modbus_Poll example_write_request) [3, 3, 0, 11, 0, 1, 244, 42] 100)
    (by decide) (by decide) (by decide) 3 11 0x0FFF (by decide) (by decide) (by decide)
    (by decide) (by decide) (by decide) (by decide) (by decide) (by decide) (by decide)
    (by decide) (by decide) (by decide)

/-- C17. Every exception response is exactly 5 bytes: for every function code and every
exception code, `Modbus_SendException` hands to the UART the configured slave address, the
function code with bit 7 set, the exception code, then `Modbus_CRC16` of those three bytes,
low byte followed by high byte. -/
theorem Modbus_SendException_frame (mb : Modbus_HandleTypeDef) (function exception : Nat)
    (htx : mb.tx_buffer.length = 256) (hf : function < 256) :
    (Modbus_SendException mb function exception).trace = mb.trace ++
      [Modbus_Event.SetDE true,
       Modbus_Event.UART_Transmit
         [mb.slave_address, function ||| 0x80, exception,
          Modbus_CRC16 [mb.slave_address, function ||| 0x80, exception] 3 &&& 0xFF,
          Modbus_CRC16 [mb.slave_address, function ||| 0x80, exception] 3 >>> 8],
       Modbus_Event.SetDE false] ∧
    [mb.slave_address, function ||| 0x80, exception,
      Modbus_CRC16 [mb.slave_address, function ||| 0x80, exception] 3 &&& 0xFF,
      Modbus_CRC16 [mb.slave_address, function ||| 0x80, exception] 3 >>> 8].length = 5 := by
  have hor : (function ||| 0x80) % 256 = function ||| 0x80 :=
    Nat.mod_eq_of_lt (Nat.or_lt_two_pow (by simpa using hf : function < 2 ^ 8) (by norm_num))
  refine ⟨?_, rfl⟩
  rw [Modbus_SendException_trace mb function exception (by omega), hor]

set_option maxRecDepth 100000 in
theorem Modbus_SendException_frame_witness :
    (Modbus_SendException example_write_request 0x06 0x02).trace =
      example_write_request.trace ++
      [Modbus_Event.SetDE true,
       Modbus_Event.UART_Transmit
         [example_write_request.slave_address, 0x06 ||| 0x80, 0x02,
          Modbus_CRC16 [example_write_request.slave_address, 0x06 ||| 0x80, 0x02] 3 &&& 0xFF,
          Modbus_CRC16 [example_write_request.slave_address, 0x06 ||| 0x80, 0x02] 3 >>> 8],
       Modbus_Event.SetDE false] ∧
    [example_write_request.slave_address, 0x06 ||| 0x80, 0x02,
      Modbus_CRC16 [example_write_request.slave_address, 0x06 ||| 0x80, 0x02] 3 &&& 0xFF,
      Modbus_CRC16 [example_write_request.slave_address, 0x06 ||| 0x80, 0x02] 3 >>> 8].length
      = 5 :=
  Modbus_SendException_frame example_write_request 0x06 0x02 (by decide) (by decide)

theorem Modbus_RxCallback_trace_regs (mb : Modbus_HandleTypeDef) (data tick : Nat) :
    (Modbus_RxCallback mb data tick).trace = mb.trace ∧
    (Modbus_RxCallback mb data tick).holding_registers = mb.holding_registers := by
  unfold Modbus_RxCallback
  split <;> exact ⟨rfl, rfl⟩

theorem Modbus_TimerCallback_trace_regs (mb : Modbus_HandleTypeDef) (tick : Nat) :
    (Modbus_TimerCallback mb tick).trace = mb.trace ∧
    (Modbus_TimerCallback mb tick).holding_registers = mb.holding_registers := by
  unfold Modbus_TimerCallback
  split
  · simp only []
    split <;> exact ⟨rfl, rfl⟩
  · exact ⟨rfl, rfl⟩

/-- The actions one `Modbus_Poll` call adds to the trace: nothing, or possibly the call of
the write hook followed by one bracketed transmission of a frame ending in its CRC. -/
theorem Modbus_Poll_trace_shape (mb : Modbus_HandleTypeDef) (htx : mb.tx_buffer.length = 256) :
    (Modbus_Poll mb).trace = mb.trace ∨
    ∃ pre p, (Modbus_Poll mb).trace = mb.trace ++
      (pre ++ [Modbus_Event.SetDE true, Modbus_Event.UART_Transmit (with_crc p),
        Modbus_Event.SetDE false]) ∧
      (pre = [] ∨ ∃ a v regs, pre = [Modbus_Event.write_callback a v regs]) := by
  by_cases hr : read_served mb
  · exact Or.inr ⟨[], _, (Modbus_Poll_read_served_trace mb hr htx).1, Or.inl rfl⟩
  · by_cases hw : write_served mb
    · refine Or.inr ⟨_, _, (Modbus_Poll_write_served_trace mb hw htx).2, ?_⟩
      cases mb.write_callback
      · exact Or.inl rfl
      · exact Or.inr ⟨_, _, _, rfl⟩
    · rcases Modbus_Poll_unserved_trace mb hr hw htx with h | ⟨e, _, h⟩
      · exact Or.inl h
      · exact Or.inr ⟨[], _, h, Or.inl rfl⟩

/-- C18. Every frame the engine transmits carries a valid integrity trailer: byte arrival
and the timer check transmit nothing, and every frame `Modbus_Poll` hands to the UART
(read response, write echo or exception) is some payload followed by `Modbus_CRC16` of that
payload, low byte first, so that a receive buffer holding the frame passes the CRC gate of
the frame processor. -/
theorem transmitted_frames_carry_valid_crc (mb : Modbus_HandleTypeDef)
    (htx : mb.tx_buffer.length = 256) :
    (∀ data tick, (Modbus_RxCallback mb data tick).trace = mb.trace) ∧
    (∀ tick, (Modbus_TimerCallback mb tick).trace = mb.trace) ∧
    ∃ evs, (Modbus_Poll mb).trace = mb.trace ++ evs ∧
      ∀ frame, Modbus_Event.UART_Transmit frame ∈ evs →
        (∃ p, frame = with_crc p) ∧
        ∀ h : Modbus_HandleTypeDef, h.rx_index = frame.length →
          h.rx_buffer.take h.rx_index = frame → received_crc h = calculated_crc h := by
  refine ⟨fun d t => (Modbus_RxCallback_trace_regs mb d t).1,
    fun t => (Modbus_TimerCallback_trace_regs mb t).1, ?_⟩
  rcases Modbus_Poll_trace_shape mb htx with h | ⟨pre, p, h, hpre⟩
  · exact ⟨[], by rw [h, List.append_nil], fun frame hmem => absurd hmem (List.not_mem_nil _)⟩
  · refine ⟨_, h, fun frame hmem => ?_⟩
    have hf : frame = with_crc p := by
      rcases hpre with hp | ⟨a, v, regs, hp⟩
      · subst hp
        simpa using hmem
      · subst hp
        simpa using hmem
    subst hf
    exact ⟨⟨p, rfl⟩, fun h hidx hbuf => crc_gate_of_with_crc p h hidx hbuf⟩

set_option maxRecDepth 100000 in
theorem transmitted_frames_carry_valid_crc_witness :
    (∀ data tick, (Modbus_RxCallback example_read_request data tick).trace =
      example_read_request.trace) ∧
    (∀ tick, (Modbus_TimerCallback example_read_request tick).trace =
      example_read_request.trace) ∧
    ∃ evs, (Modbus_Poll example_read_request).trace = example_read_request.trace ++ evs ∧
      ∀ frame, Modbus_Event.UART_Transmit frame ∈ evs →
        (∃ p, frame = with_crc p) ∧
        ∀ h : Modbus_HandleTypeDef, h.rx_index = frame.length →
          h.rx_buffer.take h.rx_index = frame → received_crc h = calculated_crc h :=
  transmitted_frames_carry_valid_crc example_read_request (by decide)

/-- C19. Frame processing is total and every validation failure maps to silence or to a
well-formed exception: for every ready buffer content of every length and every register
store, `Modbus_Poll` returns with the buffer consumed, and whenever the request is not
served (neither a served read nor a served write) the register store is unchanged and
either no action is recorded at all or exactly one 5-byte exception frame is transmitted,
whose exception code is 0x01, 0x02 or 0x03. -/
theorem Modbus_Poll_unserved_outcome (mb : Modbus_HandleTypeDef)
    (hready : mb.frame_ready = true) (htx : mb.tx_buffer.length = 256)
    (hr : ¬ read_served mb) (hw : ¬ write_served mb) :
    (Modbus_Poll mb).frame_ready = false ∧ (Modbus_Poll mb).rx_index = 0 ∧
    (Modbus_Poll mb).holding_registers = mb.holding_registers ∧
    ((Modbus_Poll mb).trace = mb.trace ∨
     ∃ e, (e = 0x01 ∨ e = 0x02 ∨ e = 0x03) ∧
      (Modbus_Poll mb).trace = mb.trace ++
        [Modbus_Event.SetDE true,
         Modbus_Event.UART_Transmit
           (with_crc [mb.slave_address, (mb.rx_buffer.getD 1 0 ||| 0x80) % 256, e]),
         Modbus_Event.SetDE false] ∧
      (with_crc [mb.slave_address, (mb.rx_buffer.getD 1 0 ||| 0x80) % 256, e]).length = 5) := by
  refine ⟨?_, ?_, Modbus_Poll_regs_of_not_write_served mb hw, ?_⟩
  · rw [Modbus_Poll_ready mb hready]
  · rw [Modbus_Poll_ready mb hready]
  · rcases Modbus_Poll_unserved_trace mb hr hw htx with h | ⟨e, he, h⟩
    · exact Or.inl h
    · exact Or.inr ⟨e, he, h, with_crc_length _⟩

set_option maxRecDepth 100000 in
theorem Modbus_Poll_unserved_outcome_witness :
    (Modbus_Poll (request_handle 3 (List.replicate 32 0)
      [3, 3, 0, 0, 0, 0, 68, 40] true)).frame_ready = false ∧
    (Modbus_Poll (request_handle 3 (List.replicate 32 0)
      [3, 3, 0, 0, 0, 0, 68, 40] true)).rx_index = 0 ∧
    (Modbus_Poll (request_handle 3 (List.replicate 32 0)
      [3, 3, 0, 0, 0, 0, 68, 40] true)).holding_registers =
      (request_handle 3 (List.replicate 32 0) [3, 3, 0, 0, 0, 0, 68, 40] true).holding_registers ∧
    ((Modbus_Poll (request_handle 3 (List.replicate 32 0)
        [3, 3, 0, 0, 0, 0, 68, 40] true)).trace =
      (request_handle 3 (List.replicate 32 0) [3, 3, 0, 0, 0, 0, 68, 40] true).trace ∨
     ∃ e, (e = 0x01 ∨ e = 0x02 ∨ e = 0x03) ∧
      (Modbus_Poll (request_handle 3 (List.replicate 32 0)
        [3, 3, 0, 0, 0, 0, 68, 40] true)).trace =
        (request_handle 3 (List.replicate 32 0) [3, 3, 0, 0, 0, 0, 68, 40] true).trace ++
        [Modbus_Event.SetDE true,
         Modbus_Event.UART_Transmit
           (with_crc [(request_handle 3 (List.replicate 32 0)
              [3, 3, 0, 0, 0, 0, 68, 40] true).slave_address,
            ((request_handle 3 (List.replicate 32 0)
              [3, 3, 0, 0, 0, 0, 68, 40] true).rx_buffer.getD 1 0 ||| 0x80) % 256, e]),
         Modbus_Event.SetDE false] ∧
      (with_crc [(request_handle 3 (List.replicate 32 0)
          [3, 3, 0, 0, 0, 0, 68, 40] true).slave_address,
        ((request_handle 3 (List.replicate 32 0)
          [3, 3, 0, 0, 0, 0, 68, 40] true).rx_buffer.getD 1 0 ||| 0x80) % 256, e]).length = 5) :=
  Modbus_Poll_unserved_outcome
    (request_handle 3 (List.replicate 32 0) [3, 3, 0, 0, 0, 0, 68, 40] true)
    (by decide) (by decide) (by decide) (by decide)

/-- C20. The engine mutates the register store only in response to a validated
single-register write: byte arrival and the timer check never change it, and `Modbus_Poll`
leaves it unchanged unless the buffered frame is a ready, CRC-valid function-0x06 frame of
length at least 8, addressed to the slave or to broadcast, with register address below the
register count (`write_served`), and then only the addressed register can change; in
particular a frame with function code 0x03 leaves the store unchanged. -/
theorem register_store_only_changed_by_served_write (mb : Modbus_HandleTypeDef) :
    (∀ data tick, (Modbus_RxCallback mb data tick).holding_registers = mb.holding_registers) ∧
    (∀ tick, (Modbus_TimerCallback mb tick).holding_registers = mb.holding_registers) ∧
    (¬ write_served mb → (Modbus_Poll mb).holding_registers = mb.holding_registers) ∧
    (write_served mb → ∀ j, j ≠ request_word mb 2 →
      (Modbus_Poll mb).holding_registers.getD j 0 = mb.holding_registers.getD j 0) ∧
    (Modbus_Poll mb).holding_registers.length = mb.holding_registers.length ∧
    (mb.rx_buffer.getD 1 0 = MODBUS_FC_READ_HOLDING_REGS →
      (Modbus_Poll mb).holding_registers = mb.holding_registers) ∧
    (write_served mb ↔
      mb.frame_ready = true ∧ 8 ≤ mb.rx_index ∧
      (mb.rx_buffer.getD 0 0 = mb.slave_address ∨ mb.rx_buffer.getD 0 0 = 0) ∧
      received_crc mb = calculated_crc mb ∧ mb.rx_buffer.getD 1 0 = 0x06 ∧
      request_word mb 2 < mb.holding_reg_count) := by
  refine ⟨fun d t => (Modbus_RxCallback_trace_regs mb d t).2,
    fun t => (Modbus_TimerCallback_trace_regs mb t).2,
    Modbus_Poll_regs_of_not_write_served mb, ?_, ?_, ?_, ?_⟩
  · intro hw j hj
    rw [Modbus_Poll_write_served_regs mb hw]
    exact getD_set_ne _ _ _ _ (Ne.symm hj)
  · by_cases hw : write_served mb
    · rw [Modbus_Poll_write_served_regs mb hw, List.length_set]
    · rw [Modbus_Poll_regs_of_not_write_served mb hw]
  · intro hf
    apply Modbus_Poll_regs_of_not_write_served
    intro hw
    have h6 := hw.2.1
    rw [hf] at h6
    exact absurd h6 (by decide)
  · constructor
    · rintro ⟨⟨h1, h2, h3, h4⟩, h5, h6, h7⟩
      exact ⟨h1, h6, h3, h4, h5, h7⟩
    · rintro ⟨h1, h6, h3, h4, h5, h7⟩
      exact ⟨⟨h1, by omega, h3, h4⟩, h5, h6, h7⟩

theorem Modbus_run_nil (mb : Modbus_HandleTypeDef) : Modbus_run mb [] = mb := rfl

theorem Modbus_run_cons (mb : Modbus_HandleTypeDef) (op : Modbus_Op) (ops : List Modbus_Op) :
    Modbus_run mb (op :: ops) = Modbus_run (Modbus_step mb op) ops := rfl

/-- A property kept by every entry point holds after every sequence of calls. -/
theorem Modbus_run_invariant (P : Modbus_HandleTypeDef → Prop)
    (hstep : ∀ mb op, P mb → P (Modbus_step mb op)) (mb : Modbus_HandleTypeDef)
    (ops : List Modbus_Op) (h : P mb) : P (Modbus_run mb ops) := by
  induction ops generalizing mb with
  | nil => exact h
  | cons op rest ih => exact ih _ (hstep mb op h)

theorem Modbus_RxCallback_full (mb : Modbus_HandleTypeDef) (data tick : Nat)
    (h : 256 ≤ mb.rx_index) : Modbus_RxCallback mb data tick = mb := by
  have hn : ¬ mb.rx_index < MODBUS_RX_BUFFER_SIZE := by
    show ¬ mb.rx_index < 256
    omega
  simp only [Modbus_RxCallback, if_neg hn]

theorem Modbus_RxCallback_room (mb : Modbus_HandleTypeDef) (data tick : Nat)
    (h : mb.rx_index < 256) :
    Modbus_RxCallback mb data tick =
      { mb with
        rx_buffer := mb.rx_buffer.set mb.rx_index data
        rx_index := mb.rx_index + 1
        last_rx_time := tick } := by
  have hn : mb.rx_index < MODBUS_RX_BUFFER_SIZE := h
  simp only [Modbus_RxCallback, if_pos hn]

theorem Modbus_RxCallback_rx_index_le (mb : Modbus_HandleTypeDef) (data tick : Nat)
    (h : mb.rx_index ≤ 256) : (Modbus_RxCallback mb data tick).rx_index ≤ 256 := by
  by_cases hr : mb.rx_index < 256
  · rw [Modbus_RxCallback_room mb data tick hr]
    exact hr
  · rw [Modbus_RxCallback_full mb data tick (by omega)]
    exact h

/-- The timer check changes at most the ready flag. -/
theorem Modbus_TimerCallback_eq (mb : Modbus_HandleTypeDef) (tick : Nat) :
    Modbus_TimerCallback mb tick = mb ∨
    Modbus_TimerCallback mb tick = { mb with frame_ready := true } := by
  unfold Modbus_TimerCallback
  split
  · simp only []
    split
    · exact Or.inr rfl
    · exact Or.inl rfl
  · exact Or.inl rfl

theorem Modbus_Poll_rx_index_le (mb : Modbus_HandleTypeDef) (h : mb.rx_index ≤ 256) :
    (Modbus_Poll mb).rx_index ≤ 256 := by
  cases hready : mb.frame_ready
  · rw [Modbus_Poll_not_ready mb hready]; exact h
  · rw [Modbus_Poll_ready mb hready]; exact Nat.zero_le _

theorem Modbus_step_rx_index_le (mb : Modbus_HandleTypeDef) (op : Modbus_Op)
    (h : mb.rx_index ≤ 256) : (Modbus_step mb op).rx_index ≤ 256 := by
  cases op with
  | RxCallback data tick => exact Modbus_RxCallback_rx_index_le mb data tick h
  | TimerCallback tick =>
    rcases Modbus_TimerCallback_eq mb tick with e | e
    · show (Modbus_TimerCallback mb tick).rx_index ≤ 256
      rw [e]; exact h
    · show (Modbus_TimerCallback mb tick).rx_index ≤ 256
      rw [e]; exact h
  | Poll => exact Modbus_Poll_rx_index_le mb h

/-- C21. In every state reached from `Modbus_Init` by any sequence of `Modbus_RxCallback`,
`Modbus_TimerCallback` and `Modbus_Poll` calls, the receive write index is at most 256, the
buffer capacity; and a byte arriving when `rx_index = 256` is dropped: the call leaves the
whole handle, in particular the 256 buffered bytes, unchanged. -/
theorem rx_index_never_exceeds_capacity (mb0 : Modbus_HandleTypeDef)
    (slave_address : Nat) (holding_regs : List Nat) (reg_count : Nat) (ops : List Modbus_Op) :
    (Modbus_run (Modbus_Init mb0 slave_address holding_regs reg_count) ops).rx_index
      ≤ MODBUS_RX_BUFFER_SIZE ∧
    ∀ (mb : Modbus_HandleTypeDef) (data tick : Nat), mb.rx_index = MODBUS_RX_BUFFER_SIZE →
      Modbus_RxCallback mb data tick = mb ∧
      (Modbus_RxCallback mb data tick).rx_buffer = mb.rx_buffer ∧
      (Modbus_RxCallback mb data tick).rx_index = mb.rx_index := by
  refine ⟨?_, ?_⟩
  · exact Modbus_run_invariant (fun mb => mb.rx_index ≤ 256) Modbus_step_rx_index_le _ ops
      (Nat.zero_le _)
  · intro mb data tick h
    have e := Modbus_RxCallback_full mb data tick (by rw [h]; exact Nat.le_refl _)
    rw [e]
    exact ⟨rfl, rfl, rfl⟩

theorem Modbus_run_rx_arrivals_cons (mb : Modbus_HandleTypeDef) (a : Nat × Nat)
    (rest : List (Nat × Nat)) :
    Modbus_run mb (rx_arrivals (a :: rest)) =
      Modbus_run (Modbus_RxCallback mb a.1 a.2) (rx_arrivals rest) := rfl

/-- Bytes arriving while there is room are appended in order after the bytes already
buffered, and the time of the last arrival is recorded. -/
theorem Modbus_run_rx_arrivals (arrivals : List (Nat × Nat)) (mb : Modbus_HandleTypeDef)
    (hlen : mb.rx_buffer.length = 256) (hroom : mb.rx_index + arrivals.length ≤ 256) :
    (Modbus_run mb (rx_arrivals arrivals)).rx_index = mb.rx_index + arrivals.length ∧
    (Modbus_run mb (rx_arrivals arrivals)).rx_buffer.length = 256 ∧
    (Modbus_run mb (rx_arrivals arrivals)).rx_buffer.take (mb.rx_index + arrivals.length) =
      mb.rx_buffer.take mb.rx_index ++ arrivals.map Prod.fst ∧
    (∀ a, arrivals.getLast? = some a →
      (Modbus_run mb (rx_arrivals arrivals)).last_rx_time = a.2) ∧
    (Modbus_run mb (rx_arrivals arrivals)).frame_ready = mb.frame_ready := by
  induction arrivals generalizing mb with
  | nil =>
    refine ⟨rfl, hlen, ?_, ?_, rfl⟩
    · simp only [List.length_nil, Nat.add_zero, List.map_nil, List.append_nil]
      rfl
    · intro a ha
      simp at ha
  | cons a rest ih =>
    have hr : mb.rx_index < 256 := by
      simp only [List.length_cons] at hroom; omega
    have hstep := Modbus_RxCallback_room mb a.1 a.2 hr
    rw [Modbus_run_rx_arrivals_cons]
    obtain ⟨i1, i2, i3, i4, i5⟩ := ih (Modbus_RxCallback mb a.1 a.2)
      (by rw [hstep]; simp only [List.length_set]; exact hlen)
      (by rw [hstep]; simp only [List.length_cons] at hroom ⊢; omega)
    have hidx : (Modbus_RxCallback mb a.1 a.2).rx_index = mb.rx_index + 1 := by rw [hstep]
    have hbuf : (Modbus_RxCallback mb a.1 a.2).rx_buffer.take (mb.rx_index + 1) =
        mb.rx_buffer.take mb.rx_index ++ [a.1] := by
      rw [hstep]; exact take_succ_set _ _ _ (by omega)
    have hlast : (Modbus_RxCallback mb a.1 a.2).last_rx_time = a.2 := by rw [hstep]
    have hfr : (Modbus_RxCallback mb a.1 a.2).frame_ready = mb.frame_ready := by rw [hstep]
    rw [hidx] at i1 i3
    have e : mb.rx_index + (a :: rest).length = mb.rx_index + 1 + rest.length := by
      simp only [List.length_cons]; omega
    refine ⟨by rw [i1, e], i2, ?_, ?_, by rw [i5, hfr]⟩
    · rw [e, i3, hbuf, List.append_assoc]
      rfl
    · intro b hb
      cases rest with
      | nil =>
        simp only [List.getLast?_singleton, Option.some.injEq] at hb
        subst hb
        exact hlast
      | cons c rest2 =>
        rw [List.getLast?_cons_cons] at hb
        exact i4 b hb

/-- C22. Starting from the Idle state (`rx_index = 0`, 256-byte buffer), after `n ≤ 256`
consecutive `Modbus_RxCallback` calls with bytes `b_0 .. b_{n-1}`: `rx_index = n`, the
first `n` bytes of `rx_buffer` are `b_0 .. b_{n-1}` in arrival order, and `last_rx_time`
is the tick of the last arrival. -/
theorem Modbus_RxCallback_accumulates (mb : Modbus_HandleTypeDef)
    (arrivals : List (Nat × Nat))
    (hidle : mb.rx_index = 0) (hlen : mb.rx_buffer.length = 256)
    (hn : arrivals.length ≤ 256) :
    (Modbus_run mb (rx_arrivals arrivals)).rx_index = arrivals.length ∧
    (Modbus_run mb (rx_arrivals arrivals)).rx_buffer.take arrivals.length =
      arrivals.map Prod.fst ∧
    (∀ i, i < arrivals.length →
      (Modbus_run mb (rx_arrivals arrivals)).rx_buffer.getD i 0 =
        (arrivals.map Prod.fst).getD i 0) ∧
    (∀ a, arrivals.getLast? = some a →
      (Modbus_run mb (rx_arrivals arrivals)).last_rx_time = a.2) := by
  obtain ⟨i1, _, i3, i4, _⟩ := Modbus_run_rx_arrivals arrivals mb hlen (by omega)
  rw [hidle, Nat.zero_add] at i1 i3
  rw [List.take_zero, List.nil_append] at i3
  exact ⟨i1, i3, fun i hi => getD_of_take_eq _ _ _ i i3 hi, i4⟩

set_option maxRecDepth 100000 in
theorem Modbus_RxCallback_accumulates_witness :
    (Modbus_run (Modbus_Init blank_handle 3 (List.replicate 32 0) 32)
        (rx_arrivals [(1, 0), (2, 1), (3, 2)])).rx_index = [(1, 0), (2, 1), (3, 2)].length ∧
    (Modbus_run (Modbus_Init blank_handle 3 (List.replicate 32 0) 32)
        (rx_arrivals [(1, 0), (2, 1), (3, 2)])).rx_buffer.take [(1, 0), (2, 1), (3, 2)].length =
      [(1, 0), (2, 1), (3, 2)].map Prod.fst ∧
    (∀ i, i < [(1, 0), (2, 1), (3, 2)].length →
      (Modbus_run (Modbus_Init blank_handle 3 (List.replicate 32 0) 32)
        (rx_arrivals [(1, 0), (2, 1), (3, 2)])).rx_buffer.getD i 0 =
        ([(1, 0), (2, 1), (3, 2)].map Prod.fst).getD i 0) ∧
    (∀ a, [(1, 0), (2, 1), (3, 2)].getLast? = some a →
      (Modbus_run (Modbus_Init blank_handle 3 (List.replicate 32 0) 32)
        (rx_arrivals [(1, 0), (2, 1), (3, 2)])).last_rx_time = a.2) :=
  Modbus_RxCallback_accumulates (Modbus_Init blank_handle 3 (List.replicate 32 0) 32)
    [(1, 0), (2, 1), (3, 2)] (by decide) (by decide) (by decide)

theorem Modbus_TimerCallback_unfold (mb : Modbus_HandleTypeDef) (tick : Nat) :
    Modbus_TimerCallback mb tick =
      if mb.rx_index > 0 ∧ ¬ mb.frame_ready = true then
        if (tick + 2 ^ 32 - mb.last_rx_time) % 2 ^ 32 ≥ MODBUS_FRAME_TIMEOUT_MS then
          { mb with frame_ready := true }
        else mb
      else mb := rfl

theorem Modbus_TimerCallback_ready (mb : Modbus_HandleTypeDef) (tick : Nat)
    (h : mb.frame_ready = true) : Modbus_TimerCallback mb tick = mb := by
  rw [Modbus_TimerCallback_unfold, if_neg (fun c => c.2 h)]

/-- C23. With the tick counter read without wrap-around since the last arrival, the timer
check changes the ready flag from false to true if and only if the buffer is non-empty and
the time elapsed since the last byte arrival is at least 5 ms; in that case the flag is all
it changes, and otherwise it changes nothing. -/
theorem Modbus_TimerCallback_marks_ready (mb : Modbus_HandleTypeDef) (tick : Nat)
    (hle : mb.last_rx_time ≤ tick) (hlt : tick < 2 ^ 32) :
    ((mb.frame_ready = false ∧ (Modbus_TimerCallback mb tick).frame_ready = true) ↔
      (mb.frame_ready = false ∧ 0 < mb.rx_index ∧ 5 ≤ tick - mb.last_rx_time)) ∧
    Modbus_TimerCallback mb tick =
      (if mb.frame_ready = false ∧ 0 < mb.rx_index ∧ 5 ≤ tick - mb.last_rx_time then
        { mb with frame_ready := true } else mb) := by
  have hel : (tick + 2 ^ 32 - mb.last_rx_time) % 2 ^ 32 = tick - mb.last_rx_time := by omega
  cases hfr : mb.frame_ready
  · by_cases hc : 0 < mb.rx_index ∧ 5 ≤ tick - mb.last_rx_time
    · have e : Modbus_TimerCallback mb tick = { mb with frame_ready := true } := by
        rw [Modbus_TimerCallback_unfold, if_pos ⟨hc.1, by rw [hfr]; decide⟩, hel,
          if_pos (show tick - mb.last_rx_time ≥ MODBUS_FRAME_TIMEOUT_MS from hc.2)]
      rw [e, if_pos ⟨rfl, hc⟩]
      exact ⟨⟨fun _ => ⟨rfl, hc⟩, fun _ => ⟨rfl, rfl⟩⟩, rfl⟩
    · have e : Modbus_TimerCallback mb tick = mb := by
        rw [Modbus_TimerCallback_unfold]
        by_cases h0 : mb.rx_index > 0
        · have h5 : ¬ tick - mb.last_rx_time ≥ MODBUS_FRAME_TIMEOUT_MS :=
            fun h => hc ⟨h0, h⟩
          rw [if_pos ⟨h0, by rw [hfr]; decide⟩, hel, if_neg h5]
        · rw [if_neg (fun c => h0 c.1)]
      rw [e, if_neg (fun c => hc c.2)]
      refine ⟨⟨fun h => ?_, fun h => absurd h.2 hc⟩, rfl⟩
      rw [hfr] at h
      exact absurd h.2 (by decide)
  · rw [Modbus_TimerCallback_ready mb tick hfr, if_neg (fun c => absurd c.1 (by decide))]
    exact ⟨⟨fun h => absurd h.1 (by decide), fun h => absurd h.1 (by decide)⟩, rfl⟩

set_option maxRecDepth 100000 in
theorem Modbus_TimerCallback_marks_ready_witness :
    (((example_three_bytes.frame_ready = false ∧
        (Modbus_TimerCallback example_three_bytes 7).frame_ready = true) ↔
      (example_three_bytes.frame_ready = false ∧ 0 < example_three_bytes.rx_index ∧
        5 ≤ 7 - example_three_bytes.last_rx_time)) ∧
     Modbus_TimerCallback example_three_bytes 7 =
      (if example_three_bytes.frame_ready = false ∧ 0 < example_three_bytes.rx_index ∧
          5 ≤ 7 - example_three_bytes.last_rx_time then
        { example_three_bytes with frame_ready := true } else example_three_bytes)) ∧
    example_three_bytes.last_rx_time = 2 ∧
    (Modbus_TimerCallback example_three_bytes 4).frame_ready = false ∧
    (Modbus_TimerCallback example_three_bytes 7).frame_ready = true :=
  ⟨Modbus_TimerCallback_marks_ready example_three_bytes 7 (by decide) (by decide),
    by decide, by decide, by decide⟩

/-- C24. The ready flag goes from true to false only when the processor consumes the
frame: when `frame_ready` is set, it is still set after `Modbus_RxCallback` and after
`Modbus_TimerCallback`, it is clear after `Modbus_Poll`, and so an entry point after which
it is clear can only be `Modbus_Poll`. -/
theorem frame_ready_cleared_only_by_Poll (mb : Modbus_HandleTypeDef) (op : Modbus_Op)
    (hset : mb.frame_ready = true) :
    (∀ data tick, (Modbus_RxCallback mb data tick).frame_ready = true) ∧
    (∀ tick, (Modbus_TimerCallback mb tick).frame_ready = true) ∧
    (Modbus_Poll mb).frame_ready = false ∧
    ((Modbus_step mb op).frame_ready = false → op = Modbus_Op.Poll) := by
  have hrx : ∀ data tick, (Modbus_RxCallback mb data tick).frame_ready = true := by
    intro data tick
    by_cases hr : mb.rx_index < 256
    · rw [Modbus_RxCallback_room mb data tick hr]; exact hset
    · rw [Modbus_RxCallback_full mb data tick (by omega)]; exact hset
  have htm : ∀ tick, (Modbus_TimerCallback mb tick).frame_ready = true := by
    intro tick
    rw [Modbus_TimerCallback_ready mb tick hset]; exact hset
  refine ⟨hrx, htm, by rw [Modbus_Poll_ready mb hset], ?_⟩
  intro h
  cases op with
  | RxCallback data tick =>
    have := hrx data tick
    rw [show (Modbus_RxCallback mb data tick).frame_ready = false from h] at this
    exact absurd this (by decide)
  | TimerCallback tick =>
    have := htm tick
    rw [show (Modbus_TimerCallback mb tick).frame_ready = false from h] at this
    exact absurd this (by decide)
  | Poll => rfl

set_option maxRecDepth 100000 in
theorem frame_ready_cleared_only_by_Poll_witness :
    (∀ data tick, (Modbus_RxCallback example_write_request data tick).frame_ready = true) ∧
    (∀ tick, (Modbus_TimerCallback example_write_request tick).frame_ready = true) ∧
    (Modbus_Poll example_write_request).frame_ready = false ∧
    ((Modbus_step example_write_request (Modbus_Op.RxCallback 0x55 9)).frame_ready = false →
      Modbus_Op.RxCallback 0x55 9 = Modbus_Op.Poll) :=
  frame_ready_cleared_only_by_Poll example_write_request (Modbus_Op.RxCallback 0x55 9)
    (by decide)

/-- C25. For every state in which `frame_ready` is set, after `Modbus_Poll` the buffer index
is 0 and the flag is clear, whatever the frame was (too short, foreign, corrupted, rejected
with an exception or served); and for every state in which `frame_ready` is not set,
`Modbus_Poll` returns the handle unchanged, so it records no action and transmits nothing. -/
theorem Modbus_Poll_consumes_ready_frame (mb : Modbus_HandleTypeDef) :
    (mb.frame_ready = true →
      (Modbus_Poll mb).rx_index = 0 ∧ (Modbus_Poll mb).frame_ready = false) ∧
    (mb.frame_ready = false →
      Modbus_Poll mb = mb ∧ (Modbus_Poll mb).trace = mb.trace) := by
  constructor
  · intro h
    rw [Modbus_Poll_ready mb h]
    exact ⟨rfl, rfl⟩
  · intro h
    rw [Modbus_Poll_not_ready mb h]
    exact ⟨rfl, rfl⟩

theorem take_set_self (l : List Nat) (n x : Nat) : (l.set n x).take n = l.take n := by
  induction l generalizing n with
  | nil => rfl
  | cons a t ih =>
    cases n with
    | zero => rfl
    | succ m =>
      simp only [List.set_cons_succ, List.take_succ_cons]
      rw [ih m]

/-- C26 (counterexample). In the reachable state `example_ready_frame` the flag is set and
the buffered frame has 8 bytes; a byte arriving before the frame is consumed is appended
to it, so `rx_index` becomes 9, and `Modbus_Poll` then processes a 9-byte frame, which it
drops, instead of answering the 8-byte frame that was marked ready. -/
theorem ready_frame_not_stable_under_arrival :
    example_ready_frame.frame_ready = true ∧
    example_ready_frame.rx_index = 8 ∧
    (Modbus_RxCallback example_ready_frame 0x55 6).rx_index ≠ example_ready_frame.rx_index ∧
    (Modbus_RxCallback example_ready_frame 0x55 6).rx_index = 9 ∧
    (Modbus_Poll example_ready_frame).trace =
      [Modbus_Event.SetDE false, Modbus_Event.SetDE true,
       Modbus_Event.UART_Transmit [3, 6, 0, 11, 15, 255, 188, 90], Modbus_Event.SetDE false] ∧
    (Modbus_Poll (Modbus_RxCallback example_ready_frame 0x55 6)).trace =
      [Modbus_Event.SetDE false] := by
  decide

/-- C26 (amended). In every state with `frame_ready` set, a timing check leaves the whole
handle unchanged, and a byte arrival keeps the flag set and never overwrites the buffered
frame (the first `rx_index` bytes of `rx_buffer` are unchanged); but while `rx_index < 256`
the arriving byte is stored after the frame and `rx_index` grows by one, and only when the
buffer is full is the byte dropped and the handle unchanged. -/
theorem ready_frame_prefix_stable (mb : Modbus_HandleTypeDef) (data tick : Nat)
    (hready : mb.frame_ready = true) :
    Modbus_TimerCallback mb tick = mb ∧
    (Modbus_RxCallback mb data tick).frame_ready = true ∧
    (Modbus_RxCallback mb data tick).rx_buffer.take mb.rx_index =
      mb.rx_buffer.take mb.rx_index ∧
    (Modbus_RxCallback mb data tick).rx_index =
      (if mb.rx_index < 256 then mb.rx_index + 1 else mb.rx_index) ∧
    (mb.rx_index < 256 → mb.rx_index < mb.rx_buffer.length →
      (Modbus_RxCallback mb data tick).rx_buffer.getD mb.rx_index 0 = data) ∧
    (256 ≤ mb.rx_index → Modbus_RxCallback mb data tick = mb) := by
  refine ⟨Modbus_TimerCallback_ready mb tick hready, ?_, ?_, ?_, ?_,
    Modbus_RxCallback_full mb data tick⟩
  · by_cases hr : mb.rx_index < 256
    · rw [Modbus_RxCallback_room mb data tick hr]; exact hready
    · rw [Modbus_RxCallback_full mb data tick (by omega)]; exact hready
  · by_cases hr : mb.rx_index < 256
    · rw [Modbus_RxCallback_room mb data tick hr]; exact take_set_self _ _ _
    · rw [Modbus_RxCallback_full mb data tick (by omega)]
  · by_cases hr : mb.rx_index < 256
    · rw [Modbus_RxCallback_room mb data tick hr, if_pos hr]
    · rw [Modbus_RxCallback_full mb data tick (by omega), if_neg hr]
  · intro hr hl
    rw [Modbus_RxCallback_room mb data tick hr]
    exact getD_set_eq _ _ _ hl

set_option maxRecDepth 100000 in
theorem ready_frame_prefix_stable_witness :
    Modbus_TimerCallback example_ready_frame 9 = example_ready_frame ∧
    (Modbus_RxCallback example_ready_frame 0x55 6).frame_ready = true ∧
    (Modbus_RxCallback example_ready_frame 0x55 6).rx_buffer.take example_ready_frame.rx_index =
      example_ready_frame.rx_buffer.take example_ready_frame.rx_index ∧
    (Modbus_RxCallback example_ready_frame 0x55 6).rx_index =
      (if example_ready_frame.rx_index < 256 then example_ready_frame.rx_index + 1
        else example_ready_frame.rx_index) ∧
    (example_ready_frame.rx_index < 256 →
      example_ready_frame.rx_index < example_ready_frame.rx_buffer.length →
      (Modbus_RxCallback example_ready_frame 0x55 6).rx_buffer.getD
        example_ready_frame.rx_index 0 = 0x55) ∧
    (256 ≤ example_ready_frame.rx_index →
      Modbus_RxCallback example_ready_frame 0x55 6 = example_ready_frame) :=
  ready_frame_prefix_stable example_ready_frame 0x55 6 (by decide)

theorem Modbus_SendResponse_de (mb : Modbus_HandleTypeDef) (length : Nat) :
    (Modbus_SendResponse mb length).de_pin_set = false := rfl

theorem Modbus_SendException_de (mb : Modbus_HandleTypeDef) (function exception : Nat) :
    (Modbus_SendException mb function exception).de_pin_set = false := rfl

theorem Modbus_HandleReadHoldingRegisters_de (mb : Modbus_HandleTypeDef) :
    (Modbus_HandleReadHoldingRegisters mb).de_pin_set = false := by
  rw [Modbus_HandleReadHoldingRegisters_unfold]
  split
  · rfl
  · split
    · rfl
    · split <;> rfl

theorem Modbus_HandleWriteSingleRegister_de (mb : Modbus_HandleTypeDef) :
    (Modbus_HandleWriteSingleRegister mb).de_pin_set = false := by
  by_cases h8 : mb.rx_index < 8
  · rw [Modbus_HandleWriteSingleRegister_short mb h8]; rfl
  · by_cases hin : request_word mb 2 < mb.holding_reg_count
    · rw [Modbus_HandleWriteSingleRegister_unfold mb (by omega) hin]; rfl
    · rw [Modbus_HandleWriteSingleRegister_bad_address mb (by omega) (by omega)]; rfl

/-- After `Modbus_Poll` the DE/RE pin is low, or it is as it was before the call. -/
theorem Modbus_Poll_de (mb : Modbus_HandleTypeDef) :
    (Modbus_Poll mb).de_pin_set = false ∨ (Modbus_Poll mb).de_pin_set = mb.de_pin_set := by
  by_cases hacc : frame_accepted mb
  · rw [Modbus_Poll_of_accepted mb hacc]
    by_cases hf3 : mb.rx_buffer.getD 1 0 = MODBUS_FC_READ_HOLDING_REGS
    · rw [if_pos hf3]; exact Or.inl (Modbus_HandleReadHoldingRegisters_de mb)
    · rw [if_neg hf3]
      by_cases hf6 : mb.rx_buffer.getD 1 0 = MODBUS_FC_WRITE_SINGLE_REG
      · rw [if_pos hf6]; exact Or.inl (Modbus_HandleWriteSingleRegister_de mb)
      · rw [if_neg hf6]
        split
        · exact Or.inl rfl
        · exact Or.inr rfl
  · exact Or.inr (Modbus_Poll_of_not_accepted mb hacc).2.2

theorem Modbus_RxCallback_de (mb : Modbus_HandleTypeDef) (data tick : Nat) :
    (Modbus_RxCallback mb data tick).de_pin_set = mb.de_pin_set := by
  unfold Modbus_RxCallback
  split <;> rfl

theorem Modbus_TimerCallback_de (mb : Modbus_HandleTypeDef) (tick : Nat) :
    (Modbus_TimerCallback mb tick).de_pin_set = mb.de_pin_set := by
  rcases Modbus_TimerCallback_eq mb tick with e | e <;> rw [e]

theorem Modbus_step_de (mb : Modbus_HandleTypeDef) (op : Modbus_Op)
    (h : mb.de_pin_set = false) : (Modbus_step mb op).de_pin_set = false := by
  cases op with
  | RxCallback data tick =>
    show (Modbus_RxCallback mb data tick).de_pin_set = false
    rw [Modbus_RxCallback_de]; exact h
  | TimerCallback tick =>
    show (Modbus_TimerCallback mb tick).de_pin_set = false
    rw [Modbus_TimerCallback_de]; exact h
  | Poll =>
    show (Modbus_Poll mb).de_pin_set = false
    rcases Modbus_Poll_de mb with e | e
    · exact e
    · rw [e]; exact h

/-- C27. Receive mode is the resting state of the direction line: the DE/RE pin is low
(receive) after `Modbus_Init` and in every state reached from it by `Modbus_RxCallback`,
`Modbus_TimerCallback` and `Modbus_Poll` calls; `Modbus_RxCallback` and
`Modbus_TimerCallback` never change the pin, and `Modbus_Poll` started in receive mode
ends in receive mode for every frame, answered or not. -/
theorem receive_mode_is_resting_state (mb0 : Modbus_HandleTypeDef)
    (slave_address : Nat) (holding_regs : List Nat) (reg_count : Nat) (ops : List Modbus_Op) :
    (Modbus_Init mb0 slave_address holding_regs reg_count).de_pin_set = false ∧
    (Modbus_run (Modbus_Init mb0 slave_address holding_regs reg_count) ops).de_pin_set
      = false ∧
    (∀ (mb : Modbus_HandleTypeDef) (data tick : Nat),
      (Modbus_RxCallback mb data tick).de_pin_set = mb.de_pin_set ∧
      (Modbus_RxCallback mb data tick).trace = mb.trace) ∧
    (∀ (mb : Modbus_HandleTypeDef) (tick : Nat),
      (Modbus_TimerCallback mb tick).de_pin_set = mb.de_pin_set ∧
      (Modbus_TimerCallback mb tick).trace = mb.trace) ∧
    (∀ mb : Modbus_HandleTypeDef, mb.de_pin_set = false →
      (Modbus_Poll mb).de_pin_set = false) := by
  refine ⟨rfl, ?_, fun mb d t => ⟨Modbus_RxCallback_de mb d t,
    (Modbus_RxCallback_trace_regs mb d t).1⟩, fun mb t => ⟨Modbus_TimerCallback_de mb t,
    (Modbus_TimerCallback_trace_regs mb t).1⟩, fun mb h => Modbus_step_de mb Modbus_Op.Poll h⟩
  exact Modbus_run_invariant (fun mb => mb.de_pin_set = false) Modbus_step_de _ ops rfl

theorem Modbus_SendException_bracket (mb : Modbus_HandleTypeDef) (function exception : Nat) :
    ∃ frame, (Modbus_SendException mb function exception).trace = mb.trace ++
      [Modbus_Event.SetDE true, Modbus_Event.UART_Transmit frame, Modbus_Event.SetDE false] := by
  unfold Modbus_SendException
  simp only []
  exact ⟨_, Modbus_SendResponse_trace _ _⟩

theorem Modbus_HandleReadHoldingRegisters_bracket (mb : Modbus_HandleTypeDef) :
    ∃ frame, (Modbus_HandleReadHoldingRegisters mb).trace = mb.trace ++
      [Modbus_Event.SetDE true, Modbus_Event.UART_Transmit frame, Modbus_Event.SetDE false] := by
  rw [Modbus_HandleReadHoldingRegisters_unfold]
  split
  · exact Modbus_SendException_bracket mb _ _
  · split
    · exact Modbus_SendException_bracket mb _ _
    · split
      · exact Modbus_SendException_bracket mb _ _
      · simp only []
        exact ⟨_, Modbus_SendResponse_trace _ _⟩

theorem Modbus_HandleWriteSingleRegister_bracket (mb : Modbus_HandleTypeDef) :
    ∃ pre frame, (Modbus_HandleWriteSingleRegister mb).trace = mb.trace ++
      (pre ++ [Modbus_Event.SetDE true, Modbus_Event.UART_Transmit frame,
        Modbus_Event.SetDE false]) ∧
      (pre = [] ∨ ∃ a v regs, pre = [Modbus_Event.write_callback a v regs]) := by
  by_cases h8 : mb.rx_index < 8
  · rw [Modbus_HandleWriteSingleRegister_short mb h8]
    obtain ⟨frame, h⟩ := Modbus_SendException_bracket mb MODBUS_FC_WRITE_SINGLE_REG
      MODBUS_EX_ILLEGAL_VALUE
    exact ⟨[], frame, by rw [h, List.nil_append], Or.inl rfl⟩
  · by_cases hin : request_word mb 2 < mb.holding_reg_count
    · rw [Modbus_HandleWriteSingleRegister_unfold mb (by omega) hin]
      simp only []
      rw [Modbus_SendResponse_trace]
      refine ⟨_, _, List.append_assoc _ _ _, ?_⟩
      cases mb.write_callback
      · exact Or.inl rfl
      · exact Or.inr ⟨_, _, _, rfl⟩
    · rw [Modbus_HandleWriteSingleRegister_bad_address mb (by omega) (by omega)]
      obtain ⟨frame, h⟩ := Modbus_SendException_bracket mb MODBUS_FC_WRITE_SINGLE_REG
        MODBUS_EX_ILLEGAL_ADDRESS
      exact ⟨[], frame, by rw [h, List.nil_append], Or.inl rfl⟩

/-- The actions one `Modbus_Poll` call records, for any handle: none, or possibly one call
of the write hook followed by one bracketed transmission. -/
theorem Modbus_Poll_bracket (mb : Modbus_HandleTypeDef) :
    (Modbus_Poll mb).trace = mb.trace ∨
    ∃ pre frame, (Modbus_Poll mb).trace = mb.trace ++
      (pre ++ [Modbus_Event.SetDE true, Modbus_Event.UART_Transmit frame,
        Modbus_Event.SetDE false]) ∧
      (pre = [] ∨ ∃ a v regs, pre = [Modbus_Event.write_callback a v regs]) := by
  by_cases hacc : frame_accepted mb
  · rw [Modbus_Poll_of_accepted mb hacc]
    by_cases hf3 : mb.rx_buffer.getD 1 0 = MODBUS_FC_READ_HOLDING_REGS
    · rw [if_pos hf3]
      obtain ⟨frame, h⟩ := Modbus_HandleReadHoldingRegisters_bracket mb
      exact Or.inr ⟨[], frame, by rw [List.nil_append]; exact h, Or.inl rfl⟩
    · rw [if_neg hf3]
      by_cases hf6 : mb.rx_buffer.getD 1 0 = MODBUS_FC_WRITE_SINGLE_REG
      · rw [if_pos hf6]
        exact Or.inr (Modbus_HandleWriteSingleRegister_bracket mb)
      · rw [if_neg hf6]
        split
        · obtain ⟨frame, h⟩ := Modbus_SendException_bracket mb (mb.rx_buffer.getD 1 0)
            MODBUS_EX_ILLEGAL_FUNCTION
          exact Or.inr ⟨[], frame, by rw [List.nil_append]; exact h, Or.inl rfl⟩
        · exact Or.inl rfl
  · exact Or.inl (Modbus_Poll_of_not_accepted mb hacc).1

/-- C28. Transmit mode brackets exactly the response bytes: for every handle and frame, the
line events one `Modbus_Poll` call adds to the trace are either none or exactly
`[switch to transmit, transmit one frame, switch to receive]`; so the line is never
switched to transmit without a transmission following and the switch back, and at most one
response is sent per call. -/
theorem transmit_mode_brackets_response (mb : Modbus_HandleTypeDef) :
    ∃ evs, (Modbus_Poll mb).trace = mb.trace ++ evs ∧
      (line_events evs = [] ∨
       ∃ frame, line_events evs =
        [Modbus_Event.SetDE true, Modbus_Event.UART_Transmit frame, Modbus_Event.SetDE false]) ∧
      (transmitted evs).length ≤ 1 := by
  rcases Modbus_Poll_bracket mb with h | ⟨pre, frame, h, hpre⟩
  · exact ⟨[], by rw [h, List.append_nil], Or.inl rfl, Nat.zero_le _⟩
  · refine ⟨_, h, Or.inr ⟨frame, ?_⟩, ?_⟩
    · rcases hpre with hp | ⟨a, v, regs, hp⟩ <;> subst hp <;> rfl
    · rcases hpre with hp | ⟨a, v, regs, hp⟩ <;> subst hp <;> exact Nat.le_refl _

/-- C29. In a successful write-single-register (CRC-valid, addressed to the slave or to
broadcast, register address `a` below the register count, value `v`): with a hook
registered, the actions recorded are the call of the hook with `(a, v)`, made when the
store already holds `v` at `a`, then the switch to transmit, the response and the switch
back; with no hook registered (as after `Modbus_Init`) the same request updates the store
in the same way and sends the same response. -/
theorem write_hook_after_store_before_response (mb : Modbus_HandleTypeDef)
    (hready : mb.frame_ready = true) (hlen : 8 ≤ mb.rx_index)
    (htx : mb.tx_buffer.length = 256)
    (hregs : mb.holding_registers.length = mb.holding_reg_count)
    (addr a v : Nat) (haddr : addr = mb.slave_address ∨ addr = 0)
    (ha : a < 65536) (hv : v < 65536)
    (hframe : mb.rx_buffer.take 6 = [addr, 0x06, a / 256, a % 256, v / 256, v % 256])
    (hcrc : received_crc mb = calculated_crc mb)
    (hin : a < mb.holding_reg_count) :
    (Modbus_Poll (Modbus_SetWriteCallback mb true)).trace = mb.trace ++
      [Modbus_Event.write_callback a v (mb.holding_registers.set a v),
       Modbus_Event.SetDE true,
       Modbus_Event.UART_Transmit
         (with_crc [mb.slave_address, 0x06, a / 256, a % 256, v / 256, v % 256]),
       Modbus_Event.SetDE false] ∧
    (mb.holding_registers.set a v).getD a 0 = v ∧
    (Modbus_Poll (Modbus_SetWriteCallback mb false)).trace = mb.trace ++
      [Modbus_Event.SetDE true,
       Modbus_Event.UART_Transmit
         (with_crc [mb.slave_address, 0x06, a / 256, a % 256, v / 256, v % 256]),
       Modbus_Event.SetDE false] ∧
    (Modbus_Poll (Modbus_SetWriteCallback mb true)).holding_registers =
      mb.holding_registers.set a v ∧
    (Modbus_Poll (Modbus_SetWriteCallback mb false)).holding_registers =
      mb.holding_registers.set a v ∧
    (∀ (mb0 : Modbus_HandleTypeDef) (slave_address : Nat) (holding_regs : List Nat)
      (reg_count : Nat),
      (Modbus_Init mb0 slave_address holding_regs reg_count).write_callback = false) := by
  obtain ⟨g0, g1, ga, gv⟩ := request_fields_of_take mb _ _ a v ha hv hframe
  have hserved : ∀ b, write_served (Modbus_SetWriteCallback mb b) := fun b =>
    ⟨⟨hready, by show 4 ≤ mb.rx_index; omega,
      by show mb.rx_buffer.getD 0 0 = mb.slave_address ∨ mb.rx_buffer.getD 0 0 = 0
         rw [g0]; exact haddr, hcrc⟩, g1, hlen,
      by show request_word mb 2 < mb.holding_reg_count
         rw [ga]; exact hin⟩
  have gab : ∀ b, request_word (Modbus_SetWriteCallback mb b) 2 = a := fun _ => ga
  have gvb : ∀ b, request_word (Modbus_SetWriteCallback mb b) 4 = v := fun _ => gv
  obtain ⟨t1, t2⟩ := Modbus_Poll_write_served_trace _ (hserved true) htx
  obtain ⟨f1, f2⟩ := Modbus_Poll_write_served_trace _ (hserved false) htx
  rw [gab, gvb] at t1 t2 f1 f2
  rw [word_hi_byte a ha, word_lo_byte a, word_hi_byte v hv, word_lo_byte v] at t2 f2
  refine ⟨?_, getD_set_eq _ _ _ (by omega), ?_, t1, f1, fun _ _ _ _ => rfl⟩
  · rw [t2]; rfl
  · rw [f2]; rfl

set_option maxRecDepth 100000 in
theorem write_hook_after_store_before_response_witness :
    (Modbus_Poll (Modbus_SetWriteCallback example_write_request true)).trace =
      example_write_request.trace ++
      [Modbus_Event.write_callback 11 0x0FFF
         (example_write_request.holding_registers.set 11 0x0FFF),
       Modbus_Event.SetDE true,
       Modbus_Event.UART_Transmit
         (with_crc [example_write_request.slave_address, 0x06, 11 / 256, 11 % 256,
           0x0FFF / 256, 0x0FFF % 256]),
       Modbus_Event.SetDE false] ∧
    (example_write_request.holding_registers.set 11 0x0FFF).getD 11 0 = 0x0FFF ∧
    (Modbus_Poll (Modbus_SetWriteCallback example_write_request false)).trace =
      example_write_request.trace ++
      [Modbus_Event.SetDE true,
       Modbus_Event.UART_Transmit
         (with_crc [example_write_request.slave_address, 0x06, 11 / 256, 11 % 256,
           0x0FFF / 256, 0x0FFF % 256]),
       Modbus_Event.SetDE false] ∧
    (Modbus_Poll (Modbus_SetWriteCallback example_write_request true)).holding_registers =
      example_write_request.holding_registers.set 11 0x0FFF ∧
    (Modbus_Poll (Modbus_SetWriteCallback example_write_request false)).holding_registers =
      example_write_request.holding_registers.set 11 0x0FFF ∧
    (∀ (mb0 : Modbus_HandleTypeDef) (slave_address : Nat) (holding_regs : List Nat)
      (reg_count : Nat),
      (Modbus_Init mb0 slave_address holding_regs reg_count).write_callback = false) :=
  write_hook_after_store_before_response example_write_request (by decide) (by decide)
    (by decide) (by decide) 3 11 0x0FFF (by decide) (by decide) (by decide) (by decide)
    (by decide) (by decide)

/-- A ready frame that is not served: the actions recorded are exactly the exception answer
determined by `unserved_exception`. -/
theorem Modbus_Poll_unserved_trace_eq (mb : Modbus_HandleTypeDef)
    (hr : ¬ read_served mb) (hw : ¬ write_served mb) (htx : mb.tx_buffer.length = 256) :
    (Modbus_Poll mb).trace = mb.trace ++ exception_events mb (unserved_exception mb) := by
  unfold unserved_exception
  by_cases hacc : frame_accepted mb
  · rw [Modbus_Poll_of_accepted mb hacc, if_pos hacc]
    have hex : ∀ f e, ({ Modbus_SendException mb f e with
        rx_index := 0, frame_ready := false } : Modbus_HandleTypeDef).trace = mb.trace ++
        [Modbus_Event.SetDE true,
         Modbus_Event.UART_Transmit (with_crc [mb.slave_address, (f ||| 0x80) % 256, e]),
         Modbus_Event.SetDE false] :=
      fun f e => Modbus_SendException_trace_with_crc mb f e (by omega)
    by_cases hf3 : mb.rx_buffer.getD 1 0 = MODBUS_FC_READ_HOLDING_REGS
    · rw [if_pos hf3, if_pos hf3]
      by_cases h8 : mb.rx_index < 8
      · rw [Modbus_HandleReadHoldingRegisters_short mb h8, if_pos h8, hex, exception_events, hf3]
      · by_cases hq : request_word mb 4 = 0 ∨ request_word mb 4 > 125
        · rw [Modbus_HandleReadHoldingRegisters_bad_quantity mb hq, if_neg h8, if_pos hq, hex,
            exception_events, hf3]
        · have hrange : request_word mb 2 + request_word mb 4 > mb.holding_reg_count :=
            Nat.lt_of_not_le (fun hle => hr ⟨hacc, hf3, by omega, by omega, by omega, hle⟩)
          rw [Modbus_HandleReadHoldingRegisters_bad_address mb (by omega) (by omega) (by omega)
            hrange, if_neg h8, if_neg hq, hex, exception_events, hf3]
    · rw [if_neg hf3, if_neg hf3]
      by_cases hf6 : mb.rx_buffer.getD 1 0 = MODBUS_FC_WRITE_SINGLE_REG
      · rw [if_pos hf6, if_pos hf6]
        by_cases h8 : mb.rx_index < 8
        · rw [Modbus_HandleWriteSingleRegister_short mb h8, if_pos h8, hex, exception_events,
            hf6]
        · have hge : request_word mb 2 ≥ mb.holding_reg_count :=
            Nat.le_of_not_lt (fun hin => hw ⟨hacc, hf6, by omega, hin⟩)
          rw [Modbus_HandleWriteSingleRegister_bad_address mb (by omega) hge, if_neg h8, hex,
            exception_events, hf6]
      · rw [if_neg hf6, if_neg hf6]
        by_cases h0 : mb.rx_buffer.getD 0 0 ≠ 0
        · rw [if_pos h0, if_pos h0, hex, exception_events]
        · rw [if_neg h0, if_neg h0, exception_events, List.append_nil]
  · rw [if_neg hacc, exception_events, List.append_nil]
    exact (Modbus_Poll_of_not_accepted mb hacc).1

theorem same_request_symm (m1 m2 : Modbus_HandleTypeDef) (h : same_request m1 m2) :
    same_request m2 m1 :=
  ⟨h.1.symm, h.2.1.symm, h.2.2.1.symm, h.2.2.2.1.symm, h.2.2.2.2.1.symm, h.2.2.2.2.2.symm⟩

theorem same_request_getD (m1 m2 : Modbus_HandleTypeDef) (h : same_request m1 m2) (i : Nat)
    (hi : i < m1.rx_index) : m1.rx_buffer.getD i 0 = m2.rx_buffer.getD i 0 := by
  obtain ⟨_, _, _, _, hidx, hbuf⟩ := h
  rw [← getD_take m1.rx_buffer m1.rx_index i hi, hbuf, getD_take _ _ _ (by omega)]

theorem same_request_word (m1 m2 : Modbus_HandleTypeDef) (h : same_request m1 m2) (i : Nat)
    (hi : i + 1 < m1.rx_index) : request_word m1 i = request_word m2 i := by
  rw [request_word, request_word, same_request_getD m1 m2 h i (by omega),
    same_request_getD m1 m2 h (i + 1) hi]

theorem same_request_crc (m1 m2 : Modbus_HandleTypeDef) (h : same_request m1 m2)
    (h2 : 2 ≤ m1.rx_index) :
    received_crc m1 = received_crc m2 ∧ calculated_crc m1 = calculated_crc m2 := by
  have hidx := h.2.2.2.2.1
  constructor
  · rw [received_crc, received_crc, ← hidx,
      same_request_getD m1 m2 h (m1.rx_index - 2) (by omega),
      same_request_getD m1 m2 h (m1.rx_index - 1) (by omega)]
  · rw [calculated_crc, calculated_crc, ← hidx]
    exact Modbus_CRC16_congr _ _ _ (fun i hi => same_request_getD m1 m2 h i (by omega))

theorem same_request_accepted (m1 m2 : Modbus_HandleTypeDef) (h : same_request m1 m2)
    (ha : frame_accepted m1) : frame_accepted m2 := by
  obtain ⟨a1, a2, a3, a4⟩ := ha
  obtain ⟨c1, c2⟩ := same_request_crc m1 m2 h (by omega)
  have g0 := same_request_getD m1 m2 h 0 (by omega)
  obtain ⟨hs, _, _, hfr, hidx, _⟩ := h
  exact ⟨by rw [← hfr]; exact a1, by omega, by rw [← g0, ← hs]; exact a3,
    by rw [← c1, ← c2]; exact a4⟩

theorem same_request_read_served (m1 m2 : Modbus_HandleTypeDef) (h : same_request m1 m2)
    (hr : read_served m1) : read_served m2 := by
  obtain ⟨r1, r2, r3, r4, r5, r6⟩ := hr
  have g1 := same_request_getD m1 m2 h 1 (by omega)
  have ws := same_request_word m1 m2 h 2 (by omega)
  have wq := same_request_word m1 m2 h 4 (by omega)
  have hacc := same_request_accepted m1 m2 h r1
  obtain ⟨_, _, hc, _, hidx, _⟩ := h
  exact ⟨hacc, by rw [← g1]; exact r2, by omega, by rw [← wq]; exact r4,
    by rw [← wq]; exact r5, by rw [← ws, ← wq, ← hc]; exact r6⟩

theorem same_request_write_served (m1 m2 : Modbus_HandleTypeDef) (h : same_request m1 m2)
    (hw : write_served m1) : write_served m2 := by
  obtain ⟨r1, r2, r3, r4⟩ := hw
  have g1 := same_request_getD m1 m2 h 1 (by omega)
  have wa := same_request_word m1 m2 h 2 (by omega)
  have hacc := same_request_accepted m1 m2 h r1
  obtain ⟨_, _, hc, _, hidx, _⟩ := h
  exact ⟨hacc, by rw [← g1]; exact r2, by omega, by rw [← wa, ← hc]; exact r4⟩

theorem same_request_exception_events (m1 m2 : Modbus_HandleTypeDef)
    (h : same_request m1 m2) :
    exception_events m1 (unserved_exception m1) = exception_events m2 (unserved_exception m2) := by
  by_cases hacc : frame_accepted m1
  · have hacc2 := same_request_accepted m1 m2 h hacc
    have h4 : 4 ≤ m1.rx_index := hacc.2.1
    have g0 := same_request_getD m1 m2 h 0 (by omega)
    have g1 := same_request_getD m1 m2 h 1 (by omega)
    have hidx := h.2.2.2.2.1
    have hcode : unserved_exception m1 = unserved_exception m2 := by
      unfold unserved_exception
      rw [if_pos hacc, if_pos hacc2, ← g1, ← g0, ← hidx]
      by_cases hf3 : m1.rx_buffer.getD 1 0 = MODBUS_FC_READ_HOLDING_REGS
      · rw [if_pos hf3, if_pos hf3]
        by_cases h8 : m1.rx_index < 8
        · rw [if_pos h8, if_pos h8]
        · rw [if_neg h8, if_neg h8, same_request_word m1 m2 h 4 (by omega)]
      · rw [if_neg hf3, if_neg hf3]
    cases hc : unserved_exception m2 with
    | none => rw [hcode, hc]; rfl
    | some e =>
      rw [hcode, hc]
      simp only [exception_events]
      rw [g1, h.1]
  · have hacc2 : ¬ frame_accepted m2 :=
      fun c => hacc (same_request_accepted m2 m1 (same_request_symm m1 m2 h) c)
    unfold unserved_exception
    rw [if_neg hacc, if_neg hacc2]
    rfl

theorem transmitted_bracket (pre : List Modbus_Event) (frame : List Nat)
    (hpre : pre = [] ∨ ∃ a v regs, pre = [Modbus_Event.write_callback a v regs]) :
    transmitted (pre ++ [Modbus_Event.SetDE true, Modbus_Event.UART_Transmit frame,
      Modbus_Event.SetDE false]) = [frame] := by
  rcases hpre with hp | ⟨a, v, regs, hp⟩ <;> subst hp <;> rfl

/-- C30. The response is built fresh per call: for any two handles with 256-byte transmit
buffers that hold the same request for the same slave and register store (`same_request`),
whatever the previous contents of their `tx_buffer` and the bytes of their `rx_buffer` from
`rx_index` on, `Modbus_Poll` hands exactly the same frames to the UART (the same one, or
none in both) and leaves the same register store. -/
theorem response_independent_of_stale_buffers (m1 m2 : Modbus_HandleTypeDef)
    (h : same_request m1 m2)
    (htx1 : m1.tx_buffer.length = 256) (htx2 : m2.tx_buffer.length = 256) :
    transmitted ((Modbus_Poll m1).trace.drop m1.trace.length) =
      transmitted ((Modbus_Poll m2).trace.drop m2.trace.length) ∧
    (Modbus_Poll m1).holding_registers = (Modbus_Poll m2).holding_registers := by
  have hsymm := same_request_symm m1 m2 h
  by_cases hr : read_served m1
  · have hr2 := same_request_read_served m1 m2 h hr
    have h8 : 8 ≤ m1.rx_index := hr.2.2.1
    obtain ⟨t1, s1⟩ := Modbus_Poll_read_served_trace m1 hr htx1
    obtain ⟨t2, s2⟩ := Modbus_Poll_read_served_trace m2 hr2 htx2
    rw [t1, t2, s1, s2, List.drop_left, List.drop_left,
      same_request_word m1 m2 h 2 (by omega), same_request_word m1 m2 h 4 (by omega),
      h.1, h.2.1]
    exact ⟨rfl, rfl⟩
  · have hr2 : ¬ read_served m2 := fun c => hr (same_request_read_served m2 m1 hsymm c)
    by_cases hw : write_served m1
    · have hw2 := same_request_write_served m1 m2 h hw
      have h8 : 8 ≤ m1.rx_index := hw.2.2.1
      obtain ⟨s1, t1⟩ := Modbus_Poll_write_served_trace m1 hw htx1
      obtain ⟨s2, t2⟩ := Modbus_Poll_write_served_trace m2 hw2 htx2
      rw [t1, t2, s1, s2, List.drop_left, List.drop_left,
        transmitted_bracket _ _ (by cases m1.write_callback
                                    · exact Or.inl rfl
                                    · exact Or.inr ⟨_, _, _, rfl⟩),
        transmitted_bracket _ _ (by cases m2.write_callback
                                    · exact Or.inl rfl
                                    · exact Or.inr ⟨_, _, _, rfl⟩),
        same_request_word m1 m2 h 2 (by omega), same_request_word m1 m2 h 4 (by omega),
        h.1, h.2.1]
      exact ⟨rfl, rfl⟩
    · have hw2 : ¬ write_served m2 := fun c => hw (same_request_write_served m2 m1 hsymm c)
      rw [Modbus_Poll_unserved_trace_eq m1 hr hw htx1,
        Modbus_Poll_unserved_trace_eq m2 hr2 hw2 htx2, List.drop_left, List.drop_left,
        same_request_exception_events m1 m2 h,
        Modbus_Poll_regs_of_not_write_served m1 hw,
        Modbus_Poll_regs_of_not_write_served m2 hw2]
      exact ⟨rfl, h.2.1⟩

set_option maxRecDepth 100000 in
theorem response_independent_of_stale_buffers_witness :
    transmitted ((Modbus_Poll example_write_request).trace.drop
        example_write_request.trace.length) =
      transmitted ((Modbus_Poll example_write_request_stale).trace.drop
        example_write_request_stale.trace.length) ∧
    (Modbus_Poll example_write_request).holding_registers =
      (Modbus_Poll example_write_request_stale).holding_registers :=
  response_independent_of_stale_buffers example_write_request example_write_request_stale
    (by decide) (by decide) (by decide)

/-- C33. For every combination of the four active-low DIP switches,
`SensorHub_ReadAddress` returns `1 + (SW1 + 2*SW2 + 4*SW3 + 8*SW4)`, where `SWi` is 1 iff
switch `i` is closed (its pin reads `GPIO_PIN_RESET`): the result lies in 1..16, all
switches off give 1, all on give 16, and it is never the broadcast address 0. -/
theorem SensorHub_ReadAddress_range (sw1 sw2 sw3 sw4 : GPIO_PinState) :
    SensorHub_ReadAddress sw1 sw2 sw3 sw4 =
      1 + ((if sw1 = GPIO_PinState.GPIO_PIN_RESET then 1 else 0) +
           2 * (if sw2 = GPIO_PinState.GPIO_PIN_RESET then 1 else 0) +
           4 * (if sw3 = GPIO_PinState.GPIO_PIN_RESET then 1 else 0) +
           8 * (if sw4 = GPIO_PinState.GPIO_PIN_RESET then 1 else 0)) ∧
    1 ≤ SensorHub_ReadAddress sw1 sw2 sw3 sw4 ∧
    SensorHub_ReadAddress sw1 sw2 sw3 sw4 ≤ 16 ∧
    SensorHub_ReadAddress sw1 sw2 sw3 sw4 ≠ 0 ∧
    SensorHub_ReadAddress GPIO_PinState.GPIO_PIN_SET GPIO_PinState.GPIO_PIN_SET
      GPIO_PinState.GPIO_PIN_SET GPIO_PinState.GPIO_PIN_SET = 1 ∧
    SensorHub_ReadAddress GPIO_PinState.GPIO_PIN_RESET GPIO_PinState.GPIO_PIN_RESET
      GPIO_PinState.GPIO_PIN_RESET GPIO_PinState.GPIO_PIN_RESET = 16 := by
  cases sw1 <;> cases sw2 <;> cases sw3 <;> cases sw4 <;> decide

theorem SensorHub_SetAnalogOutput_eq (channel value : Nat) (hc : channel = 0 ∨ channel = 1) :
    SensorHub_SetAnalogOutput true channel value =
      [{ channel := if channel = 0 then DAC_Channel.DAC_CHANNEL_1 else DAC_Channel.DAC_CHANNEL_2,
         value := min value 4095 }] := by
  have hv : (if value > 4095 then 4095 else value) = min value 4095 := by
    by_cases h : value > 4095
    · rw [if_pos h, Nat.min_eq_right (by omega)]
    · rw [if_neg h, Nat.min_eq_left (by omega)]
  rcases hc with h | h <;> subst h <;>
    simp only [SensorHub_SetAnalogOutput, Bool.not_eq_true, Bool.true_eq_false, if_false, hv] <;>
    rfl

/-- C34. The write hook `SensorHub_OnRegisterWrite` has an externally visible effect only
for registers 11 and 12: for every other register address and every value it makes no DAC
write (with or without a DAC); for register 11 (resp. 12) with a DAC configured it makes
exactly one write, setting DAC channel 1 (resp. channel 2) to `min(value, 4095)`; without a
DAC it makes none. -/
theorem SensorHub_OnRegisterWrite_effect (hdac : Bool) (reg_addr value : Nat) :
    (reg_addr ≠ 11 → reg_addr ≠ 12 → SensorHub_OnRegisterWrite hdac reg_addr value = []) ∧
    SensorHub_OnRegisterWrite true 11 value =
      [{ channel := DAC_Channel.DAC_CHANNEL_1, value := min value 4095 }] ∧
    SensorHub_OnRegisterWrite true 12 value =
      [{ channel := DAC_Channel.DAC_CHANNEL_2, value := min value 4095 }] ∧
    SensorHub_OnRegisterWrite false reg_addr value = [] := by
  refine ⟨?_, ?_, ?_, ?_⟩
  · intro h11 h12
    have a1 : ¬ reg_addr = REG_AOUT_1 := h11
    have a2 : ¬ reg_addr = REG_AOUT_2 := h12
    simp only [SensorHub_OnRegisterWrite, if_neg a1, if_neg a2]
  · show SensorHub_SetAnalogOutput true 0 value = _
    rw [SensorHub_SetAnalogOutput_eq 0 value (Or.inl rfl)]
    rfl
  · show SensorHub_SetAnalogOutput true 1 value = _
    rw [SensorHub_SetAnalogOutput_eq 1 value (Or.inr rfl)]
    rfl
  · unfold SensorHub_OnRegisterWrite
    split
    · rfl
    · split <;> rfl

theorem SensorHub_ConvertCurrent_eq (adc_value : Nat) :
    SensorHub_ConvertCurrent_mA_x100 adc_value =
      400 + ((max 745 (min adc_value 3723) - 745) * 1600) / 2978 := by
  have hspan : (3723 - 745 : Nat) = 2978 := rfl
  simp only [SensorHub_ConvertCurrent_mA_x100, ADC_4MA_VALUE, ADC_20MA_VALUE, ADC_CURRENT_SPAN,
    hspan]
  have key : ∀ x : Nat, x ≤ 2978 →
      (400 + x % 2 ^ 32 * 1600 % 2 ^ 32 / 2978) % 2 ^ 32 % 65536 = 400 + x * 1600 / 2978 := by
    intro x hx
    have e1 : x % 2 ^ 32 = x := Nat.mod_eq_of_lt (by omega)
    have e2 : x * 1600 % 2 ^ 32 = x * 1600 := Nat.mod_eq_of_lt (by omega)
    have e3 : x * 1600 / 2978 ≤ 1600 := by omega
    have e4 : (400 + x * 1600 / 2978) % 2 ^ 32 = 400 + x * 1600 / 2978 :=
      Nat.mod_eq_of_lt (by omega)
    have e5 : (400 + x * 1600 / 2978) % 65536 = 400 + x * 1600 / 2978 :=
      Nat.mod_eq_of_lt (by omega)
    rw [e1, e2, e4, e5]
  by_cases h1 : adc_value < 745
  · rw [if_pos h1, if_neg (by omega), Nat.min_eq_left (by omega), Nat.max_eq_left (by omega)]
    exact key _ (by omega)
  · rw [if_neg h1]
    by_cases h2 : adc_value > 3723
    · rw [if_pos h2, Nat.min_eq_right (by omega)]
      rfl
    · rw [if_neg h2, Nat.min_eq_left (by omega), Nat.max_eq_right (by omega)]
      exact key _ (by omega)

/-- C35. For every ADC value, `SensorHub_ConvertCurrent_mA_x100` returns
`400 + ((clamp(adc, 745, 3723) - 745) * 1600) / 2978` with integer division: the result lies
in 400..2000, is exactly 400 for every `adc ≤ 745` and exactly 2000 for every
`adc ≥ 3723`, is monotonically non-decreasing in `adc`, and the intermediate product is
below 2^32. -/
theorem SensorHub_ConvertCurrent_range (adc_value other : Nat) :
    SensorHub_ConvertCurrent_mA_x100 adc_value =
      400 + ((max 745 (min adc_value 3723) - 745) * 1600) / 2978 ∧
    400 ≤ SensorHub_ConvertCurrent_mA_x100 adc_value ∧
    SensorHub_ConvertCurrent_mA_x100 adc_value ≤ 2000 ∧
    (adc_value ≤ 745 → SensorHub_ConvertCurrent_mA_x100 adc_value = 400) ∧
    (3723 ≤ adc_value → SensorHub_ConvertCurrent_mA_x100 adc_value = 2000) ∧
    (adc_value ≤ other →
      SensorHub_ConvertCurrent_mA_x100 adc_value ≤ SensorHub_ConvertCurrent_mA_x100 other) ∧
    (max 745 (min adc_value 3723) - 745) * 1600 < 2 ^ 32 := by
  rw [SensorHub_ConvertCurrent_eq adc_value, SensorHub_ConvertCurrent_eq other]
  have ha : 745 ≤ max 745 (min adc_value 3723) ∧ max 745 (min adc_value 3723) ≤ 3723 := by
    constructor
    · exact Nat.le_max_left _ _
    · exact Nat.max_le.mpr ⟨by omega, Nat.min_le_right _ _⟩
  refine ⟨rfl, ?_, ?_, ?_, ?_, ?_, ?_⟩
  · omega
  · omega
  · intro h
    rw [Nat.min_eq_left (by omega), Nat.max_eq_left h]
  · intro h
    rw [Nat.min_eq_right h]
    rfl
  · intro h
    have hm : max 745 (min adc_value 3723) ≤ max 745 (min other 3723) := by
      apply Nat.max_le.mpr
      refine ⟨Nat.le_max_left _ _, ?_⟩
      refine Nat.le_trans ?_ (Nat.le_max_right _ _)
      exact Nat.le_min.mpr ⟨Nat.le_trans (Nat.min_le_left _ _) h, Nat.min_le_right _ _⟩
    have hb : 745 ≤ max 745 (min other 3723) := Nat.le_max_left _ _
    generalize max 745 (min adc_value 3723) = x at *
    generalize max 745 (min other 3723) = y at *
    have : (x - 745) * 1600 / 2978 ≤ (y - 745) * 1600 / 2978 :=
      Nat.div_le_div_right (Nat.mul_le_mul_right _ (by omega))
    omega
  · omega

theorem Modbus_step_ready_nonempty (mb : Modbus_HandleTypeDef) (op : Modbus_Op)
    (h : mb.frame_ready = true → 0 < mb.rx_index) :
    (Modbus_step mb op).frame_ready = true → 0 < (Modbus_step mb op).rx_index := by
  cases op with
  | RxCallback data tick =>
    show (Modbus_RxCallback mb data tick).frame_ready = true →
      0 < (Modbus_RxCallback mb data tick).rx_index
    by_cases hr : mb.rx_index < 256
    · rw [Modbus_RxCallback_room mb data tick hr]
      intro _
      exact Nat.succ_pos _
    · rw [Modbus_RxCallback_full mb data tick (by omega)]
      exact h
  | TimerCallback tick =>
    show (Modbus_TimerCallback mb tick).frame_ready = true →
      0 < (Modbus_TimerCallback mb tick).rx_index
    rw [Modbus_TimerCallback_unfold]
    by_cases hc : mb.rx_index > 0 ∧ ¬ mb.frame_ready = true
    · rw [if_pos hc]
      split
      · intro _
        exact hc.1
      · exact h
    · rw [if_neg hc]
      exact h
  | Poll =>
    show (Modbus_Poll mb).frame_ready = true → 0 < (Modbus_Poll mb).rx_index
    cases hfr : mb.frame_ready
    · rw [Modbus_Poll_not_ready mb hfr]
      intro c
      rw [hfr] at c
      exact absurd c (by decide)
    · rw [Modbus_Poll_ready mb hfr]
      intro c
      exact absurd (show false = true from c) (by decide)

/-- C36. In every state reached from `Modbus_Init` by any sequence of `Modbus_RxCallback`,
`Modbus_TimerCallback` and `Modbus_Poll` calls (each running to completion), the ready
flag implies a non-empty buffer, so the receiver is in one of the three states Idle
(empty, not ready), Accumulating (non-empty, not ready) or Ready (non-empty, ready), which
exclude each other. -/
theorem receiver_state_is_idle_accumulating_or_ready (mb0 : Modbus_HandleTypeDef)
    (slave_address : Nat) (holding_regs : List Nat) (reg_count : Nat) (ops : List Modbus_Op) :
    ((Modbus_run (Modbus_Init mb0 slave_address holding_regs reg_count) ops).frame_ready = true →
      0 < (Modbus_run (Modbus_Init mb0 slave_address holding_regs reg_count) ops).rx_index) ∧
    (((Modbus_run (Modbus_Init mb0 slave_address holding_regs reg_count) ops).rx_index = 0 ∧
      (Modbus_run (Modbus_Init mb0 slave_address holding_regs reg_count) ops).frame_ready
        = false) ∨
     (0 < (Modbus_run (Modbus_Init mb0 slave_address holding_regs reg_count) ops).rx_index ∧
      (Modbus_run (Modbus_Init mb0 slave_address holding_regs reg_count) ops).frame_ready
        = false) ∨
     (0 < (Modbus_run (Modbus_Init mb0 slave_address holding_regs reg_count) ops).rx_index ∧
      (Modbus_run (Modbus_Init mb0 slave_address holding_regs reg_count) ops).frame_ready
        = true)) := by
  have hinv : (Modbus_run (Modbus_Init mb0 slave_address holding_regs reg_count) ops).frame_ready
      = true →
      0 < (Modbus_run (Modbus_Init mb0 slave_address holding_regs reg_count) ops).rx_index :=
    Modbus_run_invariant (fun mb => mb.frame_ready = true → 0 < mb.rx_index)
      Modbus_step_ready_nonempty _ ops
      (fun c => absurd (show false = true from c) (by decide))
  refine ⟨hinv, ?_⟩
  generalize Modbus_run (Modbus_Init mb0 slave_address holding_regs reg_count) ops = mb at hinv
  cases hfr : mb.frame_ready
  · by_cases h0 : mb.rx_index = 0
    · exact Or.inl ⟨h0, rfl⟩
    · exact Or.inr (Or.inl ⟨Nat.pos_of_ne_zero h0, rfl⟩)
  · exact Or.inr (Or.inr ⟨hinv hfr, rfl⟩)

/-- C37. A ready, CRC-valid frame addressed to the slave with function `f` = 0x03 or 0x06
and a total length of 4 to 7 bytes is answered with the ILLEGAL_VALUE exception frame
`[slave_address, f | 0x80, 0x03, crc_lo, crc_hi]`, and the register store is unchanged.
The whole effect of `Modbus_Poll` is that of `Modbus_SendException` for `f` followed by
the buffer reset, so nothing but the address and function bytes of the frame enters it. -/
theorem Modbus_Poll_short_request (mb : Modbus_HandleTypeDef) (f : Nat)
    (hready : mb.frame_ready = true) (h4 : 4 ≤ mb.rx_index) (h8 : mb.rx_index < 8)
    (haddr : mb.rx_buffer.getD 0 0 = mb.slave_address)
    (hfc : mb.rx_buffer.getD 1 0 = f) (hf : f = 0x03 ∨ f = 0x06)
    (hcrc : received_crc mb = calculated_crc mb) (htx : 5 ≤ mb.tx_buffer.length) :
    (Modbus_Poll mb).trace = mb.trace ++
      [Modbus_Event.SetDE true,
       Modbus_Event.UART_Transmit (with_crc [mb.slave_address, f ||| 0x80, 0x03]),
       Modbus_Event.SetDE false] ∧
    (Modbus_Poll mb).holding_registers = mb.holding_registers ∧
    Modbus_Poll mb =
      { Modbus_SendException mb f MODBUS_EX_ILLEGAL_VALUE with
        rx_index := 0, frame_ready := false } := by
  have hdef : Modbus_Poll mb =
      { Modbus_SendException mb f MODBUS_EX_ILLEGAL_VALUE with
        rx_index := 0, frame_ready := false } := by
    rw [Modbus_Poll_of_accepted mb ⟨hready, h4, Or.inl haddr, hcrc⟩]
    rcases hf with h | h
    · subst h
      rw [if_pos (show mb.rx_buffer.getD 1 0 = MODBUS_FC_READ_HOLDING_REGS from hfc),
        Modbus_HandleReadHoldingRegisters_short mb h8]
      rfl
    · subst h
      rw [if_neg (show ¬ mb.rx_buffer.getD 1 0 = MODBUS_FC_READ_HOLDING_REGS by
          rw [hfc]; decide),
        if_pos (show mb.rx_buffer.getD 1 0 = MODBUS_FC_WRITE_SINGLE_REG from hfc),
        Modbus_HandleWriteSingleRegister_short mb h8]
      rfl
  have hmask : (f ||| 0x80) % 256 = f ||| 0x80 := by
    rcases hf with h | h <;> subst h <;> rfl
  refine ⟨?_, ?_, hdef⟩
  · rw [hdef]
    show (Modbus_SendException mb f MODBUS_EX_ILLEGAL_VALUE).trace = _
    rw [Modbus_SendException_trace_with_crc mb f MODBUS_EX_ILLEGAL_VALUE htx, hmask]
    rfl
  · rw [hdef]
    rfl

set_option maxRecDepth 100000 in
theorem Modbus_Poll_short_request_witness :
    (Modbus_Poll example_short_read_request).trace = example_short_read_request.trace ++
      [Modbus_Event.SetDE true,
       Modbus_Event.UART_Transmit
         (with_crc [example_short_read_request.slave_address, 0x03 ||| 0x80, 0x03]),
       Modbus_Event.SetDE false] ∧
    (Modbus_Poll example_short_read_request).holding_registers =
      example_short_read_request.holding_registers ∧
    Modbus_Poll example_short_read_request =
      { Modbus_SendException example_short_read_request 0x03 MODBUS_EX_ILLEGAL_VALUE with
        rx_index := 0, frame_ready := false } :=
  Modbus_Poll_short_request example_short_read_request 0x03 (by decide) (by decide)
    (by decide) (by decide) (by decide) (by decide) (by decide) (by decide)

/-- C38. When the receive buffer is full (`rx_index = 256`), `Modbus_RxCallback` is the
identity on the whole handle: buffer, `rx_index`, `frame_ready` and `last_rx_time` are
unchanged. The dropped byte therefore does not refresh the silence timer: if the frame is
not yet marked ready, a timer check at a tick `now` at least 5 ms after the last stored
byte marks it ready, whatever the tick at which the dropped byte arrived. -/
theorem Modbus_RxCallback_full_keeps_timer (mb : Modbus_HandleTypeDef) (data tick now : Nat)
    (hfull : mb.rx_index = MODBUS_RX_BUFFER_SIZE) :
    Modbus_RxCallback mb data tick = mb ∧
    (Modbus_RxCallback mb data tick).rx_buffer = mb.rx_buffer ∧
    (Modbus_RxCallback mb data tick).rx_index = mb.rx_index ∧
    (Modbus_RxCallback mb data tick).frame_ready = mb.frame_ready ∧
    (Modbus_RxCallback mb data tick).last_rx_time = mb.last_rx_time ∧
    (mb.frame_ready = false → mb.last_rx_time ≤ now → now < 2 ^ 32 →
      5 ≤ now - mb.last_rx_time →
      (Modbus_TimerCallback (Modbus_RxCallback mb data tick) now).frame_ready = true) := by
  have h256 : mb.rx_index = 256 := hfull
  have e := Modbus_RxCallback_full mb data tick (by omega)
  rw [e]
  refine ⟨rfl, rfl, rfl, rfl, rfl, ?_⟩
  intro hfr hle hlt h5
  have hel : (now + 2 ^ 32 - mb.last_rx_time) % 2 ^ 32 = now - mb.last_rx_time := by omega
  rw [Modbus_TimerCallback_unfold, if_pos ⟨by omega, by rw [hfr]; decide⟩, hel,
    if_pos (show now - mb.last_rx_time ≥ MODBUS_FRAME_TIMEOUT_MS from h5)]

set_option maxRecDepth 100000 in
theorem Modbus_RxCallback_full_keeps_timer_witness :
    example_full_buffer.rx_index = MODBUS_RX_BUFFER_SIZE ∧
    Modbus_RxCallback example_full_buffer 0x55 104 = example_full_buffer ∧
    (Modbus_TimerCallback (Modbus_RxCallback example_full_buffer 0x55 104) 105).frame_ready
      = true :=
  ⟨by decide,
   (Modbus_RxCallback_full_keeps_timer example_full_buffer 0x55 104 105 (by decide)).1,
   (Modbus_RxCallback_full_keeps_timer example_full_buffer 0x55 104 105 (by decide)).2.2.2.2.2
     (by decide) (by decide) (by decide) (by decide)⟩

/-- C39. The silence check is correct across wrap-around of the 32-bit tick: for a
non-empty buffer not yet marked ready, every stored `last_rx_time` below 2^32 and every
true elapsed duration `d` below 2^32 ms, the tick counter reads
`(last_rx_time + d) mod 2^32`, the elapsed time the check computes is exactly `d`, and the
frame is marked ready if and only if `d ≥ 5`. -/
theorem Modbus_TimerCallback_tick_wraparound (mb : Modbus_HandleTypeDef) (d : Nat)
    (hlast : mb.last_rx_time < 2 ^ 32) (hd : d < 2 ^ 32)
    (hne : 0 < mb.rx_index) (hnr : mb.frame_ready = false) :
    ((mb.last_rx_time + d) % 2 ^ 32 + 2 ^ 32 - mb.last_rx_time) % 2 ^ 32 = d ∧
    ((Modbus_TimerCallback mb ((mb.last_rx_time + d) % 2 ^ 32)).frame_ready = true ↔ 5 ≤ d) := by
  have hel : ((mb.last_rx_time + d) % 2 ^ 32 + 2 ^ 32 - mb.last_rx_time) % 2 ^ 32 = d := by
    omega
  refine ⟨hel, ?_⟩
  rw [Modbus_TimerCallback_unfold, if_pos ⟨hne, by rw [hnr]; decide⟩, hel]
  by_cases h5 : 5 ≤ d
  · rw [if_pos (show d ≥ MODBUS_FRAME_TIMEOUT_MS from h5)]
    exact ⟨fun _ => h5, fun _ => rfl⟩
  · rw [if_neg (show ¬ d ≥ MODBUS_FRAME_TIMEOUT_MS from h5)]
    refine ⟨fun c => ?_, fun c => absurd c h5⟩
    rw [hnr] at c
    exact absurd c (by decide)

set_option maxRecDepth 100000 in
theorem Modbus_TimerCallback_tick_wraparound_witness :
    example_before_wrap.last_rx_time = 0xFFFFFFFE ∧
    (0xFFFFFFFE + 5) % 2 ^ 32 = 3 ∧
    (Modbus_TimerCallback example_before_wrap 3).frame_ready = true :=
  ⟨rfl, by norm_num,
   (Modbus_TimerCallback_tick_wraparound example_before_wrap 5 (by norm_num [example_before_wrap])
     (by norm_num) (by decide) (by decide)).2.mpr (by decide)⟩

/-- C31. The address-range check of the read handler is exact over the whole 16-bit
domain. For every CRC-valid ready read request addressed to the slave with start address
`s` and quantity `q` in 0..65535 and every register count: the sum `s + q` the handler
forms (in C, in 32-bit `int` after integer promotion) is below 2^31, so it is the unbounded
sum; the request is served if and only if `1 ≤ q ≤ 125` and `s + q ≤ register_count` as
unbounded integers; the frame sent is the ILLEGAL_VALUE exception when `q` is 0 or above
125, the ILLEGAL_ADDRESS exception when `register_count < s + q`, and the register data
otherwise; and when it is served every register index read, `s + i` for `i < q`, is below
the register count. -/
theorem read_range_check_exact (mb : Modbus_HandleTypeDef)
    (hready : mb.frame_ready = true) (hlen : 8 ≤ mb.rx_index)
    (htx : mb.tx_buffer.length = 256)
    (s q : Nat) (hs : s < 65536) (hq : q < 65536)
    (hframe : mb.rx_buffer.take 6 =
      [mb.slave_address, 0x03, s / 256, s % 256, q / 256, q % 256])
    (hcrc : received_crc mb = calculated_crc mb) :
    s + q < 2 ^ 31 ∧
    (read_served mb ↔ (1 ≤ q ∧ q ≤ 125 ∧ s + q ≤ mb.holding_reg_count)) ∧
    (Modbus_Poll mb).trace = mb.trace ++
      [Modbus_Event.SetDE true,
       Modbus_Event.UART_Transmit
         (if q = 0 ∨ 125 < q then with_crc [mb.slave_address, 0x83, 0x03]
          else if mb.holding_reg_count < s + q then with_crc [mb.slave_address, 0x83, 0x02]
          else with_crc ([mb.slave_address, 0x03, 2 * q] ++
            read_payload mb.holding_registers s q)),
       Modbus_Event.SetDE false] ∧
    (read_served mb → ∀ i, i < q → s + i < mb.holding_reg_count) := by
  obtain ⟨g0, g1, gs, gq⟩ := request_fields_of_take mb _ _ s q hs hq hframe
  have g1a : mb.rx_buffer.getD 1 0 = MODBUS_FC_READ_HOLDING_REGS := g1
  have hacc : frame_accepted mb := ⟨hready, by omega, Or.inl g0, hcrc⟩
  have hserved : read_served mb ↔ (1 ≤ q ∧ q ≤ 125 ∧ s + q ≤ mb.holding_reg_count) := by
    constructor
    · rintro ⟨_, _, _, hq0, hq1, hr⟩
      rw [gq] at hq0 hq1
      rw [gs, gq] at hr
      exact ⟨by omega, hq1, hr⟩
    · rintro ⟨hq0, hq1, hr⟩
      refine ⟨hacc, g1a, hlen, ?_, ?_, ?_⟩
      · rw [gq]; omega
      · rw [gq]; exact hq1
      · rw [gs, gq]; exact hr
  refine ⟨by omega, hserved, ?_, ?_⟩
  · by_cases hbad : q = 0 ∨ 125 < q
    · rw [if_pos hbad, Modbus_Poll_of_accepted mb hacc, if_pos g1a,
        Modbus_HandleReadHoldingRegisters_bad_quantity mb (by rw [gq]; exact hbad)]
      show (Modbus_SendException mb MODBUS_FC_READ_HOLDING_REGS MODBUS_EX_ILLEGAL_VALUE).trace = _
      rw [Modbus_SendException_trace_with_crc mb _ _ (by omega)]
      rfl
    · rw [if_neg hbad]
      by_cases hrange : mb.holding_reg_count < s + q
      · rw [if_pos hrange, Modbus_Poll_of_accepted mb hacc, if_pos g1a,
          Modbus_HandleReadHoldingRegisters_bad_address mb hlen (by rw [gq]; omega)
            (by rw [gq]; omega) (by rw [gs, gq]; exact hrange)]
        show (Modbus_SendException mb MODBUS_FC_READ_HOLDING_REGS
          MODBUS_EX_ILLEGAL_ADDRESS).trace = _
        rw [Modbus_SendException_trace_with_crc mb _ _ (by omega)]
        rfl
      · rw [if_neg hrange]
        have hsv : read_served mb := hserved.mpr ⟨by omega, by omega, by omega⟩
        rw [(Modbus_Poll_read_served_trace mb hsv htx).1, gs, gq]
  · intro hsv i hi
    have := hserved.mp hsv
    omega

set_option maxRecDepth 100000 in
theorem read_range_check_exact_witness :
    (0xFFFF + 1) % 65536 ≤ example_read_top_address.holding_reg_count ∧
    ¬ read_served example_read_top_address ∧
    (Modbus_Poll example_read_top_address).trace = example_read_top_address.trace ++
      [Modbus_Event.SetDE true,
       Modbus_Event.UART_Transmit (with_crc [3, 0x83, 0x02]),
       Modbus_Event.SetDE false] :=
  ⟨by decide, by decide,
   (read_range_check_exact example_read_top_address (by decide) (by decide) (by decide)
     0xFFFF 1 (by decide) (by decide) (by decide) (by decide)).2.2.1⟩

theorem Modbus_HandleReadHoldingRegisters_rx_buffer (mb : Modbus_HandleTypeDef) :
    (Modbus_HandleReadHoldingRegisters mb).rx_buffer = mb.rx_buffer := by
  rw [Modbus_HandleReadHoldingRegisters_unfold]
  split
  · rfl
  · split
    · rfl
    · split <;> rfl

theorem Modbus_HandleWriteSingleRegister_rx_buffer (mb : Modbus_HandleTypeDef) :
    (Modbus_HandleWriteSingleRegister mb).rx_buffer = mb.rx_buffer := by
  by_cases h8 : mb.rx_index < 8
  · rw [Modbus_HandleWriteSingleRegister_short mb h8]; rfl
  · by_cases hin : request_word mb 2 < mb.holding_reg_count
    · rw [Modbus_HandleWriteSingleRegister_unfold mb (by omega) hin]; rfl
    · rw [Modbus_HandleWriteSingleRegister_bad_address mb (by omega) (by omega)]; rfl

/-- Processing a frame never writes the receive buffer. -/
theorem Modbus_Poll_rx_buffer (mb : Modbus_HandleTypeDef) :
    (Modbus_Poll mb).rx_buffer = mb.rx_buffer := by
  by_cases hacc : frame_accepted mb
  · rw [Modbus_Poll_of_accepted mb hacc]
    show (if mb.rx_buffer.getD 1 0 = MODBUS_FC_READ_HOLDING_REGS then
        Modbus_HandleReadHoldingRegisters mb
      else if mb.rx_buffer.getD 1 0 = MODBUS_FC_WRITE_SINGLE_REG then
        Modbus_HandleWriteSingleRegister mb
      else if mb.rx_buffer.getD 0 0 ≠ 0 then
        Modbus_SendException mb (mb.rx_buffer.getD 1 0) MODBUS_EX_ILLEGAL_FUNCTION
      else mb).rx_buffer = mb.rx_buffer
    split
    · exact Modbus_HandleReadHoldingRegisters_rx_buffer mb
    · split
      · exact Modbus_HandleWriteSingleRegister_rx_buffer mb
      · split <;> rfl
  · cases hready : mb.frame_ready
    · rw [Modbus_Poll_not_ready mb hready]
    · rw [Modbus_Poll_ready mb hready]
      by_cases h4 : mb.rx_index < 4
      · rw [Modbus_ProcessFrame_short mb h4]
      · by_cases ha : mb.rx_buffer.getD 0 0 = mb.slave_address ∨ mb.rx_buffer.getD 0 0 = 0
        · have hc : received_crc mb ≠ calculated_crc mb :=
            fun hc => hacc ⟨hready, by omega, ha, hc⟩
          rw [Modbus_ProcessFrame_bad_crc mb hc]
        · rw [Modbus_ProcessFrame_foreign mb (fun e => ha (Or.inl e)) (fun e => ha (Or.inr e))]

/-- C32 (counterexample). Slave 3 holds the ready 8-byte write request of
`example_write_request`; the byte 0x55 is delivered by `Modbus_RxCallback` after
`Modbus_ProcessFrame` has run and before `Modbus_Poll` resets the receiver. The byte is
stored at index 8, behind the frame, and the reset then sets `rx_index` to 0: after
`Modbus_Poll` returns the buffer holds no received byte, index 0 still holds the old
address byte, and the next byte to arrive (0x66) becomes the start of the next frame. -/
theorem byte_during_Poll_is_lost :
    example_write_request.frame_ready = true ∧
    (Modbus_run (Modbus_ProcessFrame example_write_request)
      (rx_arrivals [(0x55, 1)])).rx_buffer.getD 8 0 = 0x55 ∧
    (Modbus_Poll_interrupted example_write_request [(0x55, 1)]).rx_index = 0 ∧
    (Modbus_Poll_interrupted example_write_request [(0x55, 1)]).rx_buffer.take
      (Modbus_Poll_interrupted example_write_request [(0x55, 1)]).rx_index = [] ∧
    (Modbus_Poll_interrupted example_write_request [(0x55, 1)]).rx_buffer.getD 0 0 = 3 ∧
    (Modbus_RxCallback (Modbus_Poll_interrupted example_write_request [(0x55, 1)])
      0x66 2).rx_buffer.take
      (Modbus_RxCallback (Modbus_Poll_interrupted example_write_request [(0x55, 1)])
        0x66 2).rx_index = [0x66] := by
  decide

/-- C32 (amended). A byte is kept as the start of the next frame only if it is delivered
after `Modbus_Poll` has returned: for every ready frame, `Modbus_Poll` leaves the receiver
empty and not ready, and a byte delivered by `Modbus_RxCallback` after that is stored at
index 0 with `rx_index = 1` and its arrival tick recorded. Bytes delivered while
`Modbus_Poll` handles the frame (after `Modbus_ProcessFrame`, before the reset) are
discarded by the reset: whatever arrives there, `Modbus_Poll` returns with `rx_index = 0`
and the flag cleared. With no arrival the pre-empted call is `Modbus_Poll` itself. -/
theorem byte_kept_after_Poll_returns (mb : Modbus_HandleTypeDef) (data tick : Nat)
    (arrivals : List (Nat × Nat))
    (hready : mb.frame_ready = true) (hlen : mb.rx_buffer.length = 256) :
    (Modbus_RxCallback (Modbus_Poll mb) data tick).rx_index = 1 ∧
    (Modbus_RxCallback (Modbus_Poll mb) data tick).rx_buffer.take 1 = [data] ∧
    (Modbus_RxCallback (Modbus_Poll mb) data tick).last_rx_time = tick ∧
    (Modbus_RxCallback (Modbus_Poll mb) data tick).frame_ready = false ∧
    (Modbus_Poll_interrupted mb arrivals).rx_index = 0 ∧
    (Modbus_Poll_interrupted mb arrivals).frame_ready = false ∧
    Modbus_Poll_interrupted mb [] = Modbus_Poll mb := by
  have hidx : (Modbus_Poll mb).rx_index = 0 := by rw [Modbus_Poll_ready mb hready]
  have hfr : (Modbus_Poll mb).frame_ready = false := by rw [Modbus_Poll_ready mb hready]
  have hbuf : (Modbus_Poll mb).rx_buffer = mb.rx_buffer := Modbus_Poll_rx_buffer mb
  have hint : Modbus_Poll_interrupted mb arrivals =
      { Modbus_run (Modbus_ProcessFrame mb) (rx_arrivals arrivals) with
        rx_index := 0, frame_ready := false } := by
    simp only [Modbus_Poll_interrupted, hready, if_true]
  have hnil : Modbus_Poll_interrupted mb [] = Modbus_Poll mb := by
    simp only [Modbus_Poll_interrupted, Modbus_Poll, hready, if_true]
    rfl
  rw [Modbus_RxCallback_room (Modbus_Poll mb) data tick (by rw [hidx]; decide), hint]
  refine ⟨?_, ?_, rfl, hfr, rfl, rfl, hnil⟩
  · show (Modbus_Poll mb).rx_index + 1 = 1
    rw [hidx]
  · show ((Modbus_Poll mb).rx_buffer.set (Modbus_Poll mb).rx_index data).take 1 = [data]
    rw [hidx, hbuf]
    obtain ⟨a, b, c, r, hl⟩ := exists_cons3 mb.rx_buffer (by omega)
    rw [hl]
    rfl

set_option maxRecDepth 100000 in
theorem byte_kept_after_Poll_returns_witness :
    (Modbus_RxCallback (Modbus_Poll example_write_request) 0x55 1).rx_index = 1 ∧
    (Modbus_RxCallback (Modbus_Poll example_write_request) 0x55 1).rx_buffer.take 1 = [0x55] ∧
    (Modbus_Poll_interrupted example_write_request [(0x55, 1)]).rx_index = 0 :=
  ⟨(byte_kept_after_Poll_returns example_write_request 0x55 1 [(0x55, 1)]
      (by decide) (by decide)).1,
   (byte_kept_after_Poll_returns example_write_request 0x55 1 [(0x55, 1)]
      (by decide) (by decide)).2.1,
   (byte_kept_after_Poll_returns example_write_request 0x55 1 [(0x55, 1)]
      (by decide) (by decide)).2.2.2.2.1⟩

theorem access_in_bounds_rx (mb : Modbus_HandleTypeDef) (i : Nat) :
    access_in_bounds mb (Modbus_Access.rx_read i) ↔ (i < mb.rx_index ∧ i < 256) := Iff.rfl

theorem access_in_bounds_tx_read (mb : Modbus_HandleTypeDef) (i : Nat) :
    access_in_bounds mb (Modbus_Access.tx_read i) ↔ i < 256 := Iff.rfl

theorem access_in_bounds_tx_write (mb : Modbus_HandleTypeDef) (i : Nat) :
    access_in_bounds mb (Modbus_Access.tx_write i) ↔ i < 256 := Iff.rfl

theorem access_in_bounds_reg_read (mb : Modbus_HandleTypeDef) (i : Nat) :
    access_in_bounds mb (Modbus_Access.reg_read i) ↔ i < mb.holding_reg_count := Iff.rfl

theorem access_in_bounds_reg_write (mb : Modbus_HandleTypeDef) (i : Nat) :
    access_in_bounds mb (Modbus_Access.reg_write i) ↔ i < mb.holding_reg_count := Iff.rfl

theorem Modbus_SendException_accesses_in_bounds (mb : Modbus_HandleTypeDef) :
    ∀ a ∈ Modbus_SendException_accesses, access_in_bounds mb a := by
  simp only [Modbus_SendException_accesses, Modbus_CRC16_accesses, Modbus_SendResponse_accesses,
    List.forall_mem_append, List.forall_mem_cons, List.forall_mem_map, List.mem_range,
    access_in_bounds_tx_read, access_in_bounds_tx_write, List.not_mem_nil, false_implies,
    implies_true, and_true]
  refine ⟨⟨⟨?_, ?_⟩, ?_⟩, ?_⟩
  all_goals omega

theorem read_loop_accesses_spec (s : Nat) (init : List Modbus_Access) (q : Nat) :
    ((List.range q).foldl (read_loop_accesses s) (init, 3)).2 = 3 + 2 * q ∧
    ∀ a ∈ ((List.range q).foldl (read_loop_accesses s) (init, 3)).1,
      a ∈ init ∨ ∃ i, i < q ∧ (a = Modbus_Access.reg_read (s + i) ∨
        a = Modbus_Access.tx_write (3 + 2 * i) ∨ a = Modbus_Access.tx_write (3 + 2 * i + 1)) := by
  induction q with
  | zero => exact ⟨rfl, fun a ha => Or.inl ha⟩
  | succ n ih =>
    rw [List.range_succ, List.foldl_append]
    obtain ⟨h2, h1⟩ := ih
    simp only [List.foldl_cons, List.foldl_nil, read_loop_accesses]
    refine ⟨by rw [h2]; omega, ?_⟩
    intro a ha
    rw [List.mem_append] at ha
    rcases ha with ha | ha
    · rcases h1 a ha with h | ⟨i, hi, h⟩
      · exact Or.inl h
      · exact Or.inr ⟨i, by omega, h⟩
    · right
      refine ⟨n, by omega, ?_⟩
      rw [h2] at ha
      simp only [List.mem_cons, List.not_mem_nil, or_false] at ha
      exact ha

theorem Modbus_HandleReadHoldingRegisters_accesses_in_bounds (mb : Modbus_HandleTypeDef)
    (hidx : mb.rx_index ≤ 256) :
    ∀ a ∈ Modbus_HandleReadHoldingRegisters_accesses mb, access_in_bounds mb a := by
  unfold Modbus_HandleReadHoldingRegisters_accesses
  split
  · exact Modbus_SendException_accesses_in_bounds mb
  · rename_i h8
    simp only []
    rw [List.forall_mem_append]
    constructor
    · simp only [List.forall_mem_cons, access_in_bounds_rx, List.not_mem_nil, false_implies,
        implies_true, and_true]
      omega
    · split
      · exact Modbus_SendException_accesses_in_bounds mb
      · rename_i hq
        split
        · exact Modbus_SendException_accesses_in_bounds mb
        · rename_i hr
          obtain ⟨h2, h1⟩ := read_loop_accesses_spec
            (((mb.rx_buffer.getD 2 0 <<< 8) ||| mb.rx_buffer.getD 3 0) % 65536)
            [Modbus_Access.tx_write 0, Modbus_Access.tx_write 1, Modbus_Access.tx_write 2]
            (((mb.rx_buffer.getD 4 0 <<< 8) ||| mb.rx_buffer.getD 5 0) % 65536)
          rw [h2]
          generalize ((mb.rx_buffer.getD 2 0 <<< 8) ||| mb.rx_buffer.getD 3 0) % 65536 = s at *
          generalize ((mb.rx_buffer.getD 4 0 <<< 8) ||| mb.rx_buffer.getD 5 0) % 65536 = q at *
          simp only [Modbus_CRC16_accesses, Modbus_SendResponse_accesses,
            List.forall_mem_append, List.forall_mem_cons, List.forall_mem_map, List.mem_range,
            access_in_bounds_tx_read, access_in_bounds_tx_write, List.not_mem_nil, false_implies,
            implies_true, and_true]
          refine ⟨⟨⟨?_, ?_⟩, ?_⟩, ?_⟩
          · intro a ha
            rcases h1 a ha with h | ⟨i, hi, h | h | h⟩
            · simp only [List.mem_cons, List.not_mem_nil, or_false] at h
              rcases h with h | h | h <;> subst h <;> show _ < 256 <;> omega
            · subst h
              show s + i < mb.holding_reg_count
              omega
            · subst h
              show 3 + 2 * i < 256
              omega
            · subst h
              show 3 + 2 * i + 1 < 256
              omega
          · intro j hj
            omega
          · omega
          · intro j hj
            omega

theorem Modbus_HandleWriteSingleRegister_accesses_in_bounds (mb : Modbus_HandleTypeDef)
    (hidx : mb.rx_index ≤ 256) :
    ∀ a ∈ Modbus_HandleWriteSingleRegister_accesses mb, access_in_bounds mb a := by
  unfold Modbus_HandleWriteSingleRegister_accesses
  split
  · exact Modbus_SendException_accesses_in_bounds mb
  · rename_i h8
    simp only []
    rw [List.forall_mem_append]
    constructor
    · simp only [List.forall_mem_cons, access_in_bounds_rx, List.not_mem_nil, false_implies,
        implies_true, and_true]
      omega
    · split
      · exact Modbus_SendException_accesses_in_bounds mb
      · rename_i hr
        generalize ((mb.rx_buffer.getD 2 0 <<< 8) ||| mb.rx_buffer.getD 3 0) % 65536 = s at *
        simp only [Modbus_CRC16_accesses, Modbus_SendResponse_accesses,
          List.forall_mem_append, List.forall_mem_cons, List.forall_mem_map, List.mem_range,
          access_in_bounds_tx_read, access_in_bounds_tx_write, access_in_bounds_reg_write,
          List.not_mem_nil, false_implies, implies_true, and_true]
        refine ⟨⟨⟨?_, ?_⟩, ?_⟩, ?_⟩
        all_goals omega

theorem Modbus_ProcessFrame_accesses_in_bounds (mb : Modbus_HandleTypeDef)
    (hidx : mb.rx_index ≤ 256) :
    ∀ a ∈ Modbus_ProcessFrame_accesses mb, access_in_bounds mb a := by
  unfold Modbus_ProcessFrame_accesses
  split
  · intro a ha
    exact absurd ha (List.not_mem_nil a)
  · rename_i h4
    simp only []
    rw [List.forall_mem_append]
    constructor
    · simp only [List.forall_mem_cons, access_in_bounds_rx, List.not_mem_nil, false_implies,
        implies_true, and_true]
      omega
    · split
      · intro a ha
        exact absurd ha (List.not_mem_nil a)
      · rw [List.forall_mem_append, List.forall_mem_append]
        refine ⟨⟨?_, ?_⟩, ?_⟩
        · simp only [List.forall_mem_cons, access_in_bounds_rx, List.not_mem_nil, false_implies,
            implies_true, and_true]
          omega
        · simp only [Modbus_CRC16_accesses, List.forall_mem_map, List.mem_range,
            access_in_bounds_rx]
          intro j hj
          omega
        · split
          · intro a ha
            exact absurd ha (List.not_mem_nil a)
          · rw [List.forall_mem_append]
            constructor
            · simp only [List.forall_mem_cons, access_in_bounds_rx, List.not_mem_nil,
                false_implies, implies_true, and_true]
              omega
            · split
              · exact Modbus_HandleReadHoldingRegisters_accesses_in_bounds mb hidx
              · split
                · exact Modbus_HandleWriteSingleRegister_accesses_in_bounds mb hidx
                · split
                  · exact Modbus_SendException_accesses_in_bounds mb
                  · intro a ha
                    exact absurd ha (List.not_mem_nil a)

theorem Modbus_Poll_accesses_short (mb : Modbus_HandleTypeDef) (h : mb.rx_index < 4) :
    Modbus_Poll_accesses mb = [] := by
  unfold Modbus_Poll_accesses Modbus_ProcessFrame_accesses
  rw [if_pos h, ite_self]

/-- C40. Every buffer access made by `Modbus_Poll` is in bounds. For every handle with
`rx_index` in 0..256, whatever the buffers hold and whatever the register count: each
`rx_buffer` read is at an index below `rx_index` (and below 256), each `holding_registers`
read or write is at an index below the register count, and each `tx_buffer` access is at
an index below 256; a frame of fewer than 4 bytes causes no access at all, so the trailer
positions `rx_index - 2` and `rx_index - 1` are read only when `rx_index ≥ 4`. When a read
request is served, the frame handed to the UART has `5 + 2 * quantity ≤ 255` bytes and the
byte-count field `2 * quantity ≤ 250` fits one byte without truncation. -/
theorem Modbus_Poll_accesses_in_bounds (mb : Modbus_HandleTypeDef)
    (hidx : mb.rx_index ≤ MODBUS_RX_BUFFER_SIZE) :
    (∀ a ∈ Modbus_Poll_accesses mb, access_in_bounds mb a) ∧
    (mb.rx_index < 4 → Modbus_Poll_accesses mb = []) ∧
    (read_served mb → mb.tx_buffer.length = 256 →
      ∃ frame, (Modbus_Poll mb).trace = mb.trace ++
          [Modbus_Event.SetDE true, Modbus_Event.UART_Transmit frame,
           Modbus_Event.SetDE false] ∧
        frame.length = 5 + 2 * request_word mb 4 ∧ frame.length ≤ 255 ∧
        frame.getD 2 0 = 2 * request_word mb 4 ∧
        (request_word mb 4 * 2) % 256 = 2 * request_word mb 4 ∧
        2 * request_word mb 4 ≤ 250) := by
  refine ⟨?_, Modbus_Poll_accesses_short mb, ?_⟩
  · unfold Modbus_Poll_accesses
    split
    · exact Modbus_ProcessFrame_accesses_in_bounds mb hidx
    · intro a ha
      exact absurd ha (List.not_mem_nil a)
  · intro hsv htx
    have hq : request_word mb 4 ≤ 125 := hsv.2.2.2.2.1
    refine ⟨_, (Modbus_Poll_read_served_trace mb hsv htx).1, ?_, ?_, rfl, by omega, by omega⟩
    · simp only [with_crc, List.length_append, List.length_cons, List.length_nil,
        read_payload_length]
      omega
    · simp only [with_crc, List.length_append, List.length_cons, List.length_nil,
        read_payload_length]
      omega

set_option maxRecDepth 100000 in
theorem Modbus_Poll_accesses_in_bounds_witness :
    example_read_request.rx_index ≤ MODBUS_RX_BUFFER_SIZE ∧
    Modbus_Access.rx_read 7 ∈ Modbus_Poll_accesses example_read_request ∧
    Modbus_Access.reg_read 124 ∈ Modbus_Poll_accesses example_read_request ∧
    Modbus_Access.tx_write 254 ∈ Modbus_Poll_accesses example_read_request ∧
    ∀ a ∈ Modbus_Poll_accesses example_read_request, access_in_bounds example_read_request a :=
  ⟨by decide, by decide, by decide, by decide,
   (Modbus_Poll_accesses_in_bounds example_read_request (by decide)).1⟩
